import Mathlib

/-!
# Icecast-kh: authentication pipeline and file-serving engine

A shallow embedding of `src/auth.c` and `src/fserve.c` and the properties of
the specification that were checked against it.

Conventions of the embedding

* C `int` is 32 bits wide and `off_t` / `intmax_t` 64 bits (the source reads an
  `off_t` with the `intmax_t` conversion `SCNdMAX`, so it takes the two to have
  the same width).  Values are kept in `Int`; a store into a narrower
  object is written with an explicit wrap (`to_int`).
* C strings are `String`s; a `NULL` pointer is `none`.
* Objects that the C code shares through pointers and that outlive a call
  (file handles, queued work items) live in an address-indexed heap.
* A call that would dereference `NULL`, block for ever on a lock the caller
  already holds, or divide by zero, ends the run with a `fault`.
* Signed arithmetic that overflows is undefined in C: where the source can
  reach it, the value is the one the compiled program computes, a parameter
  of the embedding (`overflowed_rate`).
* Functions of other translation units are taken as parameters, collected in
  the `*_env` structures.
* Where several threads work on one authenticator, each section under
  `auth->lock` and each call made outside the lock is one event of a step
  relation (`system_step`); events of different threads can follow each other
  in any order.
-/

namespace Icecast

/-! ## Part I. Definitions -/

/-! ### C library helpers -/

/-- Value of a C `int` object after storing `v` into it (two's complement wrap). -/
def to_int (v : Int) : Int := (v + 2147483648) % 4294967296 - 2147483648

/-- Largest `off_t` / `intmax_t` / `long` value. -/
def OFF_T_MAX : Int := 9223372036854775807

/-- Smallest `off_t` / `intmax_t` / `long` value. -/
def OFF_T_MIN : Int := -9223372036854775808

/-- Saturation of `strtol` / `strtoimax` on a value out of range. -/
def saturate (v : Int) : Int :=
  if v > OFF_T_MAX then OFF_T_MAX else if v < OFF_T_MIN then OFF_T_MIN else v

/-- The `isspace` class of the C locale. -/
def isspace (c : Char) : Bool :=
  c = ' ' || c = '\t' || c = '\n' || c = '\x0b' || c = '\x0c' || c = '\r'

/-- The `isdigit` class. -/
def isdigit (c : Char) : Bool := decide (48 ≤ c.toNat) && decide (c.toNat ≤ 57)

/-- Drop leading white space, as every numeric conversion does first. -/
def skip_space : List Char → List Char
  | [] => []
  | c :: cs => if isspace c then skip_space cs else c :: cs

/-- Accumulate the leading run of decimal digits onto `acc`. -/
def scan_digits : Nat → List Char → Nat
  | acc, [] => acc
  | acc, c :: cs => if isdigit c then scan_digits (acc * 10 + (c.toNat - 48)) cs else acc

/-- The unsigned digit run at the head of the text, `none` when there is no digit. -/
def scan_unsigned : List Char → Option Nat
  | [] => none
  | c :: cs => if isdigit c then some (scan_digits 0 (c :: cs)) else none

/-- The subject sequence of a base 10 signed conversion: optional white
space, optional sign, at least one digit.  `none` when nothing converts. -/
def scan_signed (s : List Char) : Option Int :=
  match skip_space s with
  | [] => none
  | c :: cs =>
    if c = '-' then (scan_unsigned cs).map (fun n => -(n : Int))
    else if c = '+' then (scan_unsigned cs).map (fun n => (n : Int))
    else (scan_unsigned (c :: cs)).map (fun n => (n : Int))

/-- The call `atoi (s)`, that is `(int) strtol (s, NULL, 10)`: zero when
nothing converts, saturated to `long`, then stored in an `int`. -/
def atoi (s : String) : Int :=
  match scan_signed s.data with
  | none => 0
  | some v => to_int (saturate v)

/-- The call `sscanf (s, "%" SCN_OFF_T "-", &rangenumber)`: the pair of the
return value and the value left in `rangenumber` (initially `0`).  The return
value is `1` when a number was converted (the literal `-` after it cannot
change the count), `-1` (`EOF`) when the input ends before any conversion
starts and `0` on a matching failure. -/
def sscanf_off_t (s : List Char) : Int × Int :=
  match scan_signed s with
  | some v => (1, saturate v)
  | none => if skip_space s = [] then (-1, 0) else (0, 0)

/-- The call `strncasecmp (s, "bytes=", 6) == 0`. -/
def range_in_bytes (s : List Char) : Bool :=
  (s.take 6).map Char.toLower = ['b', 'y', 't', 'e', 's', '=']

/-- The call `strcmp (a, b)` on the characters of two strings: negative,
zero or positive as `a` sorts before, equal to or after `b` by character
code (C fixes the sign of the result only; `-1`, `0`, `1` are used). -/
def strcmp_chars : List Char → List Char → Int
  | [], [] => 0
  | [], _ :: _ => -1
  | _ :: _, [] => 1
  | c :: cs, d :: ds =>
    if c = d then strcmp_chars cs ds else if c.toNat < d.toNat then -1 else 1

/-- The call `strcmp (a, b)` on strings. -/
def strcmp (a b : String) : Int := strcmp_chars a.data b.data

/-- Result of `snprintf (buf, size, ...)` for the full text `s`: at most
`size - 1` characters are stored. -/
def snprintf (size : Nat) (s : String) : String := ⟨s.data.take (size - 1)⟩

/-- The bits of `flags` that are not in `mask`, the C `flags & ~mask`. -/
def clear_bits (flags mask : Nat) : Nat := flags ^^^ (flags &&& mask)

/-- The C test `flags & mask`. -/
def has_bits (flags mask : Nat) : Bool := (flags &&& mask) != 0

/-- A text that does not go on with a decimal digit (so a number in front of it
is read whole). -/
def stops (rest : List Char) : Prop := ∀ c tl, rest = c :: tl → isdigit c = false

/-! ### Ways a run can end without returning -/

/-- Locks of the two subsystems. -/
inductive lock_id where
  | fh_cache
  | fh (addr : Nat)
  | config
  | source_tree
  | source (mount : String)
  | auth (mount : String)
deriving DecidableEq, Repr

/-- One lock operation of the running thread. -/
inductive lock_ev where
  | acquire (l : lock_id)
  | release (l : lock_id)
deriving DecidableEq, Repr

/-- How a call ends when it does not return. -/
inductive fault where
  | null_deref (what : String)
  | dangling (addr : Nat)
  | out_of_bounds (what : String)
  | deadlock (l : lock_id)
  | unlock_unheld (l : lock_id)
  | division_by_zero
deriving DecidableEq, Repr

deriving instance DecidableEq for Except

/-! ### Data model -/

/-- Stream formats, `format_type_t` of `format.h`. -/
inductive format_type_t where
  | FORMAT_TYPE_UNDEFINED
  | FORMAT_TYPE_OGG
  | FORMAT_TYPE_AAC
  | FORMAT_TYPE_MPEG
  | FORMAT_TYPE_EBML
deriving DecidableEq, Repr

/-- Modelled from the spec: the client flag set of `client.h`, which is not
among the sources.  The spec lists the flags as bit flags; each gets one bit,
in the order of the list. -/
def CLIENT_AUTHENTICATED : Nat := 1

/-- Modelled from the spec: client flag `ACTIVE` (see `CLIENT_AUTHENTICATED`). -/
def CLIENT_ACTIVE : Nat := 2

/-- Modelled from the spec: client flag `IS_SLAVE` (see `CLIENT_AUTHENTICATED`). -/
def CLIENT_IS_SLAVE : Nat := 4

/-- Modelled from the spec: client flag `HAS_MOVED` (see `CLIENT_AUTHENTICATED`). -/
def CLIENT_HAS_MOVED : Nat := 8

/-- Modelled from the spec: client flag `IN_FSERVE` (see `CLIENT_AUTHENTICATED`). -/
def CLIENT_IN_FSERVE : Nat := 16

/-- Modelled from the spec: client flag `SKIP_ACCESSLOG` (see `CLIENT_AUTHENTICATED`). -/
def CLIENT_SKIP_ACCESSLOG : Nat := 32

/-- Modelled from the spec: client flag `IP_BAN_LIFT` (see `CLIENT_AUTHENTICATED`). -/
def CLIENT_IP_BAN_LIFT : Nat := 64

/-- Modelled from the spec: client flag `HAS_INTRO_CONTENT` (see `CLIENT_AUTHENTICATED`). -/
def CLIENT_HAS_INTRO_CONTENT : Nat := 128

/-- Modelled from the spec: client flag `WANTS_FLV` (see `CLIENT_AUTHENTICATED`). -/
def CLIENT_WANTS_FLV : Nat := 256

/-- Modelled from the spec: client flag `NO_CONTENT_LENGTH` (see `CLIENT_AUTHENTICATED`). -/
def CLIENT_NO_CONTENT_LENGTH : Nat := 512

/-- Modelled from the spec: the `FS_*` bits of `fserve.h`, which is not among
the sources.  The spec names `USE_ADMIN`, `FALLBACK` and `OVERRIDE` as flags
of a file handle key; each gets one bit. -/
def FS_USE_ADMIN : Nat := 1

/-- Modelled from the spec: file flag `FALLBACK` (see `FS_USE_ADMIN`). -/
def FS_FALLBACK : Nat := 4

/-- Modelled from the spec: file flag `OVERRIDE` (see `FS_USE_ADMIN`). -/
def FS_OVERRIDE : Nat := 16

/-- Modelled from the spec: the buffer flag `WRITE_BLOCK_GENERIC` of
`refbuf.h`, which is not among the sources; one bit. -/
def WRITE_BLOCK_GENERIC : Nat := 1

/-- Size of the header buffer, `BUFSIZE` of `fserve.c`. -/
def BUFSIZE : Nat := 4096

/-- The four operation tables a client can carry (`client->ops`). -/
inductive client_ops where
  | buffer_content_ops
  | file_content_ops
  | throttled_file_content_ops
  | auth_release_ops
deriving DecidableEq, Repr

/-- One buffer of an outbound chain; the chain itself (`next`) is the list
that holds the buffers. -/
structure refbuf_t where
  data : String
  len : Int
  flags : Nat
deriving DecidableEq, Repr

/-- Modelled from the spec: the fields of `connection_t` (`connection.h`, not
among the sources) that the two subsystems read or write. -/
structure connection_t where
  id : Nat
  error : Int
  sent_bytes : Nat
  con_time : Int
  discon_time : Int
  ip : String
  sock : Int
deriving DecidableEq, Repr

/-- Modelled from the spec: what the core consumes of the HTTP parser handle
(`httpp.h`, not among the sources): header variables, query parameters and
whether the request is a stats request. -/
structure http_parser_t where
  vars : List (String × String)
  query : List (String × String)
  req_stats : Bool
deriving DecidableEq, Repr

/-- Modelled from the spec: the fields of the event-loop worker (`worker_t`,
not among the sources) read by the file engine. -/
structure worker_t where
  time_ms : Int
  current_time_sec : Int
  count : Int
  move_allocations : Int
deriving DecidableEq, Repr

/-- Modelled from the spec: `client_t` (`client.h`, not among the sources)
with the attributes section 3 of the spec lists.  `shared_data` is the address
of the attached file handle, `refbuf` the outbound chain (empty for `NULL`),
`check_buffer` the identity of the selected write function. -/
structure client_t where
  connection : connection_t
  parser : http_parser_t
  respcode : Int
  username : Option String
  password : Option String
  flags : Nat
  worker : Option worker_t
  shared_data : Option Nat
  refbuf : List refbuf_t
  intro_offset : Int
  pos : Int
  timer_start : Int
  counter : Int
  schedule_ms : Int
  check_buffer : Option Nat
  ops : Option client_ops
  mount : Option String
  format_data : Option Nat
deriving DecidableEq, Repr

/-- The call `httpp_getvar (parser, name)`. -/
def httpp_getvar (p : http_parser_t) (name : String) : Option String :=
  (p.vars.find? (fun kv => kv.1 = name)).map Prod.snd

/-- The call `httpp_get_query_param (parser, name)`. -/
def httpp_get_query_param (p : http_parser_t) (name : String) : Option String :=
  (p.query.find? (fun kv => kv.1 = name)).map Prod.snd

/-- The call `httpp_deletevar (parser, name)`. -/
def httpp_deletevar (p : http_parser_t) (name : String) : http_parser_t :=
  { p with vars := p.vars.filter (fun kv => kv.1 ≠ name) }

/-- The callbacks a work item can carry in `process`. -/
inductive auth_process where
  | auth_new_listener
  | auth_remove_listener
  | stream_auth_callback
  | stream_start_callback
  | stream_end_callback
deriving DecidableEq, Repr

/-- A work item, `auth_client`.  `next` is the address of the item queued
behind it, `client` the listener it carries. -/
structure auth_client where
  mount : String
  hostname : String
  port : Int
  process : Option auth_process
  client : Option client_t
  next : Option Nat
  thread_data : Nat
  handler : Nat
deriving DecidableEq, Repr

/-- A worker slot, `auth_thread_t`; `thread` is `none` while the slot is free. -/
structure auth_thread_t where
  thread : Option Nat
  data : Nat
  id : Nat
deriving DecidableEq, Repr

/-- Where `tailp` can point: at `auth->head` or at the `next` field of a
work item. -/
inductive tail_ref where
  | head
  | next (item : Nat)
deriving DecidableEq, Repr

/-- An authenticator, `auth_t` (`auth.h` is not among the sources; the fields
are those `auth.c` uses).  A callback of the vtable is the identity of the
function or `none`; `items` holds the queued work items by address. -/
structure auth_t where
  type : Option String
  mount : String
  realm : Option String
  rejected_mount : Option String
  allow_duplicate_users : Int
  drop_existing_listener : Int
  handlers : Int
  refcount : Int
  running : Int
  pending_count : Int
  head : Option Nat
  tailp : Option tail_ref
  items : List (Nat × auth_client)
  handles : List auth_thread_t
  authenticate : Option Nat
  release_listener : Option Nat
  stream_auth : Option Nat
  stream_start : Option Nat
  stream_end : Option Nat
  release : Option Nat
  alloc_thread_data : Option Nat
  release_thread_data : Option Nat
deriving DecidableEq, Repr

/-- The authenticator `calloc` returns in `auth_get_authenticator`, with the
`type` attribute of the XML node stored. -/
def calloc_auth (type : Option String) : auth_t :=
  { type := type, mount := "", realm := none, rejected_mount := none,
    allow_duplicate_users := 0, drop_existing_listener := 0, handlers := 0,
    refcount := 0, running := 0, pending_count := 0, head := none, tailp := none,
    items := [], handles := [], authenticate := none, release_listener := none,
    stream_auth := none, stream_start := none, stream_end := none, release := none,
    alloc_thread_data := none, release_thread_data := none }

/-- Modelled from the spec: the mount configuration record `mount_proxy`
(`cfgfile.h`, not among the sources) with the options the spec lists. -/
structure mount_proxy where
  mountname : String
  auth : Option auth_t
  password : Option String
  username : Option String
  fallback_mount : Option String
  file_seekable : Int
  so_sndbuf : Int
  no_mount : Int
  redirect : Option String
  ban_client : Int
  max_listeners : Int
  skip_accesslog : Int
  limit_rate : Int
  access_log_name : Option String
deriving DecidableEq, Repr

/-- An option of an authenticator block, `config_options_t`. -/
structure config_options_t where
  name : String
  value : String
deriving DecidableEq, Repr

/-! ### Authenticator construction (`auth.c`) -/

/-- The four back-end constructors, which live in other files, and the two
build switches `get_authenticator` depends on.  A constructor gives its
return code and the authenticator as it leaves it. -/
structure auth_backends where
  have_auth_url : Bool
  win32 : Bool
  auth_get_url_auth : auth_t → List config_options_t → Int × auth_t
  auth_get_cmd_auth : auth_t → List config_options_t → Int × auth_t
  auth_get_htpasswd_auth : auth_t → List config_options_t → Int × auth_t
  auth_get_radio_auth : auth_t → List config_options_t → Int × auth_t
  alloc_thread_data : auth_t → Nat → Nat

/-- The `do { ... } while (0)` block of `get_authenticator`: pick the back-end
by `auth->type` and run its constructor.  `none` stands for `return -1`. -/
def select_backend (B : auth_backends) (auth : auth_t) (options : List config_options_t) :
    Option auth_t :=
  match auth.type with
  | none => none
  | some ty =>
    if ty = "url" then
      if B.have_auth_url then
        (if (B.auth_get_url_auth auth options).1 < 0 then none
         else some (B.auth_get_url_auth auth options).2)
      else none
    else if ty = "command" then
      if B.win32 then none
      else (if (B.auth_get_cmd_auth auth options).1 < 0 then none
            else some (B.auth_get_cmd_auth auth options).2)
    else if ty = "htpasswd" then
      (if (B.auth_get_htpasswd_auth auth options).1 < 0 then none
       else some (B.auth_get_htpasswd_auth auth options).2)
    else if ty = "radio" then
      (if (B.auth_get_radio_auth auth options).1 < 0 then none
       else some (B.auth_get_radio_auth auth options).2)
    else none

/-- One pass of the body of `while (options)` in `get_authenticator`. -/
def apply_option (auth : auth_t) (o : config_options_t) : auth_t :=
  if o.name = "allow_duplicate_users" then { auth with allow_duplicate_users := atoi o.value }
  else if o.name = "realm" then { auth with realm := some o.value }
  else if o.name = "drop_existing_listener" then
    { auth with drop_existing_listener := atoi o.value }
  else if o.name = "rejected_mount" then { auth with rejected_mount := some o.value }
  else if o.name = "handlers" then { auth with handlers := atoi o.value }
  else auth

/-- The loop `while (options)` of `get_authenticator`. -/
def apply_options (auth : auth_t) (options : List config_options_t) : auth_t :=
  options.foldl apply_option auth

/-- The two closing statements of `get_authenticator` on `auth->handlers`. -/
def clamp_handlers (auth : auth_t) : auth_t :=
  let a1 := if auth.handlers < 1 then { auth with handlers := 3 } else auth
  if a1.handlers > 100 then { a1 with handlers := 100 } else a1

/-- The function `get_authenticator (auth, options)`: the return value and
the authenticator afterwards. -/
def get_authenticator (B : auth_backends) (auth : auth_t) (options : List config_options_t) :
    Int × auth_t :=
  match select_backend B auth options with
  | none => (-1, auth)
  | some a => (0, clamp_handlers (apply_options a options))

/-- A child of the authenticator XML node: its element name and its `name`
and `value` attributes. -/
structure xml_child where
  name : String
  prop_name : Option String
  prop_value : Option String
deriving DecidableEq, Repr

/-- The first loop of `auth_get_authenticator`: the `option` children that
have both attributes, in document order. -/
def collect_options : List xml_child → List config_options_t
  | [] => []
  | c :: cs =>
    if c.name = "option" then
      match c.prop_name, c.prop_value with
      | some n, some v => ⟨n, v⟩ :: collect_options cs
      | _, _ => collect_options cs
    else collect_options cs

/-- The slots `calloc (auth->handlers, sizeof (auth_thread_t))` filled by the
`for` loop of `auth_get_authenticator`, numbered from `thread_id`. -/
def make_handles (B : auth_backends) (auth : auth_t) (thread_id : Nat) : List auth_thread_t :=
  (List.range auth.handlers.toNat).map (fun i =>
    { thread := none,
      data := if auth.alloc_thread_data.isSome then B.alloc_thread_data auth i else 0,
      id := thread_id + i })

/-- The function `auth_get_authenticator (node, x)` for a node with the given
`type` attribute and children: the return value, what is stored through `x`
(`none` when nothing is stored) and the global `thread_id` afterwards. -/
def auth_get_authenticator (B : auth_backends) (type : Option String)
    (children : List xml_child) (thread_id : Nat) : Int × Option auth_t × Nat :=
  let r := get_authenticator B (calloc_auth type) (collect_options children)
  if r.1 < 0 then (0, none, thread_id)
  else
    let a := { r.2 with tailp := some tail_ref.head, refcount := 1, running := 1 }
    (0, some { a with handles := make_handles B a thread_id }, thread_id + a.handlers.toNat)

/-! ### The authenticator queue (`auth.c`) -/

/-- Process-wide variables of `auth.c` and the globals it touches. -/
structure auth_globals where
  allow_auth : Int
  new_connections_slowdown : Int
  banned_ips : List (String × Int)
deriving DecidableEq, Repr

/-- Functions of other translation units used by the auth pipeline.  A
function that takes over a client gives back its return value and the client
as it leaves it. -/
structure auth_env where
  hostname : String
  port : Int
  config_find_mount : String → Option mount_proxy
  thread_create : String → Nat → Option Nat
  client_send_401 : client_t → Option String → Int × client_t
  client_send_403 : client_t → String → Int × client_t
  client_send_302 : client_t → String → Int × client_t
  client_send_404 : client_t → Option String → Int × client_t
  client_set_queue : client_t → client_t
  stats_add_listener : client_t → client_t
  command_list_mounts : client_t → client_t
  is_xslt_content : String → Bool
  stats_transform_xslt : client_t → String → Int × client_t
  source_add_listener : String → Option mount_proxy → client_t → Int × client_t

/-- The function `auth_client_setup (mount, client)`: a zeroed work item with
mount, host name, port and client filled in. -/
def auth_client_setup (E : auth_env) (mount : String) (client : Option client_t) : auth_client :=
  { mount := mount, hostname := E.hostname, port := E.port, process := none,
    client := client, next := none, thread_data := 0, handler := 0 }

/-- Address given to a newly allocated work item: one not in use on the queue. -/
def fresh_item (auth : auth_t) : Nat := (auth.items.map Prod.fst).foldl max 0 + 1

/-- The store `*auth->tailp = p`. -/
def store_tail (auth : auth_t) (p : Nat) : Except fault auth_t :=
  match auth.tailp with
  | none => .error (fault.null_deref "auth->tailp")
  | some tail_ref.head => .ok { auth with head := some p }
  | some (tail_ref.next q) =>
    if auth.items.any (fun it => it.1 = q) then
      .ok { auth with items := auth.items.map (fun it =>
              if it.1 = q then (it.1, { it.2 with next := some p }) else it) }
    else .error (fault.dangling q)

/-- The `for` loop of `queue_auth_client` from slot `i` on, with `n` slots
left to look at: the first free slot gets a new thread and the authenticator
one more reference. -/
def start_handler (E : auth_env) (auth : auth_t) : Nat → Nat → Except fault auth_t
  | _, 0 => .ok auth
  | i, n + 1 =>
    match auth.handles.get? i with
    | none => .error (fault.out_of_bounds "auth->handles")
    | some h =>
      if h.thread = none then
        .ok { auth with refcount := auth.refcount + 1,
                        handles := auth.handles.set i { h with thread := E.thread_create auth.mount i } }
      else start_handler E auth (i + 1) n

/-- The body of `queue_auth_client` under `auth->lock`, for the work item
`auth_user` placed at address `p`. -/
def enqueue_item (E : auth_env) (auth : auth_t) (p : Nat) (auth_user : auth_client) :
    Except fault auth_t := do
  let a1 ← store_tail { auth with items := auth.items ++ [(p, { auth_user with next := none })] } p
  let a2 := { a1 with tailp := some (tail_ref.next p), pending_count := a1.pending_count + 1 }
  if a2.refcount > a2.handlers then pure a2
  else start_handler E a2 0 a2.handlers.toNat

/-- The function `queue_auth_client (auth_user, mountinfo)`: the mount
configuration afterwards (its authenticator holds the queue). -/
def queue_auth_client (E : auth_env) (auth_user : Option auth_client)
    (mountinfo : Option mount_proxy) : Except fault (Option mount_proxy) :=
  match auth_user, mountinfo with
  | none, _ => .ok mountinfo
  | some _, none => .ok mountinfo
  | some u, some m =>
    match m.auth with
    | none => .error (fault.null_deref "mountinfo->auth")
    | some auth => do
      let a ← enqueue_item E auth (fresh_item auth) u
      pure (some { m with auth := some a })

/-- The function `auth_release_listener (client, mount, mountinfo)`: return
value, client and mount configuration afterwards. -/
def auth_release_listener (E : auth_env) (client : client_t) (mount : Option String)
    (mountinfo : Option mount_proxy) : Except fault (Int × client_t × Option mount_proxy) :=
  if has_bits client.flags CLIENT_AUTHENTICATED then
    let c1 := E.client_set_queue client
    let queued : Option (String × mount_proxy) :=
      match mount, mountinfo with
      | some mt, some m =>
        match m.auth with
        | some a => if a.release_listener.isSome then some (mt, m) else none
        | none => none
      | _, _ => none
    match queued with
    | some (mt, m) => do
      let c2 := { c1 with flags := clear_bits c1.flags CLIENT_ACTIVE }
      let c3 := if c2.worker.isSome then { c2 with ops := some client_ops.auth_release_ops } else c2
      let u := { auth_client_setup E mt (some c3) with
                 process := some auth_process.auth_remove_listener }
      let m2 ← queue_auth_client E (some u) (some m)
      pure (0, c3, m2)
    | none =>
      let c2 := { c1 with flags := clear_bits c1.flags CLIENT_AUTHENTICATED }
      let r := E.client_send_404 c2 none
      .ok (r.1, r.2, mountinfo)
  else
    let r := E.client_send_404 client none
    .ok (r.1, r.2, mountinfo)

/-! ### The file-handle cache (`fserve.c`) -/

/-- The request for a file handle, `fbinfo` (`fserve.h` is not among the
sources; the fields are those `fserve.c` and `auth.c` use). -/
structure fbinfo where
  flags : Nat
  limit : Int
  mount : Option String
  fallback : Option String
  type : format_type_t
deriving DecidableEq, Repr

/-- What the file engine uses of a format plugin (`format_plugin_t`): the two
callbacks are the identity of the function or `none`. -/
structure format_plugin_t where
  type : format_type_t
  mount : Option String
  create_client_data : Option Nat
  write_buf_to_client : Option Nat
deriving DecidableEq, Repr

/-- A file handle, `fh_node`.  `f` is the descriptor (`-1` when no file is
open), `out_bitrate` the window and bucket size of the rate estimator when it
exists, `clients` the tree of attached clients, named by connection id. -/
structure fh_node where
  finfo : fbinfo
  refcount : Int
  peak : Int
  f : Int
  stats_update : Int
  stats : Int
  format : Option format_plugin_t
  out_bitrate : Option (Nat × Nat)
  clients : List Nat
deriving DecidableEq, Repr

/-- Process-wide state of the file engine: the live `fh_node` objects by
address, the addresses held by the tree `fh_cache`, `fserve_running`, the
mime table (extension, type) and the lock operations done so far. -/
structure fserve_state where
  heap : List (Nat × fh_node)
  fh_cache : List Nat
  fserve_running : Int
  mimetypes : Option (List (String × String))
  trace : List lock_ev
deriving DecidableEq, Repr

/-- What `move_listener` sees of a live source: its mount, the answer of
`source_available` and the type of its format. -/
structure source_t where
  mount : String
  available : Bool
  format_type : format_type_t
deriving DecidableEq, Repr

/-- Functions, constants and settings of other translation units used by the
file engine, on top of those the auth pipeline uses.  `write_fn` runs the
write function with the given identity on a client;
`format_generic_write_to_client` is the identity of the generic one;
`stat` gives the size of a file and whether it is a regular file, `none`
when the call fails; `httpp_var_uri` and `httpp_var_queryargs` are the names
under which the parser keeps the request URI and the query string;
`overflowed_rate` stands for the compiler: it gives what the compiled
statement `rate = rate * 1000/8` of `move_listener` computes from a `rate`
whose product with 1000 does not fit an `int`, a case C leaves undefined. -/
structure fserve_env extends auth_env where
  util_get_extension : String → Option String
  util_get_path_from_normalised_uri : String → Bool → String
  format_get_type : String → format_type_t
  os_open : String → Int
  lseek : Int → Int → Int
  stat : String → Option (Int × Bool)
  fileserve : Int
  per_client_refbuf_size : Int
  httpp_var_uri : String
  httpp_var_queryargs : String
  format_get_plugin : format_plugin_t → Int × format_plugin_t
  stats_handle : String → Int
  create_client_data : format_plugin_t → client_t → client_t
  check_duplicate_logins : Option String → List Nat → client_t → Option auth_t → Int
  client_send_403redirect : client_t → Option String → String → Int × client_t
  redirect_client : String → client_t → Int × client_t
  admin_send_xspf : client_t → String → Int × client_t
  strftime_gmt : Int → String
  format_generic_write_to_client : Nat
  write_fn : Nat → client_t → Int × client_t
  source_find_mount_raw : String → Option source_t
  source_setup_listener : source_t → client_t → client_t
  overflowed_rate : Int → Int

/-- Whether the running thread holds lock `l` after the operations `tr`. -/
def held (tr : List lock_ev) (l : lock_id) : Bool :=
  decide (tr.count (lock_ev.release l) < tr.count (lock_ev.acquire l))

/-- Take a mutex or a write lock: a thread that already holds it never
gets it. -/
def lock (st : fserve_state) (l : lock_id) : Except fault fserve_state :=
  if held st.trace l then .error (fault.deadlock l)
  else .ok { st with trace := st.trace ++ [lock_ev.acquire l] }

/-- Give a lock back; giving back a lock that is not held is an error. -/
def unlock (st : fserve_state) (l : lock_id) : Except fault fserve_state :=
  if held st.trace l then .ok { st with trace := st.trace ++ [lock_ev.release l] }
  else .error (fault.unlock_unheld l)

/-- The call `config_get_config ()`: a read lock, which nests. -/
def config_get_config (st : fserve_state) : fserve_state :=
  { st with trace := st.trace ++ [lock_ev.acquire lock_id.config] }

/-- The call `config_release_config ()`. -/
def config_release_config (st : fserve_state) : fserve_state :=
  { st with trace := st.trace ++ [lock_ev.release lock_id.config] }

/-- Read the object at `addr`. -/
def heap_get (st : fserve_state) (addr : Nat) : Except fault fh_node :=
  match st.heap.find? (fun e => e.1 = addr) with
  | some e => .ok e.2
  | none => .error (fault.dangling addr)

/-- Write the object at `addr`. -/
def heap_set (st : fserve_state) (addr : Nat) (fh : fh_node) : fserve_state :=
  { st with heap := st.heap.map (fun e => if e.1 = addr then (addr, fh) else e) }

/-- An address for a new `fh_node`: one that no live object has. -/
def fresh_fh (st : fserve_state) : Nat := (st.heap.map Prod.fst).foldl max 0 + 1

/-- The function `_compare_fh (arg, a, b)` on the keys of two handles. -/
def _compare_fh (x y : fbinfo) : Except fault Int :=
  match x.mount, y.mount with
  | some a, some b =>
    if strcmp a b ≠ 0 then .ok (strcmp a b)
    else .ok ((x.flags : Int) - (y.flags : Int))
  | _, _ => .error (fault.null_deref "finfo.mount")

/-- Search of the tree for key `key` among the addresses `cache`: the first
node that compares equal. -/
def avl_find (st : fserve_state) (key : fbinfo) : List Nat → Except fault (Option Nat)
  | [] => .ok none
  | a :: rest => do
    let n ← heap_get st a
    let r ← _compare_fh key n.finfo
    if r = 0 then pure (some a) else avl_find st key rest

/-- The call `avl_get_by_key (fh_cache, &key, &result)`. -/
def avl_get_by_key (st : fserve_state) (key : fbinfo) : Except fault (Option Nat) :=
  avl_find st key st.fh_cache

/-- The call `avl_delete (fh_cache, fh, NULL)`: the node that compares equal
to the key leaves the tree, if there is one. -/
def avl_delete (st : fserve_state) (key : fbinfo) : Except fault fserve_state := do
  match ← avl_get_by_key st key with
  | some a => pure { st with fh_cache := st.fh_cache.erase a }
  | none => pure st

/-- The function `find_fh (finfo)`: the handle found and the request, whose
`mount` the function replaces by `""` when it is `NULL`. -/
def find_fh (st : fserve_state) (finfo : fbinfo) : Except fault (Option Nat × fbinfo) := do
  let finfo1 := if finfo.mount = none then { finfo with mount := some "" } else finfo
  let r ← avl_get_by_key st finfo1
  pure (r, finfo1)

/-- The function `fserve_content_type (path)`. -/
def fserve_content_type (E : fserve_env) (st : fserve_state) (path : String) : String :=
  match E.util_get_extension path with
  | none => "text/html"
  | some ext =>
    match st.mimetypes.bind (fun t => t.find? (fun e => e.1 = ext)) with
    | some e => e.2
    | none =>
      if ext = "ogg" then "application/ogg"
      else if ext = "mp3" then "audio/mpeg"
      else if ext = "html" then "text/html"
      else if ext = "css" then "text/css"
      else if ext = "txt" then "text/plain"
      else if ext = "jpg" then "image/jpeg"
      else if ext = "png" then "image/png"
      else if ext = "m3u" then "audio/x-mpegurl"
      else if ext = "aac" then "audio/aac"
      else "application/octet-stream"

/-- The function `file_in_use (f)`. -/
def file_in_use (f : Int) : Bool := f != -1

/-- The function `file_open (&f, fn)`: the return value and the descriptor stored. -/
def file_open (E : fserve_env) (fn : String) : Int × Int :=
  (if E.os_open fn < 0 then -1 else 0, E.os_open fn)

/-- The function `remove_from_fh (fh, client)`. -/
def remove_from_fh (fh : fh_node) (client : client_t) : fh_node :=
  { fh with clients := fh.clients.erase client.connection.id }

/-- The function `fh_add_client (fh, client)`: the handle and the client afterwards. -/
def fh_add_client (E : fserve_env) (fh : fh_node) (client : client_t) : fh_node × client_t :=
  let fh1 := { fh with refcount := fh.refcount + 1 }
  let fh2 := if fh1.stats ≠ 0 ∧ fh1.refcount > fh1.peak then { fh1 with peak := fh1.refcount }
             else fh1
  let fh3 := { fh2 with clients := fh2.clients ++ [client.connection.id] }
  match fh3.format with
  | none => (fh3, client)
  | some fmt =>
    let c1 := if fmt.create_client_data.isSome ∧ client.format_data = none then
        E.create_client_data fmt client else client
    let c2 := match fmt.write_buf_to_client with
      | some w => { c1 with check_buffer := some w }
      | none => c1
    (fh3, c2)

/-- The zeroed node `calloc` returns in `open_fh`, with the request copied in. -/
def calloc_fh (finfo : fbinfo) : fh_node :=
  { finfo := finfo, refcount := 0, peak := 0, f := 0, stats_update := 0, stats := 0,
    format := none, out_bitrate := none, clients := [] }

/-- The block of `open_fh` under `if (fh->finfo.mount[0])`: the node with
type, file and format plugin set up, or `none` where the function gives up
(`return NULL`, after `avl_tree_unlock`). -/
def open_fh_file (E : fserve_env) (st : fserve_state) (finfo : fbinfo) (mount : String)
    (fh : fh_node) : Option fh_node :=
  let fullpath := E.util_get_path_from_normalised_uri mount (has_bits fh.finfo.flags FS_USE_ADMIN)
  let type := E.format_get_type (fserve_content_type E st fullpath)
  let fh1 := if fh.finfo.type = format_type_t.FORMAT_TYPE_UNDEFINED then
      { fh with finfo := { fh.finfo with type := type } } else fh
  if has_bits finfo.flags FS_FALLBACK ∧ fh1.finfo.type ≠ type
      ∧ fh1.finfo.type ≠ format_type_t.FORMAT_TYPE_UNDEFINED then none
  else
    let fh2 := { fh1 with f := (file_open E fullpath).2 }
    if (file_open E fullpath).1 < 0 ∧ has_bits finfo.flags FS_FALLBACK then none
    else if fh2.finfo.type ≠ format_type_t.FORMAT_TYPE_UNDEFINED then
      let plugin : format_plugin_t :=
        { type := fh2.finfo.type, mount := some mount, create_client_data := none,
          write_buf_to_client := none }
      if (E.format_get_plugin plugin).1 < 0 then none
      else
        let fh3 := { fh2 with format := some (E.format_get_plugin plugin).2 }
        some (if fh3.finfo.limit ≠ 0 then { fh3 with out_bitrate := some (10000, 1000) } else fh3)
    else some fh2

/-- The function `open_fh (finfo)`, entered with the cache write lock held:
the handle returned (locked) or `none`, the state and the request afterwards. -/
def open_fh (E : fserve_env) (st : fserve_state) (finfo : fbinfo) :
    Except fault (Option Nat × fserve_state × fbinfo) := do
  let finfo1 := if finfo.mount = none then { finfo with mount := some "" } else finfo
  let mount := finfo1.mount.getD ""
  match ← avl_get_by_key st finfo1 with
  | some r =>
    let st1 ← lock st (lock_id.fh r)
    let st2 ← unlock st1 lock_id.fh_cache
    let result ← heap_get st2 r
    if has_bits finfo1.flags FS_FALLBACK ∧ result.finfo.type ≠ finfo1.type
        ∧ finfo1.type ≠ format_type_t.FORMAT_TYPE_UNDEFINED then
      let st3 ← unlock st2 (lock_id.fh r)
      pure (none, st3, finfo1)
    else pure (some r, st2, finfo1)
  | none =>
    let built := if mount ≠ "" then open_fh_file E st finfo1 mount (calloc_fh finfo1)
                 else some (calloc_fh finfo1)
    match built with
    | none =>
      let st1 ← unlock st lock_id.fh_cache
      pure (none, st1, finfo1)
    | some fh =>
      let addr := fresh_fh st
      let st1 ← lock st (lock_id.fh addr)
      let st2 ← unlock st1 lock_id.fh_cache
      let fh1 : fh_node := { fh with refcount := 0, peak := 0 }
      let fh2 : fh_node := if fh1.finfo.limit ≠ (0 : Int) then
          { fh1 with stats := E.stats_handle ((if has_bits finfo1.flags FS_FALLBACK then "fallback"
                                               else "file") ++ "-" ++ mount) }
        else fh1
      let fh3 := { fh2 with finfo := { fh2.finfo with mount := some mount,
                                                      fallback := finfo1.fallback } }
      pure (some addr,
            { st2 with heap := st2.heap ++ [(addr, fh3)], fh_cache := st2.fh_cache ++ [addr] },
            finfo1)

/-- The function `remove_fh_from_cache (fh)`: the return value and the state afterwards. -/
def remove_fh_from_cache (st : fserve_state) (addr : Nat) : Except fault (Int × fserve_state) := do
  let st1 ← lock st lock_id.fh_cache
  let st2 ← lock st1 (lock_id.fh addr)
  let fh ← heap_get st2 addr
  let fh1 := if fh.refcount ≠ 0 then { fh with refcount := fh.refcount - 1 } else fh
  let st3 := heap_set st2 addr fh1
  if fh1.refcount = 0 then
    let st4 ← avl_delete st3 fh1.finfo
    let st5 ← unlock st4 (lock_id.fh addr)
    let st6 ← unlock st5 lock_id.fh_cache
    pure (1, st6)
  else
    let st5 ← unlock st3 (lock_id.fh addr)
    let st6 ← unlock st5 lock_id.fh_cache
    pure (0, st6)

/-- The function `_delete_fh (fh)`: the object is freed. -/
def _delete_fh (st : fserve_state) (addr : Nat) : fserve_state :=
  { st with heap := st.heap.filter (fun e => e.1 ≠ addr) }

/-- The function `fh_release (fh)`, entered with `fh->lock` held. -/
def fh_release (st : fserve_state) (fh : Option Nat) : Except fault fserve_state :=
  match fh with
  | none => .error (fault.null_deref "fh")
  | some addr => do
    let n ← heap_get st addr
    if n.finfo.mount = none then throw (fault.null_deref "fh->finfo.mount")
    let st1 ← unlock st (lock_id.fh addr)
    let r ← remove_fh_from_cache st1 addr
    if r.1 ≠ 0 then
      let n2 ← heap_get r.2 addr
      pure (_delete_fh (heap_set r.2 addr { n2 with peak := 0 }) addr)
    else pure r.2

/-- The function `fserve_set_override (mount, dest, type)`: the return value
and the state afterwards. -/
def fserve_set_override (st : fserve_state) (mount : String) (dest : String)
    (type : format_type_t) : Except fault (Int × fserve_state) := do
  let key : fbinfo := { flags := FS_FALLBACK, limit := 0, mount := some mount,
                        fallback := none, type := type }
  let st1 ← lock st lock_id.fh_cache
  match ← avl_get_by_key st1 key with
  | some r =>
    let result ← heap_get st1 r
    if result.finfo.type = type then
      let st2 ← lock st1 (lock_id.fh r)
      let st3 ← avl_delete st2 result.finfo
      let st4 ← unlock st3 lock_id.fh_cache
      let st5 := heap_set st4 r
        { result with finfo := { result.finfo with flags := result.finfo.flags ||| FS_OVERRIDE,
                                                   fallback := some dest, type := type } }
      let st6 ← unlock st5 (lock_id.fh r)
      pure (1, st6)
    else
      let st2 ← unlock st1 lock_id.fh_cache
      pure (0, st2)
  | none =>
    let st2 ← unlock st1 lock_id.fh_cache
    pure (0, st2)

/-! ### Header synthesis and attach (`fserve.c`) -/

/-- The text of the 206 response written by `fill_http_headers`. -/
def partial_content_text (currenttime : String) (new_content_len rangenumber endpos
    content_length : Int) (type : String) : String :=
  "HTTP/1.1 206 Partial Content\r\n" ++
  "Date: " ++ currenttime ++ "\r\n" ++
  "Accept-Ranges: bytes\r\n" ++
  "Content-Length: " ++ toString new_content_len ++ "\r\n" ++
  "Content-Range: bytes " ++ toString rangenumber ++ "-" ++ toString endpos ++
    "/" ++ toString content_length ++ "\r\n" ++
  "Content-Type: " ++ type ++ "\r\n\r\n"

/-- The text of the 200 response written by `fill_http_headers`. -/
def ok_text (content_length : Int) (type : String) : String :=
  if content_length ≠ 0 then
    "HTTP/1.0 200 OK\r\n" ++
    "Accept-Ranges: bytes\r\n" ++
    "Content-Type: " ++ type ++ "\r\n" ++
    "Content-Length: " ++ toString content_length ++ "\r\n" ++
    "\r\n"
  else
    "HTTP/1.0 200 OK\r\n" ++
    "Content-Type: " ++ type ++ "\r\n" ++
    "\r\n"

/-- The closing statements of `fill_http_headers`: the text goes into the
first buffer of the client, whose length and flags are set, and `pos` is
reset. -/
def store_headers (client : client_t) (text : String) : Except fault client_t :=
  match client.refbuf with
  | [] => .error (fault.null_deref "client->refbuf")
  | ref :: rest =>
    .ok { client with
          refbuf := { ref with data := snprintf BUFSIZE text,
                               len := (snprintf BUFSIZE text).length,
                               flags := ref.flags ||| WRITE_BLOCK_GENERIC } :: rest,
          pos := 0 }

/-- The function `fill_http_headers (client, path, file_buf)`; `file_buf` is
the `st_size` of the `struct stat` passed, `none` for `NULL`.  Gives the
return value and the client afterwards. -/
def fill_http_headers (E : fserve_env) (st : fserve_state) (client : client_t) (path : String)
    (file_buf : Option Int) : Except fault (Int × client_t) :=
  let content_length : Int := file_buf.getD 0
  match httpp_getvar client.parser "range" with
  | some range =>
    let scanned : Int × Int :=
      if range_in_bytes range.data then sscanf_off_t (range.data.drop 6) else (0, 0)
    let rangenumber := scanned.2
    if scanned.1 = 1 ∧ rangenumber ≥ 0 ∧ rangenumber < content_length then
      match client.shared_data with
      | none => .error (fault.null_deref "client->shared_data")
      | some addr => do
        let fh ← heap_get st addr
        let ret := to_int (E.lseek fh.f rangenumber)
        if ret = -1 then pure (-1, client)
        else
          let c1 := { client with intro_offset := rangenumber }
          let new_content_len := content_length - rangenumber
          let endpos := if rangenumber + new_content_len - 1 < 0 then 0
                        else rangenumber + new_content_len - 1
          match c1.worker with
          | none => throw (fault.null_deref "client->worker")
          | some worker =>
            let currenttime := E.strftime_gmt worker.current_time_sec
            let c2 := { c1 with respcode := 206 }
            let type := fserve_content_type E st path
            let c3 ← store_headers c2
              (partial_content_text currenttime new_content_len rangenumber endpos
                content_length type)
            pure (0, c3)
    else .ok (-1, client)
  | none => do
    let type := fserve_content_type E st path
    let c1 := { client with respcode := 200 }
    let c2 ← store_headers c1 (ok_text content_length type)
    pure (0, c2)

/-- The indirect call `client->ops->process (client)`: what runs is decided
by the operation table the client carries, so the callee is a parameter. -/
abbrev process_fn := fserve_state → client_t → Except fault (Int × fserve_state × client_t)

/-- How far the first half of `fserve_setup_client_fb` gets: it returns
a value, or it holds a locked handle at `addr` for the client. -/
inductive attach_step where
  | returned (ret : Int) (st : fserve_state) (client : client_t)
  | holding (addr : Nat) (st : fserve_state) (client : client_t) (finfo : fbinfo)
deriving DecidableEq, Repr

/-- The branch `if (fh)` of `fserve_setup_client_fb`: a handle was found in
the cache. -/
def attach_found (E : fserve_env) (st : fserve_state) (client : client_t) (finfo : fbinfo)
    (minfo : Option mount_proxy) (addr : Nat) : Except fault attach_step := do
  let st3 ← lock st (lock_id.fh addr)
  let st4 ← unlock st3 lock_id.fh_cache
  let fh ← heap_get st4 addr
  let c1 := { client with shared_data := none }
  match minfo with
  | some m =>
    if m.max_listeners ≥ 0 ∧ fh.refcount > m.max_listeners then do
      let st5 ← unlock st4 (lock_id.fh addr)
      let r := E.client_send_403redirect c1 finfo.mount "max listeners reached"
      pure (attach_step.returned r.1 (config_release_config st5) r.2)
    else if E.check_duplicate_logins finfo.mount fh.clients c1 m.auth = 0 then do
      let st5 ← unlock st4 (lock_id.fh addr)
      let r := E.client_send_403 c1 "Account already in use"
      pure (attach_step.returned r.1 (config_release_config st5) r.2)
    else pure (attach_step.holding addr (config_release_config st4) c1 finfo)
  | none => pure (attach_step.holding addr (config_release_config st4) c1 finfo)

/-- The branch `else` of `if (fh)` in `fserve_setup_client_fb`: no handle
was found in the cache. -/
def attach_missing (E : fserve_env) (st : fserve_state) (client : client_t) (finfo : fbinfo)
    (minfo : Option mount_proxy) : Except fault attach_step :=
  let closed : Bool := match minfo with
    | some m => decide (m.max_listeners = 0)
    | none => false
  if closed then do
    let st3 ← fh_release (config_release_config st) none
    let c1 := { client with shared_data := none }
    let r := E.client_send_403redirect c1 finfo.mount "max listeners reached"
    pure (attach_step.returned r.1 st3 r.2)
  else do
    let opened ← open_fh E (config_release_config st) finfo
    match opened.1 with
    | none => pure (attach_step.returned (-1) opened.2.1 client)
    | some addr => pure (attach_step.holding addr opened.2.1 client opened.2.2)

/-- The first half of the block `if (finfo)` of `fserve_setup_client_fb`, up
to the point where a handle is held. -/
def attach_lookup (E : fserve_env) (st : fserve_state) (client : client_t) (finfo : fbinfo) :
    Except fault attach_step :=
  if has_bits finfo.flags FS_FALLBACK ∧ finfo.limit = 0 then
    .ok (attach_step.returned (-1) st client)
  else do
    let st1 ← lock st lock_id.fh_cache
    let found ← find_fh st1 finfo
    let st2 := config_get_config st1
    let minfo := E.config_find_mount (found.2.mount.getD "")
    match found.1 with
    | some addr => attach_found E st2 client found.2 minfo addr
    | none => attach_missing E st2 client found.2 minfo

/-- The second half of the block `if (finfo)` of `fserve_setup_client_fb`,
from `fh_add_client` to `client->mount = fh->finfo.mount`. -/
def attach_client (E : fserve_env) (st : fserve_state) (client : client_t) (finfo : fbinfo)
    (addr : Nat) : Except fault (fserve_state × client_t) := do
  let fh ← heap_get st addr
  let added := fh_add_client E fh client
  let st6 := heap_set st addr added.1
  let c2 := { added.2 with shared_data := some addr }
  let c3 ←
    (if added.1.finfo.limit ≠ 0 then
      match c2.worker with
      | none => Except.error (fault.null_deref "client->worker")
      | some worker =>
        Except.ok { c2 with
               timer_start := if c2.connection.sent_bytes = 0 then worker.current_time_sec - 2
                              else worker.current_time_sec,
               counter := 0, intro_offset := 0 }
    else Except.ok c2)
  let st7 ← unlock st6 (lock_id.fh addr)
  let c4 ←
    (if c3.respcode = 0 then
      (fill_http_headers E st7 c3 (finfo.mount.getD "") none).map (fun r => r.2)
    else Except.ok c3)
  pure (st7, { c4 with mount := added.1.finfo.mount })

/-- The closing part of `fserve_setup_client_fb`, from
`if (client->check_buffer == NULL)` on; `fallback` is the value of
`finfo && finfo->flags & FS_FALLBACK`. -/
def attach_finish (E : fserve_env) (process : process_fn) (st : fserve_state)
    (client : client_t) (fallback : Bool) : Except fault (Int × fserve_state × client_t) :=
  let c1 := if client.check_buffer = none then
      { client with check_buffer := some E.format_generic_write_to_client } else client
  let c2 := { c1 with ops := some client_ops.buffer_content_ops,
                      flags := clear_bits c1.flags CLIENT_HAS_INTRO_CONTENT ||| CLIENT_IN_FSERVE }
  if has_bits c2.flags CLIENT_ACTIVE then
    match c2.worker with
    | none => .error (fault.null_deref "client->worker")
    | some worker =>
      if fallback then .ok (0, st, { c2 with schedule_ms := worker.time_ms })
      else process st { c2 with schedule_ms := worker.time_ms }
  else .ok (0, st, { c2 with flags := c2.flags ||| CLIENT_ACTIVE })

/-- The function `fserve_setup_client_fb (client, finfo)`; `process` stands
for the call through `client->ops->process`.  Gives the return value, the
state and the client afterwards. -/
def fserve_setup_client_fb (E : fserve_env) (process : process_fn) (st : fserve_state)
    (client : client_t) (finfo : Option fbinfo) :
    Except fault (Int × fserve_state × client_t) :=
  match finfo with
  | none => attach_finish E process st client false
  | some fi => do
    match ← attach_lookup E st client fi with
    | attach_step.returned ret st1 c1 => pure (ret, st1, c1)
    | attach_step.holding addr st1 c1 fi1 =>
      let r ← attach_client E st1 c1 fi1 addr
      attach_finish E process r.1 r.2 (has_bits fi1.flags FS_FALLBACK)

/-! ### Moving a listener (`auth.c`, `fserve.c`) -/

/-- Value of a C `unsigned int` object after storing `v` into it. -/
def to_uint (v : Int) : Int := v % 4294967296

/-- The call `sscanf (mount, "%*[^[][%d]", &rate)`: the number stored in
`rate` when the call returns 1, `none` otherwise.  The text must start with
at least one character other than `[`, go on with `[` and then with a
number. -/
def sscanf_bracket_rate (s : List Char) : Option Int :=
  if s.takeWhile (fun c => c ≠ '[') = [] then none
  else
    match s.dropWhile (fun c => c ≠ '[') with
    | [] => none
    | _ :: r => (scan_signed r).map (fun v => to_int (saturate v))

/-- The statement `rate = rate * 1000/8` of `move_listener`, in `int`: the
quotient, rounded towards zero, when the product fits an `int`; otherwise the
behaviour is undefined in C and the value is the one the compiled program
computes (`overflowed_rate`), stored in the `int`. -/
def kbits_rate (E : fserve_env) (rate : Int) : Int :=
  if -2147483648 ≤ rate * 1000 ∧ rate * 1000 ≤ 2147483647 then Int.tdiv (rate * 1000) 8
  else to_int (E.overflowed_rate rate)

/-- How one pass of the loop of `move_listener` ends: the listener went to a
live source, the loop is left at `mount` (`break`), or the loop wants to go on
with the fallback `mount`. -/
inductive move_step where
  | attached (st : fserve_state) (client : client_t)
  | stop (st : fserve_state) (rate : Int) (mount : String)
  | next (st : fserve_state) (rate : Int) (mount : String)
deriving DecidableEq, Repr

/-- One pass of the body of the `do ... while` loop of `move_listener` for
the mount `mount`. -/
def move_body (E : fserve_env) (finfo : fbinfo) (client : client_t) (st : fserve_state)
    (rate : Int) (mount : String) : Except fault move_step :=
  let minfo := E.config_find_mount mount
  let rate1 : Int := match minfo with
    | some m => if rate = 0 ∧ m.limit_rate ≠ 0 then m.limit_rate else rate
    | none => rate
  let source := E.source_find_mount_raw mount
  let onward : fserve_state → Except fault move_step := fun st1 =>
    match minfo.bind (fun m => m.fallback_mount) with
    | some fb => .ok (move_step.next st1 rate1 fb)
    | none => .ok (move_step.stop st1 rate1 mount)
  match source with
  | none => if minfo.isNone then .ok (move_step.stop st rate1 mount) else onward st
  | some src => do
    let st1 ← lock st (lock_id.source src.mount)
    if src.available ∧ (src.format_type = finfo.type
        ∨ src.format_type = format_type_t.FORMAT_TYPE_UNDEFINED) then
      let st2 := config_release_config st1
      let st3 ← unlock st2 lock_id.source_tree
      let c1 := E.source_setup_listener src client
      let c2 := { c1 with flags := c1.flags ||| CLIENT_HAS_MOVED }
      let st4 ← unlock st3 (lock_id.source src.mount)
      pure (move_step.attached st4 c2)
    else
      let st2 ← unlock st1 (lock_id.source src.mount)
      onward st2

/-- The `do ... while (loop--)` loop of `move_listener`, `loop` being the
value of the counter when the body is entered. -/
def move_loop (E : fserve_env) (finfo : fbinfo) (client : client_t) :
    Nat → fserve_state → Int → String → Except fault move_step
  | 0, st, rate, mount => move_body E finfo client st rate mount
  | loop + 1, st, rate, mount => do
    match ← move_body E finfo client st rate mount with
    | move_step.next st1 rate1 mount1 => move_loop E finfo client loop st1 rate1 mount1
    | other => pure other

/-- The function `move_listener (client, finfo)`; `process` stands for the
call through `client->ops->process` made by `fserve_setup_client_fb`. -/
def move_listener (E : fserve_env) (process : process_fn) (st : fserve_state)
    (client : client_t) (finfo : fbinfo) : Except fault (Int × fserve_state × client_t) :=
  match finfo.mount with
  | none => .error (fault.null_deref "finfo->mount")
  | some mount0 => do
    let st1 := config_get_config st
    let st2 ← lock st1 lock_id.source_tree
    let file_serve : fserve_state → Int → String → Except fault (Int × fserve_state × client_t) :=
      fun st3 rate mount => do
        let st4 ← unlock st3 lock_id.source_tree
        let st5 := config_release_config st4
        if has_bits client.flags CLIENT_IS_SLAVE then pure (-1, st5, client)
        else
          let swapped : Except fault fbinfo :=
            if has_bits finfo.flags FS_OVERRIDE then
              match finfo.fallback with
              | none => .error (fault.null_deref "where.fallback")
              | some fb => .ok { finfo with mount := some fb, fallback := none,
                                            flags := clear_bits finfo.flags FS_OVERRIDE }
            else .ok { finfo with mount := some mount }
          let wh ← swapped
          let rate1 : Int :=
            if wh.limit = 0 ∧ rate = 0 then
              match sscanf_bracket_rate ((wh.mount.getD "").data) with
              | some r => kbits_rate E r
              | none => rate
            else rate
          let wh1 := if wh.limit = 0 then { wh with limit := to_uint rate1 } else wh
          fserve_setup_client_fb E process st5 client (some wh1)
    match ← move_loop E finfo client 20 st2 (to_int finfo.limit) mount0 with
    | move_step.attached st3 c => pure (0, st3, c)
    | move_step.stop st3 rate mount => file_serve st3 rate mount
    | move_step.next st3 rate mount => file_serve st3 rate mount

/-- The function `_free_fserve_buffers (client)`. -/
def _free_fserve_buffers (client : client_t) : client_t := { client with refbuf := [] }

/-- The function `fserve_move_listener (client)`. -/
def fserve_move_listener (E : fserve_env) (process : process_fn) (st : fserve_state)
    (client : client_t) : Except fault (Int × fserve_state × client_t) :=
  match client.shared_data with
  | none => .error (fault.null_deref "client->shared_data")
  | some addr => do
    let c1 := _free_fserve_buffers client
    let st1 ← lock st (lock_id.fh addr)
    let fh ← heap_get st1 addr
    let f : fbinfo := { flags := fh.finfo.flags ||| FS_OVERRIDE, limit := fh.finfo.limit,
                        mount := fh.finfo.fallback, fallback := fh.finfo.mount,
                        type := fh.finfo.type }
    let r ← move_listener E process st1 c1 f
    if r.1 < 0 then
      let st2 ← unlock r.2.1 (lock_id.fh addr)
      pure (-1, st2, r.2.2)
    else
      let fh2 ← heap_get r.2.1 addr
      let st2 := heap_set r.2.1 addr (remove_from_fh fh2 r.2.2)
      let st3 ← fh_release st2 (some addr)
      pure (0, st3, r.2.2)

/-- The function `file_release (client)`: the state, the client (`none` once
it is destroyed) and, when the release was queued on an authenticator, the
mount configuration that holds it. -/
def file_release (E : fserve_env) (st : fserve_state) (client : client_t) :
    Except fault (fserve_state × Option client_t × Option mount_proxy) := do
  let st1 ←
    (match client.shared_data with
     | some addr => do
       let st2 ← lock st (lock_id.fh addr)
       let fh ← heap_get st2 addr
       fh_release (heap_set st2 addr (remove_from_fh fh client)) (some addr)
     | none => Except.ok st)
  let c1 := _free_fserve_buffers client
  if has_bits c1.flags CLIENT_AUTHENTICATED then
    let mount := httpp_getvar c1.parser E.httpp_var_uri
    let st2 := config_get_config st1
    let mountinfo := (mount.bind E.config_find_mount)
    let r ← auth_release_listener E.toauth_env c1 mount mountinfo
    let st3 := config_release_config st2
    if r.1 < 0 then pure (st3, none, r.2.2)
    else pure (st3, some r.2.1, r.2.2)
  else pure (st1, none, none)

/-- A new buffer of `len` bytes, `refbuf_new (len)`. -/
def refbuf_new (len : Int) : refbuf_t := { data := "", len := len, flags := 0 }

/-- The part of `prefile_send` that runs once the current buffer is used up
and no further buffer is chained: hand over to the file states, or end the
listener.  -/
def prefile_exhausted (E : fserve_env) (process : process_fn) (st : fserve_state)
    (client : client_t) : Except fault (Int × fserve_state × client_t) := do
  let fh : Option fh_node ←
    (match client.shared_data with
     | some addr => (heap_get st addr).map some
     | none => Except.ok none)
  let reading : Bool := match fh with
    | some n => file_in_use n.f
    | none => false
  if reading then
    let limited : Bool := match fh with
      | some n => decide (n.finfo.limit ≠ 0)
      | none => false
    let c1 := { client with
                ops := some (if limited then client_ops.throttled_file_content_ops
                             else client_ops.file_content_ops),
                refbuf := [refbuf_new 8192], pos := 8192 }
    process st c1
  else if client.respcode ≠ 0 then pure (-1, st, client)
  else
    match client.shared_data with
    | none => throw (fault.null_deref "fh")
    | some addr =>
      let st1 ← lock st (lock_id.fh addr)
      let st2 ← fh_release st1 (some addr)
      let r := E.client_send_404 client none
      pure (r.1, st2, r.2)

/-- The loop of `prefile_send` with `loop` passes left and `written` bytes
sent so far in this wake; `worker` is `client->worker` as read on entry.  The
local `refbuf` of the C function points at the same buffer as
`client->refbuf` throughout, so it is read from the client. -/
def prefile_loop (E : fserve_env) (process : process_fn) (worker : Option worker_t) :
    Nat → Int → fserve_state → client_t → Except fault (Int × fserve_state × client_t)
  | 0, _, st, client => .ok (0, st, client)
  | loop + 1, written, st, client =>
    if st.fserve_running = 0 ∨ client.connection.error ≠ 0 then .ok (-1, st, client)
    else
      let used_up : Bool := match client.refbuf with
        | [] => true
        | ref :: _ => decide (client.pos = ref.len)
      let fallback : Except fault Bool :=
        match client.shared_data with
        | some addr => (heap_get st addr).map (fun n => n.finfo.fallback.isSome)
        | none => .ok false
      let send : client_t → Except fault (Int × fserve_state × client_t) := fun c =>
        match c.refbuf with
        | [] => .error (fault.null_deref "refbuf")
        | ref :: _ =>
          let wfn : Except fault Nat :=
            if has_bits ref.flags WRITE_BLOCK_GENERIC then .ok E.format_generic_write_to_client
            else match c.check_buffer with
              | some w => .ok w
              | none => .error (fault.null_deref "client->check_buffer")
          match wfn with
          | .error e => .error e
          | .ok w =>
            let r := E.write_fn w c
            match worker with
            | none => .error (fault.null_deref "worker")
            | some wk =>
              if r.1 < 0 then
                .ok (0, st, { r.2 with
                              schedule_ms := wk.time_ms + (if written ≠ 0 then 150 else 300) })
              else if written + r.1 > 30000 then .ok (0, st, r.2)
              else prefile_loop E process worker loop (written + r.1) st r.2
      if used_up then
        match fallback with
        | .error e => .error e
        | .ok true => fserve_move_listener E process st client
        | .ok false =>
          match client.refbuf with
          | [] => prefile_exhausted E process st client
          | [_] => prefile_exhausted E process st client
          | _ :: nxt => send { client with refbuf := nxt, pos := 0 }
      else send client

/-- The function `prefile_send (client)`. -/
def prefile_send (E : fserve_env) (process : process_fn) (st : fserve_state)
    (client : client_t) : Except fault (Int × fserve_state × client_t) :=
  prefile_loop E process client.worker 8 0 st client

/-! ### Entry of the file engine and of the auth pipeline (`fserve.c`, `auth.c`) -/

/-- The text in front of the last `.` of `path`, what `*strrchr (path, '.') = 0`
leaves; `none` when there is no `.` (the store goes through `NULL`). -/
def cut_extension (path : String) : Option String :=
  if path.data.contains '.' then
    some ⟨(path.data.reverse.dropWhile (fun c => c ≠ '.')).tail.reverse⟩
  else none

/-- The test `strstr (s, pat) != NULL`. -/
def has_text (s pat : String) : Bool := s.data.tails.any (fun t => pat.data.isPrefixOf t)

/-- The playlist `fserve_client_create` writes for a request of an `.m3u`
that is not on disk; `sourceuri` is the request path without its extension. -/
def m3u_text (E : fserve_env) (client : client_t) (sourceuri : String) : String :=
  let args := (httpp_getvar client.parser E.httpp_var_queryargs).getD ""
  let protocol := match httpp_getvar client.parser "user-agent" with
    | some agent => if has_text agent "QTS" ∨ has_text agent "QuickTime" then "icy" else "http"
    | none => "http"
  let host := match httpp_getvar client.parser "host" with
    | some h => if h.data.contains ':' then some h else none
    | none => none
  let login := match client.username, client.password with
    | some user, some pass => user ++ ":" ++ pass ++ "@"
    | _, _ => ""
  "HTTP/1.0 200 OK\r\n" ++ "Content-Type: audio/x-mpegurl\r\n\r\n" ++
  protocol ++ "://" ++ login ++
  (match host with
   | some h => h
   | none => E.hostname ++ ":" ++ toString E.port) ++
  sourceuri ++ args ++ "\r\n"

/-- The function `fserve_client_create (httpclient, path)`; `process` stands
for the call through `client->ops->process` made by `fserve_setup_client_fb`. -/
def fserve_client_create (E : fserve_env) (process : process_fn) (st : fserve_state)
    (httpclient : client_t) (path : String) : Except fault (Int × fserve_state × client_t) :=
  let fullpath := E.util_get_path_from_normalised_uri path false
  match E.util_get_extension fullpath with
  | none => .error (fault.null_deref "util_get_extension")
  | some ext =>
    let m3u_requested : Bool := ext = "m3u"
    let xspf_requested : Bool := ext = "xspf"
    let found := E.stat fullpath
    if found.isNone ∧ m3u_requested = false ∧ xspf_requested = false then
      let r := E.redirect_client path httpclient
      if r.1 = 0 then
        .ok ((E.client_send_404 r.2 (some "The file you requested could not be found")).1, st,
             (E.client_send_404 r.2 (some "The file you requested could not be found")).2)
      else .ok (-1, st, r.2)
    else
      match httpclient.refbuf with
      | [] => .error (fault.null_deref "httpclient->refbuf")
      | ref :: rest =>
        let c1 := { httpclient with refbuf := { ref with len := E.per_client_refbuf_size } :: rest }
        if m3u_requested ∧ found.isNone then
          match cut_extension path with
          | none => .error (fault.null_deref "dot")
          | some sourceuri =>
            let text := snprintf BUFSIZE (m3u_text E c1 sourceuri)
            let c2 := { c1 with respcode := 200,
                                refbuf := { ref with data := text, len := text.length } :: rest }
            fserve_setup_client_fb E process st c2 none
        else if xspf_requested ∧ found.isNone then
          .ok ((E.admin_send_xspf c1 ((cut_extension path).getD path)).1, st,
               (E.admin_send_xspf c1 ((cut_extension path).getD path)).2)
        else
          let st1 := config_release_config (config_get_config st)
          if E.fileserve = 0 then
            .ok ((E.client_send_404 c1 (some "The file you requested could not be found")).1, st1,
                 (E.client_send_404 c1 (some "The file you requested could not be found")).2)
          else if (found.map (fun sb => sb.2)) ≠ some true then
            .ok ((E.client_send_404 c1 (some "The file you requested could not be found")).1, st1,
                 (E.client_send_404 c1 (some "The file you requested could not be found")).2)
          else
            fserve_setup_client_fb E process st1 c1
              (some { flags := 0, mount := some path, fallback := none, limit := 0,
                      type := format_type_t.FORMAT_TYPE_UNDEFINED })

/-- The function `add_authenticated_listener (mount, mountinfo, client)`. -/
def add_authenticated_listener (E : fserve_env) (process : process_fn) (st : fserve_state)
    (mount : String) (mountinfo : Option mount_proxy) (client : client_t) :
    Except fault (Int × fserve_state × client_t) :=
  let c1 := { client with flags := client.flags ||| CLIENT_AUTHENTICATED }
  let rest := fun (mount : String) (mountinfo : Option mount_proxy) (c : client_t) =>
    if E.is_xslt_content mount then
      Except.ok ((E.stats_transform_xslt c mount).1, st, (E.stats_transform_xslt c mount).2)
    else
      let r := E.source_add_listener mount mountinfo c
      if r.1 = -2 then
        let c2 := match mountinfo with
          | some m =>
            if m.file_seekable = 0 then
              { r.2 with parser := httpp_deletevar r.2.parser "range",
                         flags := r.2.flags ||| CLIENT_NO_CONTENT_LENGTH }
            else r.2
          | none => r.2
        fserve_client_create E process st c2 mount
      else .ok (r.1, st, r.2)
  if mount = "/admin/streams" then
    let c2 := { c1 with flags := c1.flags ||| CLIENT_IS_SLAVE }
    if c2.parser.req_stats then .ok (0, st, E.stats_add_listener c2)
    else
      match httpp_get_query_param c2.parser "mount" with
      | none => .ok (0, st, E.command_list_mounts c2)
      | some m2 => rest m2 (E.config_find_mount m2) c2
  else rest mount mountinfo c1

/-- The statements of `auth_add_listener` on `skip_accesslog` and `ban_client`:
the client and the globals after them. -/
def mount_marks (m : mount_proxy) (client : client_t) (G : auth_globals) :
    client_t × auth_globals :=
  let c1 := if m.skip_accesslog ≠ 0 then
      { client with flags := client.flags ||| CLIENT_SKIP_ACCESSLOG } else client
  let c2 := if m.ban_client ≠ 0 ∧ m.ban_client < 0 then
      { c1 with flags := c1.flags ||| CLIENT_IP_BAN_LIFT } else c1
  let G1 := if m.ban_client ≠ 0 then
      { G with banned_ips := G.banned_ips ++ [(c2.connection.ip, m.ban_client)] } else G
  (c2, G1)

/-- What `auth_add_listener` leaves behind: its return value, the state of
the file engine, the client, the configuration of the mount (its
authenticator holds the queue) and the globals. -/
structure add_listener_result where
  ret : Int
  st : fserve_state
  client : client_t
  mountinfo : Option mount_proxy
  globals : auth_globals
deriving DecidableEq, Repr

/-- The function `auth_add_listener (mount, client)`; `process` stands for
the call through `client->ops->process` made by `fserve_setup_client_fb`. -/
def auth_add_listener (E : fserve_env) (process : process_fn) (st : fserve_state)
    (G : auth_globals) (mount : String) (client : client_t) :
    Except fault add_listener_result :=
  let st0 := config_get_config st
  let mountinfo := E.config_find_mount mount
  let answered := fun (r : Int × client_t) (G : auth_globals) =>
    (Except.ok { ret := r.1, st := config_release_config st0, client := r.2,
                 mountinfo := mountinfo, globals := G } : Except fault add_listener_result)
  let authenticated := fun (c : client_t) (G : auth_globals) =>
    (add_authenticated_listener E process st0 mount mountinfo c).map (fun r =>
      ({ ret := r.1, st := config_release_config r.2.1, client := r.2.2,
         mountinfo := mountinfo, globals := G } : add_listener_result))
  if has_bits client.flags CLIENT_AUTHENTICATED = false then
    match mountinfo with
    | some m =>
      let c2 := (mount_marks m client G).1
      let G1 := (mount_marks m client G).2
      if m.no_mount ≠ 0 then answered (E.client_send_403 c2 "mountpoint unavailable") G1
      else
        match m.redirect with
        | some redirect =>
          answered (E.client_send_302 c2
            (snprintf (redirect.length + mount.length + 3) (redirect ++ mount))) G1
        | none =>
          match m.auth with
          | some a =>
            if a.authenticate.isSome then
              if a.running = 0 ∨ a.pending_count > 300 then
                answered (E.client_send_403 c2 "busy, please try again later")
                  (if G1.new_connections_slowdown < 10 then
                    { G1 with new_connections_slowdown := G1.new_connections_slowdown + 1 }
                   else G1)
              else
                (queue_auth_client E.toauth_env
                  (some { auth_client_setup E.toauth_env mount
                            (some { c2 with flags := clear_bits c2.flags CLIENT_ACTIVE }) with
                          process := some auth_process.auth_new_listener })
                  mountinfo).map (fun m2 =>
                    ({ ret := 0, st := config_release_config st0,
                       client := { c2 with flags := clear_bits c2.flags CLIENT_ACTIVE },
                       mountinfo := m2, globals := G1 } : add_listener_result))
            else authenticated c2 G1
          | none => authenticated c2 G1
    | none =>
      if mount = "/admin/streams" then answered (E.client_send_401 client none) G
      else authenticated client G
  else authenticated client G

/-! ### Predicates used by the theorems -/

/-- The queue of an authenticator can take an item: `tailp` points at `head`
or at a queued item, and every slot the spawn loop may look at exists (both
hold for an authenticator built by `auth_get_authenticator`). -/
def auth_queue_ready (a : auth_t) : Prop :=
  (a.tailp = some tail_ref.head ∨
    ∃ q, a.tailp = some (tail_ref.next q) ∧ a.items.any (fun it => it.1 = q) = true) ∧
  a.handlers.toNat ≤ a.handles.length

/-- The invariant "refcount = number of attached clients" over the cache:
every address in the tree is a live handle whose `refcount` is the size of
its client tree. -/
def refcount_invariant (st : fserve_state) : Bool :=
  st.fh_cache.all (fun a =>
    match heap_get st a with
    | .ok fh => decide (fh.refcount = (fh.clients.length : Int))
    | .error _ => false)

/-- The state a run of a cache operation ends in, `st` when it does not return. -/
def state_after (r : Except fault (Int × fserve_state)) (st : fserve_state) : fserve_state :=
  match r with
  | .ok v => v.2
  | .error _ => st

/-! ### Sample configurations, states and clients -/

/-- Back-end constructors that succeed and leave the authenticator as it is. -/
def sample_backends : auth_backends :=
  { have_auth_url := true, win32 := false,
    auth_get_url_auth := fun a _ => (0, a),
    auth_get_cmd_auth := fun a _ => (0, a),
    auth_get_htpasswd_auth := fun a _ => (0, a),
    auth_get_radio_auth := fun a _ => (0, a),
    alloc_thread_data := fun _ _ => 0 }

/-- A worker, for sample clients. -/
def sample_worker : worker_t :=
  { time_ms := 5000, current_time_sec := 5, count := 1, move_allocations := 0 }

/-- A fresh listener: no response yet, nothing attached, not yet active. -/
def sample_client : client_t :=
  { connection := { id := 1, error := 0, sent_bytes := 0, con_time := 5, discon_time := 0,
                    ip := "10.0.0.1", sock := 7 },
    parser := { vars := [], query := [], req_stats := false },
    respcode := 0, username := none, password := none, flags := 0,
    worker := some sample_worker, shared_data := none,
    refbuf := [{ data := "", len := 4096, flags := 0 }],
    intro_offset := 0, pos := 0, timer_start := 0, counter := 0, schedule_ms := 0,
    check_buffer := none, ops := none, mount := none, format_data := none }

/-- A running authenticator with an `authenticate` callback, three free slots
and an empty queue, as `auth_get_authenticator` builds it. -/
def sample_auth : auth_t :=
  { calloc_auth (some "htpasswd") with
    mount := "/stream", handlers := 3, refcount := 1, running := 1,
    tailp := some tail_ref.head,
    handles := [⟨none, 0, 0⟩, ⟨none, 0, 1⟩, ⟨none, 0, 2⟩],
    authenticate := some 1 }

/-- A mount that carries `sample_auth`. -/
def sample_mount : mount_proxy :=
  { mountname := "/stream", auth := some sample_auth, password := none, username := none,
    fallback_mount := none, file_seekable := 1, so_sndbuf := 0, no_mount := 0,
    redirect := none, ban_client := 0, max_listeners := -1, skip_accesslog := 0,
    limit_rate := 0, access_log_name := none }

/-- The sample configuration: `/stream` is `sample_mount`, `/closed` the same
mount with `no_mount` set, `/live.mp3` a mount without authenticator and with
`max_listeners = 2`. -/
def sample_config (m : String) : Option mount_proxy :=
  if m = "/stream" then some sample_mount
  else if m = "/closed" then some { sample_mount with mountname := "/closed", no_mount := 1 }
  else if m = "/live.mp3" then
    some { sample_mount with mountname := "/live.mp3", auth := none, max_listeners := 2 }
  else none

/-- Collaborators of the auth pipeline for sample runs: a response call
stores its status code, no source is live. -/
def sample_auth_env : auth_env :=
  { hostname := "localhost", port := 8000,
    config_find_mount := sample_config,
    thread_create := fun _ i => some (100 + i),
    client_send_401 := fun c _ => (0, { c with respcode := 401 }),
    client_send_403 := fun c _ => (0, { c with respcode := 403 }),
    client_send_302 := fun c _ => (0, { c with respcode := 302 }),
    client_send_404 := fun c _ => (0, { c with respcode := 404 }),
    client_set_queue := fun c => c,
    stats_add_listener := fun c => c,
    command_list_mounts := fun c => c,
    is_xslt_content := fun _ => false,
    stats_transform_xslt := fun c _ => (0, c),
    source_add_listener := fun _ _ c => (-2, c) }

/-- Collaborators of the file engine for sample runs: every file opens and
is a regular file of 100 bytes, seeks succeed, the clock text is fixed and no
login is a duplicate; a rate whose product with 1000 overflows is multiplied
by 125 in 32 bits (what gcc compiles `rate * 1000/8` to). -/
def sample_fserve_env : fserve_env :=
  { sample_auth_env with
    util_get_extension := fun p =>
      if p = "/live.mp3" ∨ p = "/webroot/live.mp3" then some "mp3" else some "",
    util_get_path_from_normalised_uri := fun m _ => "/webroot" ++ m,
    format_get_type := fun t =>
      if t = "audio/mpeg" then format_type_t.FORMAT_TYPE_MPEG
      else format_type_t.FORMAT_TYPE_UNDEFINED,
    os_open := fun _ => 5,
    lseek := fun _ off => off,
    stat := fun _ => some (100, true),
    fileserve := 1,
    per_client_refbuf_size := 4096,
    httpp_var_uri := "__uri",
    httpp_var_queryargs := "__queryargs",
    format_get_plugin := fun p => (0, p),
    stats_handle := fun _ => 1,
    create_client_data := fun _ c => c,
    check_duplicate_logins := fun _ _ _ _ => 1,
    client_send_403redirect := fun c _ _ => (0, { c with respcode := 403 }),
    redirect_client := fun _ c => (0, c),
    admin_send_xspf := fun c _ => (0, c),
    strftime_gmt := fun _ => "Thu, 01-Jan-1970 00:00:05 GMT",
    format_generic_write_to_client := 1,
    write_fn := fun _ c => (0, c),
    source_find_mount_raw := fun _ => none,
    source_setup_listener := fun _ c => c,
    overflowed_rate := fun rate => rate * 125 }

/-- A stand-in for the operation a client is handed to through
`client->ops->process`: it returns 0 at once. -/
def sample_process : process_fn := fun st c => .ok (0, st, c)

/-- Globals of a running server. -/
def sample_globals : auth_globals :=
  { allow_auth := 1, new_connections_slowdown := 0, banned_ips := [] }

/-- A handle on `/live.mp3` with the two listeners 11 and 12 attached. -/
def sample_fh : fh_node :=
  { finfo := { flags := 0, limit := 0, mount := some "/live.mp3", fallback := none,
               type := format_type_t.FORMAT_TYPE_MPEG },
    refcount := 2, peak := 0, f := 5, stats_update := 0, stats := 0,
    format := none, out_bitrate := none, clients := [11, 12] }

/-- A running file engine whose cache holds `sample_fh` at address 1. -/
def sample_fserve : fserve_state :=
  { heap := [(1, sample_fh)], fh_cache := [1], fserve_running := 1, mimetypes := none,
    trace := [] }

/-- The request for the file `/live.mp3`, as `fserve_client_create` builds it. -/
def sample_request : fbinfo :=
  { flags := 0, limit := 0, mount := some "/live.mp3", fallback := none,
    type := format_type_t.FORMAT_TYPE_UNDEFINED }

/-- A listener attached to `sample_fh` that asks for `range`. -/
def range_client (range : String) : client_t :=
  { sample_client with
    parser := { vars := [("range", range)], query := [], req_stats := false },
    shared_data := some 1 }

/-- A running file engine with nothing in its cache. -/
def empty_fserve : fserve_state :=
  { heap := [], fh_cache := [], fserve_running := 1, mimetypes := none, trace := [] }

/-- A fresh listener on connection `id`, with a `Range` header when `range`
is given. -/
def listener (id : Nat) (range : Option String) : client_t :=
  { sample_client with
    connection := { sample_client.connection with id := id },
    parser := { vars := match range with
                        | some r => [("range", r)]
                        | none => [],
                query := [], req_stats := false } }

/-- Attach the listeners of a list, one after the other, with the request
`finfo`: the state of the file engine after the last attach. -/
def attach_listeners (E : fserve_env) (process : process_fn) (finfo : fbinfo) :
    List client_t → fserve_state → Except fault fserve_state
  | [], st => .ok st
  | c :: cs, st => do
    let r ← fserve_setup_client_fb E process st c (some finfo)
    attach_listeners E process finfo cs r.2.1

/-- The sample collaborators, except that no file can be opened and that a
write sends the whole buffer. -/
def unreadable_env : fserve_env :=
  { sample_fserve_env with
    os_open := fun _ => -1,
    write_fn := fun _ c =>
      match c.refbuf with
      | ref :: _ => (ref.len - c.pos, { c with pos := ref.len })
      | [] => (-1, c) }

/-- The request for the file `/cover.jpg`. -/
def cover_request : fbinfo :=
  { flags := 0, limit := 0, mount := some "/cover.jpg", fallback := none,
    type := format_type_t.FORMAT_TYPE_UNDEFINED }

/-- The listeners 21 and 22, both asking for `Range: bytes=0-`, attached one
after the other to `/cover.jpg`, a file that cannot be opened: the state of
the file engine and listener 21 as its attach left it. -/
def two_on_cover (process : process_fn) : Except fault (fserve_state × client_t) := do
  let r1 ← fserve_setup_client_fb unreadable_env process empty_fserve
    (listener 21 (some "bytes=0-")) (some cover_request)
  let r2 ← fserve_setup_client_fb unreadable_env process r1.2.1
    (listener 22 (some "bytes=0-")) (some cover_request)
  pure (r2.2.1, r1.2.2)

/-- The request for `/live.mp3` as a fallback file served at 16000 bytes/s. -/
def fallback_request : fbinfo :=
  { flags := FS_FALLBACK, limit := 16000, mount := some "/live.mp3", fallback := none,
    type := format_type_t.FORMAT_TYPE_MPEG }

/-- The state of a run, the empty file engine when the run does not return. -/
def state_or_empty (r : Except fault fserve_state) : fserve_state :=
  match r with
  | .ok st => st
  | .error _ => empty_fserve

/-- The file engine after listener 31 was attached to the fallback file
`/live.mp3`. -/
def fallback_fserve : fserve_state :=
  state_or_empty (attach_listeners sample_fserve_env sample_process fallback_request
    [listener 31 none] empty_fserve)

/-- The handle at address 1, reduced to what the invariant is about:
`refcount` and the client set. -/
def counts_at (st : fserve_state) : Except fault (Int × List Nat) :=
  (heap_get st 1).map (fun fh => (fh.refcount, fh.clients))

/-- The sample collaborators with one more mount, `/shut.mp3`, configured
with `max_listeners = 0` and without authenticator. -/
def closed_env : fserve_env :=
  { sample_fserve_env with
    config_find_mount := fun m =>
      if m = "/shut.mp3" then
        some { sample_mount with mountname := "/shut.mp3", auth := none, max_listeners := 0 }
      else sample_config m }

/-- The request for the file `/shut.mp3`. -/
def shut_request : fbinfo :=
  { flags := 0, limit := 0, mount := some "/shut.mp3", fallback := none,
    type := format_type_t.FORMAT_TYPE_UNDEFINED }

/-- The empty file engine with the cache lock taken, as on entry to `open_fh`. -/
def locked_fserve : fserve_state :=
  { empty_fserve with trace := [lock_ev.acquire lock_id.fh_cache] }

/-- The file engine after `open_fh` built a handle for `/live.mp3` in the
empty cache. -/
def opened_fserve : fserve_state :=
  state_or_empty ((open_fh sample_fserve_env locked_fserve sample_request).map (fun r => r.2.1))

/-- The loop of `move_listener` with a record of its passes: the mounts the
body was run for, in order, next to what `move_loop` gives. -/
def move_loop_passes (E : fserve_env) (finfo : fbinfo) (client : client_t) :
    Nat → fserve_state → Int → String → List String × Except fault move_step
  | 0, st, rate, mount => ([mount], move_body E finfo client st rate mount)
  | loop + 1, st, rate, mount =>
    match move_body E finfo client st rate mount with
    | .ok (move_step.next st1 rate1 mount1) =>
      (mount :: (move_loop_passes E finfo client loop st1 rate1 mount1).1,
       (move_loop_passes E finfo client loop st1 rate1 mount1).2)
    | other => ([mount], other)

/-- The sample collaborators with a configuration whose fallbacks form a
cycle: `/a` falls back to `/b` and `/b` to `/a`; both have a source, neither
source is available. -/
def cycle_env : fserve_env :=
  { sample_fserve_env with
    config_find_mount := fun m =>
      if m = "/a" then
        some { sample_mount with mountname := "/a", auth := none, fallback_mount := some "/b" }
      else if m = "/b" then
        some { sample_mount with mountname := "/b", auth := none, fallback_mount := some "/a" }
      else none,
    source_find_mount_raw := fun m =>
      if m = "/a" ∨ m = "/b" then
        some { mount := m, available := false, format_type := format_type_t.FORMAT_TYPE_MPEG }
      else none }

/-- The request to move a listener to `/a`. -/
def cycle_request : fbinfo :=
  { flags := 0, limit := 0, mount := some "/a", fallback := none,
    type := format_type_t.FORMAT_TYPE_MPEG }

/-- The empty file engine in the state in which `move_listener` enters its
loop: configuration and source tree locked. -/
def moving_fserve : fserve_state :=
  { empty_fserve with
    trace := [lock_ev.acquire lock_id.config, lock_ev.acquire lock_id.source_tree] }

/-- The sample collaborators with two live sources: `/ogg` streams Ogg and
falls back to `/mp3`, which streams MPEG. -/
def sources_env : fserve_env :=
  { sample_fserve_env with
    config_find_mount := fun m =>
      if m = "/ogg" then
        some { sample_mount with mountname := "/ogg", auth := none, fallback_mount := some "/mp3" }
      else if m = "/mp3" then some { sample_mount with mountname := "/mp3", auth := none }
      else none,
    source_find_mount_raw := fun m =>
      if m = "/ogg" then
        some { mount := m, available := true, format_type := format_type_t.FORMAT_TYPE_OGG }
      else if m = "/mp3" then
        some { mount := m, available := true, format_type := format_type_t.FORMAT_TYPE_MPEG }
      else none }

/-- The request to move an MPEG listener to `/ogg`. -/
def ogg_request : fbinfo :=
  { flags := 0, limit := 0, mount := some "/ogg", fallback := none,
    type := format_type_t.FORMAT_TYPE_MPEG }

/-- The request to move a listener to the mount `mount`, with no limit set. -/
def bracket_request (mount : String) : fbinfo :=
  { flags := 0, limit := 0, mount := some mount, fallback := none,
    type := format_type_t.FORMAT_TYPE_MPEG }

/-- The empty file engine as `move_listener` leaves its locks when it goes to
file serving after one pass of the loop. -/
def moved_fserve : fserve_state :=
  { empty_fserve with
    trace := [lock_ev.acquire lock_id.config, lock_ev.acquire lock_id.source_tree,
              lock_ev.release lock_id.source_tree, lock_ev.release lock_id.config] }

/-! ### Callbacks run by the auth workers (`auth.c`) -/

/-- What `auth_postprocess_listener` leaves behind: its return value, the
state of the file engine, the work item, the listener as the call that took
it over leaves it (`none` when the item carried no listener) and the realm
of the 401 response the function sent (`none` when it sent none). -/
structure postprocess_result where
  ret : Int
  st : fserve_state
  auth_user : auth_client
  client : Option client_t
  sent_401 : Option (Option String)
deriving DecidableEq, Repr

/-- The function `auth_postprocess_listener (auth_user)`; `auth` is the
authenticator the item was queued on (`auth_user->auth`) and `process` stands
for the call through `client->ops->process` made by `fserve_setup_client_fb`. -/
def auth_postprocess_listener (E : fserve_env) (process : process_fn) (st : fserve_state)
    (auth : auth_t) (auth_user : auth_client) : Except fault postprocess_result :=
  match auth_user.client with
  | none => .ok { ret := -1, st := st, auth_user := auth_user, client := none, sent_401 := none }
  | some client =>
    let added := fun (u : auth_client) (mount : String) =>
      let st1 := config_get_config st
      let mountinfo := E.config_find_mount mount
      (add_authenticated_listener E process st1 mount mountinfo client).map (fun r =>
        ({ ret := r.1, st := config_release_config r.2.1, auth_user := { u with client := none },
           client := some r.2.2, sent_401 := none } : postprocess_result))
    if has_bits client.flags CLIENT_AUTHENTICATED = false then
      let u1 := { auth_user with client := none }
      match auth.rejected_mount with
      | some rejected => added u1 rejected
      | none =>
        .ok { ret := -1, st := st, auth_user := u1,
              client := some (E.client_send_401 client auth.realm).2,
              sent_401 := some auth.realm }
    else added auth_user auth_user.mount

/-- Modelled from the spec: the answers of a back-end `authenticate` callback
(`auth_result` of `auth.h`, which is not among the sources).  The spec names
`AUTH_OK` and `AUTH_FAILED`; every other answer is `AUTH_OTHER`. -/
inductive auth_result where
  | AUTH_OK
  | AUTH_FAILED
  | AUTH_OTHER
deriving DecidableEq, Repr

/-- Functions of other translation units used by the callbacks the auth
workers run, on top of those of the file engine: `sock_active` and the
`authenticate` callback of the back-end, which gives its answer and the work
item as it leaves it. -/
structure auth_worker_env extends fserve_env where
  sock_active : Int → Int
  authenticate : auth_t → auth_client → auth_result × auth_client

/-- The function `is_listener_connected (client)`. -/
def is_listener_connected (E : auth_worker_env) (client : Option client_t) : Int :=
  match client with
  | some c => if E.sock_active c.connection.sock = 0 then 0 else 1
  | none => 1

/-- The function `auth_new_listener (auth_user)`: the state of the file
engine, the work item afterwards and, when the function got as far as
`auth_postprocess_listener`, what that call left. -/
def auth_new_listener (E : auth_worker_env) (process : process_fn) (st : fserve_state)
    (G : auth_globals) (auth : auth_t) (auth_user : auth_client) :
    Except fault (fserve_state × auth_client × Option postprocess_result) :=
  if G.allow_auth = 0 ∨ is_listener_connected E auth_user.client = 0 then
    match auth_user.client with
    | none => .error (fault.null_deref "client")
    | some client =>
      .ok (st, { auth_user with client := some { client with respcode := 400 } }, none)
  else
    let answered : Option auth_client :=
      if auth.authenticate.isSome then
        match (E.authenticate auth auth_user).1 with
        | auth_result.AUTH_OK => some (E.authenticate auth auth_user).2
        | auth_result.AUTH_FAILED => some (E.authenticate auth auth_user).2
        | auth_result.AUTH_OTHER => none
      else some auth_user
    match answered with
    | none => .ok (st, (E.authenticate auth auth_user).2, none)
    | some u =>
      (auth_postprocess_listener E.tofserve_env process st auth u).map (fun r =>
        (r.st, r.auth_user, some r))

/-- The function `auth_client_free (auth_user)`; `auth` is the authenticator
the item was queued on (`auth_user->auth`).  Gives `none` for a `NULL` item;
otherwise the listener the item still carried, as `client_send_401` leaves
it, with the realm sent (`none` when the item carried no listener), and the
work item as it is when its memory is freed. -/
def auth_client_free (E : auth_env) (auth : auth_t) (auth_user : Option auth_client) :
    Option (Option (client_t × Option String) × auth_client) :=
  match auth_user with
  | none => none
  | some u =>
    match u.client with
    | none => some (none, u)
    | some client =>
      let c1 := if client.respcode ≠ 0 then
          { client with connection := { client.connection with error := 1 } } else client
      some (some ((E.client_send_401 c1 auth.realm).2, auth.realm), { u with client := none })

/-- The function `auth_initialise ()`: the globals and `thread_id` afterwards. -/
def auth_initialise (G : auth_globals) : auth_globals × Nat :=
  ({ G with allow_auth := 1 }, 0)

/-- The sample authenticator with `rejected_mount` set to `/denied`. -/
def rejecting_auth : auth_t := { sample_auth with rejected_mount := some "/denied" }

/-- A work item of `auth_new_listener` that carries listener 81, whom the
back-end did not authenticate. -/
def refused_item : auth_client :=
  { auth_client_setup sample_auth_env "/stream" (some (listener 81 none)) with
    process := some auth_process.auth_new_listener }

/-- Collaborators of the worker callbacks for sample runs: every socket is
live and the back-end authenticates every listener. -/
def sample_worker_env : auth_worker_env :=
  { sample_fserve_env with
    sock_active := fun _ => 1,
    authenticate := fun _ u =>
      (auth_result.AUTH_OK,
       { u with client := u.client.map (fun c =>
           { c with flags := c.flags ||| CLIENT_AUTHENTICATED }) }) }

/-! ### The worker thread and the release of an authenticator (`auth.c`) -/

/-- How `auth_release` leaves the authenticator: alive with one reference
less, or freed; `freed` carries the object as `free` receives it. -/
inductive released where
  | alive (auth : auth_t)
  | freed (last : auth_t)
deriving DecidableEq, Repr

/-- The function `auth_release (authenticator)`; `none` stands for a `NULL`
argument, for which nothing happens.  The back-end calls of the cleanup
(`release_thread_data`, `release`) free data of the back-end only. -/
def auth_release (authenticator : Option auth_t) : Option released :=
  match authenticator with
  | none => none
  | some a =>
    let a1 := { a with refcount := a.refcount - 1 }
    if a1.refcount ≠ 0 then some (released.alive a1)
    else some (released.freed { a1 with running := 0, handlers := 0, handles := [] })

/-- What one pass of the `while (1)` loop of `auth_run_thread` does: it takes
the first work item off the queue, or, the queue being empty, gives up its
slot and leaves the loop. -/
inductive thread_pass where
  | popped (auth : auth_t) (auth_user : auth_client)
  | leaving (auth : auth_t)
deriving DecidableEq, Repr

/-- One pass of the `while (1)` loop of `auth_run_thread` for the worker of
slot `slot`, up to the call of `process`: the section under `auth->lock` and
the stores into the work item that follow it.  A work item taken off the
queue belongs to the worker and is no longer among `items`. -/
def auth_run_thread_pass (auth : auth_t) (slot : Nat) : Except fault thread_pass :=
  match auth.handles.get? slot with
  | none => .error (fault.out_of_bounds "auth->handles")
  | some handler =>
    match auth.head with
    | some p =>
      match auth.items.find? (fun it => it.1 = p) with
      | none => .error (fault.dangling p)
      | some it =>
        let a1 := { auth with head := it.2.next }
        let a2 := if a1.head = none then { a1 with tailp := some tail_ref.head } else a1
        let a3 := { a2 with pending_count := a2.pending_count - 1,
                            items := a2.items.filter (fun e => e.1 ≠ p) }
        .ok (thread_pass.popped a3
          { it.2 with next := none, thread_data := handler.data, handler := handler.id })
    | none =>
      .ok (thread_pass.leaving
        { auth with handles := auth.handles.set slot { handler with thread := none } })

/-- The function `auth_run_thread (arg)` for the worker of slot `slot`, run
while no other thread touches the authenticator; `fuel` bounds the passes of
the loop.  Gives the work items in the order in which the loop handles them
(call of `process`, then `auth_client_free`) and how the closing
`auth_release` leaves the authenticator; `none` when the fuel runs out.  The
read lock on `auth_lock` the thread holds from start to end changes no
variable. -/
def auth_run_thread (slot : Nat) :
    Nat → auth_t → Except fault (Option (List auth_client × Option released))
  | 0, _ => .ok none
  | fuel + 1, auth => do
    match ← auth_run_thread_pass auth slot with
    | thread_pass.popped a1 u => do
      let r ← auth_run_thread slot fuel a1
      pure (r.map (fun x => (u :: x.1, x.2)))
    | thread_pass.leaving a1 => pure (some ([], auth_release (some a1)))

/-- An operation on the queue of an authenticator: `queue_auth_client` for a
work item, or one pass of the loop of the worker of a slot. -/
inductive queue_op where
  | enqueue (auth_user : auth_client)
  | pass (slot : Nat)
deriving DecidableEq, Repr

/-- The work items a list of operations puts on the queue, in order. -/
def enqueued : List queue_op → List auth_client
  | [] => []
  | queue_op.enqueue u :: ops => u :: enqueued ops
  | queue_op.pass _ :: ops => enqueued ops

/-- Operations on the queue run one after the other: the authenticator
afterwards and the work items taken off the queue, in order. -/
def run_queue_ops (E : auth_env) : List queue_op → auth_t → Except fault (auth_t × List auth_client)
  | [], a => .ok (a, [])
  | queue_op.enqueue u :: ops, a => do
    let a1 ← enqueue_item E a (fresh_item a) u
    run_queue_ops E ops a1
  | queue_op.pass slot :: ops, a => do
    match ← auth_run_thread_pass a slot with
    | thread_pass.popped a1 u => do
      let r ← run_queue_ops E ops a1
      pure (r.1, u :: r.2)
    | thread_pass.leaving a1 => run_queue_ops E ops a1

/-- The work items reached from the pointer `p` by following `next`, at most
`fuel` of them. -/
def linked_items (items : List (Nat × auth_client)) : Nat → Option Nat → List Nat
  | 0, _ => []
  | _ + 1, none => []
  | fuel + 1, some p =>
    match items.find? (fun it => it.1 = p) with
    | none => []
    | some it => p :: linked_items items fuel it.2.next

/-- The work items linked from `auth->head`, in order. -/
def queue_chain (a : auth_t) : List Nat := linked_items a.items (a.items.length + 1) a.head

/-- A work item without the fields the queue and the worker write into it
(`next`, `thread_data`, `handler`): what `auth_client_setup` and its caller
put there. -/
def plain (u : auth_client) : auth_client := { u with next := none, thread_data := 0, handler := 0 }

/-- The initial state of the queue of an authenticator: no work item, `tailp`
at `head`, and a slot for every handler. -/
def auth_initial (a : auth_t) : Prop :=
  a.head = none ∧ a.items = [] ∧ a.pending_count = 0 ∧ a.tailp = some tail_ref.head ∧
  a.handlers.toNat ≤ a.handles.length

/-- Each work item of the list points at the one after it, the last one at
nothing. -/
def chained : List (Nat × auth_client) → Prop
  | [] => True
  | [it] => it.2.next = none
  | it :: it2 :: rest => it.2.next = some it2.1 ∧ chained (it2 :: rest)

/-- The queue of an authenticator is in order: `items` holds the work items
from first to last, each at its own address and linked to the next, `head`
points at the first, `tailp` at the `next` field of the last (at `head` when
there is none) and `pending_count` is their number. -/
def queue_wf (a : auth_t) : Prop :=
  (a.items.map Prod.fst).Nodup ∧ chained a.items ∧
  a.head = a.items.head?.map Prod.fst ∧
  a.pending_count = (a.items.length : Int) ∧
  a.tailp = some (match a.items.getLast? with
                  | none => tail_ref.head
                  | some it => tail_ref.next it.1) ∧
  a.handlers.toNat ≤ a.handles.length

/-- An authenticator and the threads at work on it: the authenticator (alive
or freed), the number of references held by others than workers (mount
configurations), the workers that took a work item and have not yet called
its `process` (slot and item), the number of workers that gave up their slot
and have not yet called `auth_release`, and the work items in the order in
which `process` was called for them. -/
structure auth_system where
  auth : released
  holders : Nat
  holding : List (Nat × auth_client)
  leaving : Nat
  dispatched : List auth_client
deriving DecidableEq, Repr

/-- What a thread can do to an authenticator in one go (each is one section
under `auth->lock`, or the call of `process` outside it): a holder of a
reference queues a work item; the worker of a slot runs one pass of its loop
up to the call of `process`; the worker of a slot calls `process` for the
item it took; a worker that gave up its slot calls `auth_release`; a holder
calls `auth_release`. -/
inductive auth_event where
  | enqueue (auth_user : auth_client)
  | pass (slot : Nat)
  | dispatch (slot : Nat)
  | worker_release
  | holder_release
deriving DecidableEq, Repr

/-- One event on the system, `none` when the event cannot happen in this
state (no such thread, or the authenticator is gone) or ends in a fault. -/
def system_step (E : auth_env) (s : auth_system) (ev : auth_event) : Option auth_system :=
  match s.auth with
  | released.freed _ => none
  | released.alive a =>
    match ev with
    | auth_event.enqueue u =>
      if s.holders = 0 then none
      else
        match enqueue_item E a (fresh_item a) u with
        | .ok a1 => some { s with auth := released.alive a1 }
        | .error _ => none
    | auth_event.pass slot =>
      if ((a.handles.get? slot).bind (fun h => h.thread)).isNone
          ∨ s.holding.any (fun w => w.1 = slot) then none
      else
        match auth_run_thread_pass a slot with
        | .ok (thread_pass.popped a1 u) =>
          some { s with auth := released.alive a1, holding := s.holding ++ [(slot, u)] }
        | .ok (thread_pass.leaving a1) =>
          some { s with auth := released.alive a1, leaving := s.leaving + 1 }
        | .error _ => none
    | auth_event.dispatch slot =>
      match s.holding.find? (fun w => w.1 = slot) with
      | some w =>
        some { s with holding := s.holding.filter (fun x => x.1 ≠ slot),
                      dispatched := s.dispatched ++ [w.2] }
      | none => none
    | auth_event.worker_release =>
      if s.leaving = 0 then none
      else (auth_release (some a)).map (fun r => { s with auth := r, leaving := s.leaving - 1 })
    | auth_event.holder_release =>
      if s.holders = 0 then none
      else (auth_release (some a)).map (fun r => { s with auth := r, holders := s.holders - 1 })

/-- Events one after the other. -/
def run_events (E : auth_env) : List auth_event → auth_system → Option auth_system
  | [], s => some s
  | ev :: evs, s => (system_step E s ev).bind (run_events E evs)

/-- The system right after `auth_get_authenticator`: the authenticator with
the one reference of the mount configuration, and no worker. -/
def system_start (a : auth_t) : auth_system :=
  { auth := released.alive a, holders := 1, holding := [], leaving := 0, dispatched := [] }

/-- The figures of a system the invariants are about: `refcount`,
`pending_count`, `head`, `running`, the threads of the slots, and the numbers
of workers holding an item, of workers leaving and of other holders. -/
def system_figures (s : auth_system) :
    Bool × Int × Int × Option Nat × Int × List (Option Nat) × Nat × Nat × Nat :=
  match s.auth with
  | released.alive a =>
    (true, a.refcount, a.pending_count, a.head, a.running, a.handles.map (fun h => h.thread),
     s.holding.length, s.leaving, s.holders)
  | released.freed a =>
    (false, a.refcount, a.pending_count, a.head, a.running, a.handles.map (fun h => h.thread),
     s.holding.length, s.leaving, s.holders)

/-- The authenticator `auth_get_authenticator` builds for an `htpasswd` node
without options: three handlers (the default), all slots free. -/
def built_auth : auth_t :=
  ((auth_get_authenticator sample_backends (some "htpasswd") [] 0).2.1).getD sample_auth

/-- The authenticator `auth_get_authenticator` builds for an `htpasswd` node
with the option `handlers` set to 1. -/
def single_auth : auth_t :=
  ((auth_get_authenticator sample_backends (some "htpasswd")
      [{ name := "option", prop_name := some "handlers", prop_value := some "1" }] 0).2.1).getD
    sample_auth

/-- The work item `auth_add_listener` queues for the listener on connection
`id`. -/
def item_of (id : Nat) : auth_client :=
  { auth_client_setup sample_auth_env "/stream" (some (listener id none)) with
    process := some auth_process.auth_new_listener }

/-- The connection ids of the listeners a list of work items carries. -/
def listeners_of (l : List auth_client) : List (Option Nat) :=
  l.map (fun u => u.client.map (fun c => c.connection.id))

/-- The number of slots of an authenticator in which a worker runs. -/
def occupied (a : auth_t) : Nat := (a.handles.filter (fun h => h.thread.isSome)).length

/-- The references of an authenticator are accounted for: while it is alive
its queue is in order, `running` has the value `running0` and `refcount`
covers the workers in the slots, the workers that are leaving and the other
holders; once freed, `refcount` is 0 and the teardown was done. -/
def system_counted (running0 : Int) (s : auth_system) : Prop :=
  match s.auth with
  | released.alive a =>
    queue_wf a ∧ a.running = running0 ∧
    (occupied a : Int) + (s.leaving : Int) + (s.holders : Int) ≤ a.refcount
  | released.freed l => l.refcount = 0 ∧ l.running = 0 ∧ l.handles = []

/-- The request `fallback_request` with the bit `FS_OVERRIDE` set as well: the
same mount and the same `FS_FALLBACK` and `FS_USE_ADMIN` bits. -/
def override_request : fbinfo :=
  { fallback_request with flags := FS_FALLBACK ||| FS_OVERRIDE }

/-- The file engine `fallback_fserve` with the cache write lock taken, as
`open_fh` is entered. -/
def fallback_locked : fserve_state :=
  state_or_empty (lock fallback_fserve lock_id.fh_cache)

/-- The figures of the authenticator of a mount that the spawning of workers
is about: `pending_count`, `refcount` and the thread of each slot. -/
def queue_figures (m : Option mount_proxy) : Option (Int × Int × List (Option Nat)) :=
  (m.bind (fun mp => mp.auth)).map (fun a =>
    (a.pending_count, a.refcount, a.handles.map (fun h => h.thread)))

/-- The mount `sample_mount` with the authenticator `a`. -/
def mount_with (a : auth_t) : mount_proxy := { sample_mount with auth := some a }

/-- The authenticator `single_auth` (one handler, slot free, queue empty) with
a second reference held, as while a worker that gave up the slot has not yet
called `auth_release`. -/
def leaving_auth : auth_t := { single_auth with refcount := 2 }

/-- The sample collaborators of the auth pipeline, except that no thread can
be created: `thread_create` returns `NULL`. -/
def threadless_env : auth_env := { sample_auth_env with thread_create := fun _ _ => none }

/-- The empty file engine with the cache write lock taken, as `open_fh` is
entered. -/
def empty_locked : fserve_state :=
  state_or_empty (lock empty_fserve lock_id.fh_cache)

/-- The request for the file `/cover.jpg`, served at 16000 bytes/s. -/
def limited_cover_request : fbinfo := { cover_request with limit := 16000 }

/-- What the rate limit is about in the handle at address 1: `limit`, `type`
and `out_bitrate`. -/
def limit_at (st : fserve_state) : Except fault (Int × format_type_t × Option (Nat × Nat)) :=
  (heap_get st 1).map (fun fh => (fh.finfo.limit, fh.finfo.type, fh.out_bitrate))

/-- Collaborators of the worker callbacks for sample runs in which the socket
of every listener is closed. -/
def dropped_worker_env : auth_worker_env := { sample_worker_env with sock_active := fun _ => 0 }

/-- A work item of `auth_new_listener` that carries listener 82, whom the
back-end authenticated. -/
def accepted_item : auth_client :=
  { refused_item with
    client := some { listener 82 none with flags := CLIENT_AUTHENTICATED } }

/-- The addresses of the file handles whose lock the running thread holds
after the operations `tr`. -/
def fh_locks_held (tr : List lock_ev) : List Nat :=
  (tr.filterMap (fun ev =>
    match ev with
    | lock_ev.acquire (lock_id.fh a) => some a
    | _ => none)).eraseDups.filter (fun a => held tr (lock_id.fh a))

/-- Whether, among the operations `tr`, the cache lock is taken at a point
where the lock of a file handle is held. -/
def cache_under_fh (tr : List lock_ev) : Bool :=
  (List.range tr.length).any (fun i =>
    decide (tr.get? i = some (lock_ev.acquire lock_id.fh_cache)) &&
    !(fh_locks_held (tr.take i)).isEmpty)

/-- Listener 31 and the file engine after the listener was attached to the
fallback file `/live.mp3` and `fserve_set_override` then redirected the
handle of that file to `/other`. -/
def overridden_fserve : Except fault (fserve_state × client_t) := do
  let r ← fserve_setup_client_fb sample_fserve_env sample_process empty_fserve
    (listener 31 none) (some fallback_request)
  let o ← fserve_set_override r.2.1 "/live.mp3" "/other" format_type_t.FORMAT_TYPE_MPEG
  pure (o.2, r.2.2)

/-! ### The send routines of the file states (`fserve.c`) -/

/-- Value of a C `unsigned long` object after storing `v` into it. -/
def to_ulong (v : Int) : Int := v % 18446744073709551616

/-- The C quotient `a / b` of two unsigned values; a division by zero ends
the run. -/
def c_div (a b : Int) : Except fault Int :=
  if b = 0 then .error fault.division_by_zero else .ok (a / b)

/-- Functions and variables of other translation units used by the send
routines of the file states, on top of those of the file engine:
`throttle_sends` and `worker_count` are globals; `pread` gives its return
value and the bytes read for a descriptor, a count and an offset;
`worker_selected` is the worker `worker_selected ()` returns as seen from the
worker given, `none` when the call returns `NULL` or that same worker;
`flv_limit` is the value of `(unsigned long)(limit * 1.01)`, computed in
floating point. -/
structure send_env extends fserve_env where
  throttle_sends : Int
  worker_count : Int
  pread : Int → Int → Int → Int × String
  worker_selected : worker_t → Option worker_t
  client_change_worker : client_t → worker_t → Int × client_t
  format_file_read : client_t → Option format_plugin_t → Int → Int × client_t
  flv_limit : Int → Int

/-- The loop of `file_send` with `loop` passes left, `written` bytes sent so
far in this wake and `now` the time read on entry.  Next to what the function
returns the loop tells how it was left: `some written` when a write returned
less than 0 with `written` bytes sent before it, `none` otherwise.  A write
returns no more than the bytes of the buffer, so `written` stays far from the
limits of `int`. -/
def file_send_loop (E : send_env) (now : Int) :
    Nat → Int → fserve_state → client_t →
      Except fault ((Int × fserve_state × client_t) × Option Int)
  | 0, _, st, client => .ok ((0, st, client), none)
  | loop + 1, written, st, client =>
    if ¬ (written < 30000) then .ok ((0, st, client), none)
    else if st.fserve_running = 0 ∨ client.connection.error ≠ 0 then .ok ((-1, st, client), none)
    else if client.connection.discon_time ≠ 0 ∧ now ≥ client.connection.discon_time then
      .ok ((-1, st, client), none)
    else
      match client.refbuf with
      | [] => .error (fault.null_deref "refbuf")
      | ref :: rest =>
        let filled : Except fault (Option client_t) :=
          if client.pos = ref.len then
            match client.shared_data with
            | none => .error (fault.null_deref "fh")
            | some addr =>
              (heap_get st addr).map (fun fh =>
                let r := E.pread fh.f 8192 client.intro_offset
                if r.1 ≤ 0 then none
                else some { client with
                            refbuf := { ref with data := r.2, len := r.1 } :: rest,
                            intro_offset := client.intro_offset + r.1, pos := 0 })
          else .ok (some client)
        match filled with
        | .error e => .error e
        | .ok none => .ok ((-1, st, client), none)
        | .ok (some c1) =>
          match c1.check_buffer with
          | none => .error (fault.null_deref "client->check_buffer")
          | some w =>
            let r := E.write_fn w c1
            if r.1 < 0 then
              .ok ((0, st, { r.2 with
                             schedule_ms := r.2.schedule_ms + (if written ≠ 0 then 120 else 250) }),
                   some written)
            else
              file_send_loop E now loop (written + r.1) st
                { r.2 with schedule_ms := r.2.schedule_ms + 3 }

/-- The function `file_send (client)` together with the way its loop was
left (see `file_send_loop`). -/
def file_send_wake (E : send_env) (st : fserve_state) (client : client_t) :
    Except fault ((Int × fserve_state × client_t) × Option Int) :=
  match client.worker with
  | none => .error (fault.null_deref "worker")
  | some worker =>
    let c1 := { client with schedule_ms := worker.time_ms }
    let now := worker.current_time_sec
    if E.throttle_sends > 1 ∧ now - c1.connection.con_time > 1 then
      file_send_loop E now 1 0 st { c1 with schedule_ms := c1.schedule_ms + 300 }
    else file_send_loop E now 6 0 st c1

/-- The function `file_send (client)`: return value, state and client
afterwards. -/
def file_send (E : send_env) (st : fserve_state) (client : client_t) :
    Except fault (Int × fserve_state × client_t) :=
  (file_send_wake E st client).map Prod.fst

/-- The function `fserve_change_worker (client)`: the return value and the
client afterwards.  The read lock on `workers_lock` that it takes and gives
back changes no variable. -/
def fserve_change_worker (E : send_env) (client : client_t) : Except fault (Int × client_t) :=
  match client.worker with
  | none => .error (fault.null_deref "this_worker")
  | some this_worker =>
    if this_worker.move_allocations = 0 ∨ E.worker_count < 2 then .ok (0, client)
    else
      match E.worker_selected this_worker with
      | none => .ok (0, client)
      | some worker =>
        if this_worker.count - worker.count > 15 then
          .ok (E.client_change_worker
            { client with worker := some { this_worker with
                move_allocations := this_worker.move_allocations - 1 } } worker)
        else .ok (0, client)

/-- The delay `throttled_file_send` adds to `schedule_ms` when the listener
is ahead of the limit: `1000/(limit/1400)` for a limit of at least 1400, 50
otherwise. -/
def throttle_backoff (limit : Int) : Except fault Int :=
  if limit ≥ 1400 then do
    let q ← c_div limit 1400
    c_div 1000 q
  else pure 50

/-- The delay `throttled_file_send` adds to `schedule_ms` after a write:
`1000/(limit/1400*2)` for a limit above 2800, 50 otherwise. -/
def throttle_resched (limit : Int) : Except fault Int :=
  if limit > 2800 then do
    let q ← c_div limit 1400
    c_div 1000 (to_uint (q * 2))
  else pure 50

/-- The statements `if (secs) rate = (client->counter+1400)/secs;` of
`throttled_file_send`, `rate` being 0 before. -/
def throttle_rate (counter secs : Int) : Except fault Int :=
  if secs ≠ 0 then (c_div (to_ulong (counter + 1400)) secs).map to_uint else pure 0

/-- The part of `throttled_file_send` from `if (fh->stats_update <= now)` on,
for the handle at `addr`, the worker read on entry and the limit in force.
The samples handed to `rate_add` and `global_add_bitrates` and the figure
handed to `stats_set_args` are kept by other translation units. -/
def throttled_send_tail (E : send_env) (st : fserve_state) (addr : Nat) (worker : worker_t)
    (limit : Int) (client : client_t) : Except fault (Int × fserve_state × client_t) := do
  let now := worker.current_time_sec
  let fh ← heap_get st addr
  let st1 ←
    (if fh.stats_update ≤ now then do
      let s1 ← lock st (lock_id.fh addr)
      let fh1 ← heap_get s1 addr
      let s2 := if fh1.stats_update ≤ now then
          heap_set s1 addr { fh1 with stats_update := now + 5 } else s1
      unlock s2 (lock_id.fh addr)
    else Except.ok st)
  match client.refbuf with
  | [] => throw (fault.null_deref "refbuf")
  | ref :: _ =>
    let fh2 ← heap_get st1 addr
    let read : Int × client_t :=
      if client.pos = ref.len then E.format_file_read client fh2.format fh2.f else (0, client)
    if client.pos = ref.len ∧ read.1 = -1 then
      pure (0, st1, { read.2 with intro_offset := 0, schedule_ms := read.2.schedule_ms + 150 })
    else if client.pos = ref.len ∧ read.1 = -2 then pure (-1, st1, read.2)
    else
      let c1 := if client.pos = ref.len then { read.2 with pos := 0 } else read.2
      match c1.check_buffer with
      | none => throw (fault.null_deref "client->check_buffer")
      | some w =>
        let r := E.write_fn w c1
        let d ← throttle_resched limit
        let c2 := { r.2 with schedule_ms := r.2.schedule_ms + d }
        let c3 := if E.throttle_sends > 1 then { c2 with schedule_ms := c2.schedule_ms + 300 }
                  else c2
        pure (0, st1, c3)

/-- The function `throttled_file_send (client)`; `process` stands for the
call through `client->ops->process` made when the listener is moved. -/
def throttled_file_send (E : send_env) (process : process_fn) (st : fserve_state)
    (client : client_t) : Except fault (Int × fserve_state × client_t) :=
  match client.shared_data with
  | none => .error (fault.null_deref "fh")
  | some addr => do
    let fh ← heap_get st addr
    let limit0 := to_uint fh.finfo.limit
    if st.fserve_running = 0 ∨ client.connection.error ≠ 0 then pure (-1, st, client)
    else
      match client.worker with
      | none => throw (fault.null_deref "worker")
      | some worker =>
        let now := worker.current_time_sec
        let secs := to_ulong (now - client.timer_start)
        let c1 := { client with schedule_ms := worker.time_ms }
        if c1.connection.discon_time ≠ 0 ∧ now ≥ c1.connection.discon_time then
          pure (-1, st, c1)
        else if fh.finfo.fallback.isSome then fserve_move_listener E.tofserve_env process st c1
        else do
          let moved ← fserve_change_worker E c1
          if moved.1 ≠ 0 then pure (1, st, moved.2)
          else
            let c2 := moved.2
            let limit := if has_bits c2.flags CLIENT_WANTS_FLV then to_uint (E.flv_limit limit0)
                         else limit0
            let rate ← throttle_rate c2.counter secs
            if rate > limit ∨ secs < 3 then
              let d ← throttle_backoff limit
              let c3 := { c2 with schedule_ms := c2.schedule_ms + d }
              if secs > 2 then pure (0, st, c3)
              else throttled_send_tail E st addr worker limit c3
            else throttled_send_tail E st addr worker limit c2
/-- A run that does not end in a division by zero. -/
def no_division {α : Type} (x : Except fault α) : Prop := x ≠ .error fault.division_by_zero

/-- Collaborators of the send routines for sample runs: `throttle_sends` has
the value given, every write returns -1, a read fills the buffer, one worker
runs and no conversion for FLV takes place. -/
def stalled_env (throttle : Int) : send_env :=
  { sample_fserve_env with
    write_fn := fun _ c => (-1, c),
    throttle_sends := throttle,
    worker_count := 1,
    pread := fun _ _ _ => (8192, ""),
    worker_selected := fun _ => none,
    client_change_worker := fun c _ => (0, c),
    format_file_read := fun c _ _ => (0, c),
    flv_limit := fun l => l }

/-- Listener 51 in the file state on the handle at address 1: connected at
time 0, its buffer of 8192 bytes used up. -/
def file_client : client_t :=
  { listener 51 none with
    connection := { (listener 51 none).connection with con_time := 0 },
    shared_data := some 1, refbuf := [refbuf_new 8192], pos := 8192, check_buffer := some 1 }

/-- Collaborators of the send routines for sample runs in which every write
sends 100 bytes; see `stalled_env` for the other settings. -/
def sending_env : send_env :=
  { stalled_env 0 with write_fn := fun _ c => (100, c) }

/-- The file engine whose cache holds, at address 1, a handle on `/live.mp3`
with the limit given and listener 61 attached. -/
def throttled_fserve (limit : Int) : fserve_state :=
  { sample_fserve with
    heap := [(1, { sample_fh with finfo := { sample_fh.finfo with limit := limit },
                                  refcount := 1, clients := [61],
                                  out_bitrate := some (10000, 1000) })] }

/-- Listener 61 in the throttled file state on the handle at address 1, with
the time `timer_start` at which its sending began (the worker's clock shows
5) and a buffer still to be sent. -/
def throttled_client (timer_start : Int) : client_t :=
  { listener 61 none with
    shared_data := some 1, refbuf := [refbuf_new 8192], pos := 0, check_buffer := some 1,
    timer_start := timer_start }

/-- The request to move an Ogg listener to `/mp3`, whose live source is MPEG
and whose mount has no fallback. -/
def mp3_request : fbinfo :=
  { flags := 0, limit := 0, mount := some "/mp3", fallback := none,
    type := format_type_t.FORMAT_TYPE_OGG }

/-- Listener 62 as the connection of a slave server. -/
def slave_listener : client_t := { listener 62 none with flags := CLIENT_IS_SLAVE }

/-- A file engine with two handles of the same key (`/live.mp3`, flags 0):
the one at address 1, with one listener, is not in the cache; the one at
address 2, with two listeners, is. -/
def twin_fserve : fserve_state :=
  { sample_fserve with
    heap := [(1, { sample_fh with refcount := 1, clients := [11] }),
             (2, { sample_fh with refcount := 2, clients := [12, 13] })],
    fh_cache := [2] }

/-! ## Part II. Theorems -/

/-! ### Decimal texts are read back as the number they show -/

theorem digitChar_spec (m : Nat) (h : m < 10) :
    isdigit (Nat.digitChar m) = true ∧ (Nat.digitChar m).toNat - 48 = m := by
  interval_cases m <;> decide

theorem isdigit_not_special (d : Char) (h : isdigit d = true) :
    isspace d = false ∧ d ≠ '-' ∧ d ≠ '+' := by
  refine ⟨?_, ?_, ?_⟩
  · simp only [isdigit, Bool.and_eq_true, decide_eq_true_eq] at h
    simp only [isspace, Bool.or_eq_false_iff, decide_eq_false_iff_not]
    refine ⟨⟨⟨⟨⟨?_, ?_⟩, ?_⟩, ?_⟩, ?_⟩, ?_⟩ <;> (intro e; subst e; revert h; decide)
  · intro e; subst e; revert h; decide
  · intro e; subst e; revert h; decide

theorem toDigitsCore_append (fuel : Nat) : ∀ (n : Nat) (ds : List Char),
    Nat.toDigitsCore 10 fuel n ds = Nat.toDigitsCore 10 fuel n [] ++ ds := by
  induction fuel with
  | zero => intro n ds; simp [Nat.toDigitsCore]
  | succ f ih =>
    intro n ds
    simp only [Nat.toDigitsCore]
    by_cases h : n / 10 = 0
    · simp [h]
    · simp only [h, if_false]
      rw [ih (n / 10) (_ :: ds), ih (n / 10) [_]]
      simp

theorem scan_digits_toDigitsCore (fuel : Nat) : ∀ n, n < fuel →
    ∃ k, ∀ acc ds, scan_digits acc (Nat.toDigitsCore 10 fuel n ds)
      = scan_digits (acc * 10 ^ k + n) ds := by
  induction fuel with
  | zero => intro n h; omega
  | succ f ih =>
    intro n hn
    have hd := digitChar_spec (n % 10) (Nat.mod_lt _ (by decide))
    by_cases h : n / 10 = 0
    · refine ⟨1, fun acc ds => ?_⟩
      have hlt : n % 10 = n := by omega
      rw [hlt] at hd
      simp only [Nat.toDigitsCore, h, if_true, scan_digits, hd.1, hd.2, pow_one, hlt]
    · obtain ⟨k, hk⟩ := ih (n / 10) (by omega)
      refine ⟨k + 1, fun acc ds => ?_⟩
      simp only [Nat.toDigitsCore, h, if_false]
      rw [hk, scan_digits]
      simp only [hd.1, hd.2, if_true]
      congr 1
      rw [pow_succ]
      have := Nat.div_add_mod n 10
      nlinarith [this]

theorem toDigitsCore_head (fuel : Nat) : ∀ (n : Nat) (ds : List Char), n < fuel →
    ∃ d tl, Nat.toDigitsCore 10 fuel n ds = d :: tl ∧ isdigit d = true := by
  induction fuel with
  | zero => intro n ds h; omega
  | succ f ih =>
    intro n ds hn
    by_cases h : n / 10 = 0
    · exact ⟨_, ds, by simp [Nat.toDigitsCore, h],
        (digitChar_spec (n % 10) (Nat.mod_lt _ (by decide))).1⟩
    · obtain ⟨d, tl, e, hd⟩ := ih (n / 10) (Nat.digitChar (n % 10) :: ds) (by omega)
      exact ⟨d, tl, by simp [Nat.toDigitsCore, h, e], hd⟩

theorem scan_digits_stops (acc : Nat) (rest : List Char) (h : stops rest) :
    scan_digits acc rest = acc := by
  cases rest with
  | nil => rfl
  | cons c tl => simp [scan_digits, h c tl rfl]

theorem toString_nat_head (n : Nat) :
    ∃ d tl, (toString n).data = d :: tl ∧ isdigit d = true :=
  toDigitsCore_head (n + 1) n [] (Nat.lt_succ_self n)

theorem scan_unsigned_nat (n : Nat) (rest : List Char) (h : stops rest) :
    scan_unsigned ((toString n).data ++ rest) = some n := by
  have e : (toString n).data = Nat.toDigitsCore 10 (n + 1) n [] := rfl
  obtain ⟨d, tl, hdt, hd⟩ := toDigitsCore_head (n + 1) n [] (Nat.lt_succ_self n)
  obtain ⟨k, hk⟩ := scan_digits_toDigitsCore (n + 1) n (Nat.lt_succ_self n)
  have key : scan_digits 0 ((toString n).data ++ rest) = n := by
    rw [e, ← toDigitsCore_append, hk, scan_digits_stops _ _ h]; simp
  rw [e, hdt] at key ⊢
  simp only [List.cons_append, scan_unsigned, hd, if_true]
  simpa using key

/-- The decimal text of an integer, followed by anything that is not a digit,
converts to that integer. -/
theorem scan_signed_int (v : Int) (rest : List Char) (h : stops rest) :
    scan_signed ((toString v).data ++ rest) = some v := by
  cases v with
  | ofNat n =>
    have e : (toString (Int.ofNat n)).data = (toString n).data := rfl
    obtain ⟨d, tl, hdt, hd⟩ := toString_nat_head n
    have hu := scan_unsigned_nat n rest h
    obtain ⟨h1, h2, h3⟩ := isdigit_not_special d hd
    rw [e]
    rw [hdt] at hu ⊢
    rw [List.cons_append] at hu
    simp only [scan_signed, List.cons_append, skip_space, h1]
    simp [h2, h3, hu]
  | negSucc n =>
    have e : (toString (Int.negSucc n)).data = '-' :: (toString (n + 1)).data := rfl
    have hu := scan_unsigned_nat (n + 1) rest h
    rw [e]
    simp only [scan_signed, List.cons_append, skip_space]
    rw [show isspace '-' = false by decide]
    simp [hu, Int.negSucc_eq]

/-! ### `get_authenticator`: the number of handlers -/

theorem apply_option_handlers (a : auth_t) (v : String) :
    (apply_option a ⟨"handlers", v⟩).handlers = atoi v := by
  simp [apply_option]

theorem apply_option_other (a : auth_t) (o : config_options_t) (h : o.name ≠ "handlers") :
    (apply_option a o).handlers = a.handlers := by
  unfold apply_option
  split_ifs <;> simp_all

theorem apply_options_other (opts : List config_options_t) :
    ∀ a : auth_t, (∀ o ∈ opts, o.name ≠ "handlers") →
      (apply_options a opts).handlers = a.handlers := by
  induction opts with
  | nil => intro a _; rfl
  | cons o os ih =>
    intro a h
    have h1 := ih (apply_option a o) (fun x hx => h x (List.mem_cons_of_mem _ hx))
    have h2 := apply_option_other a o (h o (List.mem_cons_self _ _))
    simp only [apply_options, List.foldl_cons] at h1 ⊢
    rw [h1, h2]

theorem apply_options_last (pre post : List config_options_t) (v : String) (a : auth_t)
    (hpost : ∀ o ∈ post, o.name ≠ "handlers") :
    (apply_options a (pre ++ ⟨"handlers", v⟩ :: post)).handlers = atoi v := by
  have h := apply_options_other post (apply_option (apply_options a pre) ⟨"handlers", v⟩) hpost
  simp only [apply_options, List.foldl_append, List.foldl_cons] at h ⊢
  rw [h, apply_option_handlers]

theorem clamp_handlers_val (a : auth_t) :
    (clamp_handlers a).handlers
      = if a.handlers < 1 then 3 else if a.handlers > 100 then 100 else a.handlers := by
  unfold clamp_handlers
  by_cases h1 : a.handlers < 1
  · simp [h1]
  · by_cases h2 : a.handlers > 100 <;> simp [h1, h2]

theorem get_authenticator_ok (B : auth_backends) (auth : auth_t) (opts : List config_options_t)
    (a' : auth_t) (h : get_authenticator B auth opts = (0, a')) :
    ∃ a0, select_backend B auth opts = some a0 ∧ a' = clamp_handlers (apply_options a0 opts) := by
  unfold get_authenticator at h
  cases hs : select_backend B auth opts with
  | none => rw [hs] at h; simp at h
  | some a0 => rw [hs] at h; exact ⟨a0, rfl, by simpa using h.symm⟩

/-- C7, as stated, fails: an accepted option list whose only `handlers`
option has the value 0 leaves the authenticator with 3 handlers, not 1. -/
theorem handlers_zero_counterexample :
    (get_authenticator sample_backends (calloc_auth (some "htpasswd"))
      [⟨"handlers", "0"⟩]).1 = 0
    ∧ (get_authenticator sample_backends (calloc_auth (some "htpasswd"))
      [⟨"handlers", "0"⟩]).2.handlers = 3
    ∧ (get_authenticator sample_backends (calloc_auth (some "htpasswd"))
      [⟨"handlers", "0"⟩]).2.handlers ≠ 1 := by
  decide

/-- C7, amended: when `get_authenticator` accepts an option list whose last
`handlers` option reads as 0, the authenticator ends with exactly 3 handlers
(the value below 1 is replaced by the default, not raised to 1). -/
theorem get_authenticator_handlers_zero (B : auth_backends) (auth a' : auth_t)
    (pre post : List config_options_t) (v : String)
    (hv : atoi v = 0) (hpost : ∀ o ∈ post, o.name ≠ "handlers")
    (h : get_authenticator B auth (pre ++ ⟨"handlers", v⟩ :: post) = (0, a')) :
    a'.handlers = 3 := by
  obtain ⟨a0, _, e⟩ := get_authenticator_ok B auth _ a' h
  rw [e, clamp_handlers_val, apply_options_last pre post v a0 hpost, hv]
  simp

/-- C7, amended, on the options `realm`, `handlers = 0`, `rejected_mount`. -/
theorem get_authenticator_handlers_zero_witness :
    atoi "0" = 0 ∧
    (get_authenticator sample_backends (calloc_auth (some "radio"))
      ([⟨"realm", "r"⟩] ++ ⟨"handlers", "0"⟩ :: [⟨"rejected_mount", "/denied"⟩])).2.handlers
      = 3 :=
  ⟨by decide,
   get_authenticator_handlers_zero sample_backends (calloc_auth (some "radio")) _
     [⟨"realm", "r"⟩] [⟨"rejected_mount", "/denied"⟩] "0" (by decide) (by decide) rfl⟩

/-- A text that reads as a number within the range of `int` is read by
`atoi` as that number. -/
theorem atoi_of_int (s : String) (v : Int) (hs : scan_signed s.data = some v)
    (h1 : -2147483648 ≤ v) (h2 : v ≤ 2147483647) : atoi s = v := by
  unfold atoi
  rw [hs]
  simp only
  unfold saturate OFF_T_MAX OFF_T_MIN to_int
  rw [if_neg (by omega), if_neg (by omega)]
  omega

/-- C8, as stated, fails: the accepted option list whose only `handlers`
option has the value 2147483648, a number above 100, leaves the authenticator
with 3 handlers, not 100: `atoi` reads the text as -2147483648. -/
theorem handlers_overflow_counterexample :
    scan_signed "2147483648".data = some 2147483648 ∧
    atoi "2147483648" = -2147483648 ∧
    (get_authenticator sample_backends (calloc_auth (some "htpasswd"))
      [⟨"handlers", "2147483648"⟩]).1 = 0 ∧
    (get_authenticator sample_backends (calloc_auth (some "htpasswd"))
      [⟨"handlers", "2147483648"⟩]).2.handlers = 3 := by
  decide

/-- C8, amended: when `get_authenticator` accepts an option list, the
resulting `handlers` lies in 1..100.  With `s` the text of the last
`handlers` option, it is the result of clamping `atoi s` (3 below 1, 100
above 100); so for a text that reads as the number `v` it is `v` when
`1 ≤ v ≤ 100` and 100 when `100 < v ≤ 2147483647`, the largest `int`.  It is
3 when the list has no `handlers` option (the back-end constructor having
left the zeroed field alone). -/
theorem get_authenticator_handlers_range (B : auth_backends) (auth a' : auth_t)
    (opts : List config_options_t) (h : get_authenticator B auth opts = (0, a')) :
    (1 ≤ a'.handlers ∧ a'.handlers ≤ 100) ∧
    (∀ pre s post, opts = pre ++ ⟨"handlers", s⟩ :: post →
      (∀ o ∈ post, o.name ≠ "handlers") →
      a'.handlers = (if atoi s < 1 then 3 else if atoi s > 100 then 100 else atoi s) ∧
      ∀ v : Int, scan_signed s.data = some v →
        (1 ≤ v → v ≤ 100 → a'.handlers = v) ∧
        (100 < v → v ≤ 2147483647 → a'.handlers = 100)) ∧
    ((∀ o ∈ opts, o.name ≠ "handlers") →
      ∀ a0, select_backend B auth opts = some a0 → a0.handlers = 0 → a'.handlers = 3) := by
  obtain ⟨a0, hs, e⟩ := get_authenticator_ok B auth _ a' h
  refine ⟨?_, ?_, ?_⟩
  · rw [e, clamp_handlers_val]
    split_ifs <;> omega
  · intro pre s post ho hpost
    subst ho
    have hval : a'.handlers
        = (if atoi s < 1 then 3 else if atoi s > 100 then 100 else atoi s) := by
      rw [e, clamp_handlers_val, apply_options_last pre post s a0 hpost]
    refine ⟨hval, fun v hv => ⟨fun h1 h2 => ?_, fun h1 h2 => ?_⟩⟩
    · rw [hval, atoi_of_int s v hv (by omega) (by omega), if_neg (by omega), if_neg (by omega)]
    · rw [hval, atoi_of_int s v hv (by omega) h2, if_neg (by omega), if_pos (by omega)]
  · intro hno a1 hs1 h0
    rw [hs] at hs1
    cases hs1
    rw [e, clamp_handlers_val, apply_options_other opts a0 hno, h0]
    simp

/-- C8, amended, on the single option `handlers = 101`. -/
theorem get_authenticator_handlers_range_witness :
    get_authenticator sample_backends (calloc_auth (some "url")) [⟨"handlers", "101"⟩]
      = (0, { calloc_auth (some "url") with handlers := 100 }) ∧
    scan_signed "101".data = some 101 ∧
    ({ calloc_auth (some "url") with handlers := 100 } : auth_t).handlers = 100 :=
  ⟨by decide, by decide,
   (((get_authenticator_handlers_range sample_backends (calloc_auth (some "url"))
     { calloc_auth (some "url") with handlers := 100 } [⟨"handlers", "101"⟩]
     (by decide)).2.1 [] "101" [] rfl (by simp)).2 101 (by decide)).2 (by decide) (by decide)⟩

/-! ### `auth_add_listener`: the bound on pending requests -/

theorem has_bits_clear_bits (f m : Nat) : has_bits (clear_bits f m) m = false := by
  have : (f ^^^ (f &&& m)) &&& m = 0 := by
    apply Nat.eq_of_testBit_eq
    intro i
    simp only [Nat.testBit_and, Nat.testBit_xor, Nat.zero_testBit]
    cases f.testBit i <;> cases m.testBit i <;> rfl
  simp [has_bits, clear_bits, this]

theorem le_foldl_max (l : List Nat) : ∀ (b x : Nat), (x ∈ l ∨ x ≤ b) → x ≤ l.foldl max b := by
  induction l with
  | nil => intro b x h; rcases h with h | h; · cases h
           · simpa using h
  | cons y ys ih =>
    intro b x h
    simp only [List.foldl_cons]
    apply ih
    rcases h with h | h
    · rcases List.mem_cons.mp h with h | h
      · right; rw [h]; exact le_max_right _ _
      · left; exact h
    · right; exact le_trans h (le_max_left _ _)

theorem fresh_item_fresh (a : auth_t) : ∀ it ∈ a.items, it.1 ≠ fresh_item a := by
  intro it hit
  have := le_foldl_max (a.items.map Prod.fst) 0 it.1 (Or.inl (List.mem_map_of_mem _ hit))
  unfold fresh_item
  omega

theorem start_handler_ok (E : auth_env) : ∀ (n i : Nat) (a : auth_t),
    i + n ≤ a.handles.length →
    ∃ a', start_handler E a i n = .ok a' ∧ a'.pending_count = a.pending_count ∧
      a'.items = a.items ∧ a'.head = a.head ∧ a'.tailp = a.tailp := by
  intro n
  induction n with
  | zero => intro i a _; exact ⟨a, rfl, rfl, rfl, rfl, rfl⟩
  | succ n ih =>
    intro i a h
    have hi : i < a.handles.length := by omega
    simp only [start_handler, List.get?_eq_getElem?, List.getElem?_eq_getElem hi]
    by_cases ht : (a.handles[i]).thread = none
    · simp [ht]
    · simp only [ht, if_false]
      exact ih (i + 1) a (by omega)

theorem enqueue_item_ok (E : auth_env) (a : auth_t) (p : Nat) (u : auth_client)
    (hq : auth_queue_ready a) (hp : ∀ it ∈ a.items, it.1 ≠ p) :
    ∃ a', enqueue_item E a p u = .ok a' ∧ a'.pending_count = a.pending_count + 1 ∧
      a'.tailp = some (tail_ref.next p) ∧ (p, { u with next := none }) ∈ a'.items := by
  obtain ⟨ht, hh⟩ := hq
  rcases ht with ht | ⟨q, ht, hqi⟩
  · have h1 : store_tail { a with items := a.items ++ [(p, { u with next := none })] } p
        = .ok { a with items := a.items ++ [(p, { u with next := none })], head := some p } := by
      simp [store_tail, ht]
    unfold enqueue_item
    rw [h1]
    simp only [Except.bind, bind, pure, Except.pure]
    split_ifs with hr
    · exact ⟨_, rfl, rfl, rfl, by simp⟩
    · obtain ⟨a2, e2, hpc, hit, _, htp⟩ := start_handler_ok E a.handlers.toNat 0
        { a with items := a.items ++ [(p, { u with next := none })], head := some p,
                 tailp := some (tail_ref.next p), pending_count := a.pending_count + 1 }
        (by simpa using hh)
      exact ⟨a2, e2, hpc, htp, by rw [hit]; simp⟩
  · have hq' : (a.items ++ [(p, { u with next := none })]).any (fun it => it.1 = q) = true := by
      rw [List.any_append, hqi]; rfl
    have hne : q ≠ p := by
      intro e
      obtain ⟨it, hit, hiq⟩ := List.any_eq_true.mp hqi
      exact hp it hit (by simpa [e] using hiq)
    have h1 : store_tail { a with items := a.items ++ [(p, { u with next := none })] } p
        = .ok { a with items := (a.items ++ [(p, { u with next := none })]).map (fun (it : Nat × auth_client) =>
              if it.1 = q then (it.1, { it.2 with next := some p }) else it) } := by
      simp only [store_tail, ht, hq', if_true]
    have hmem : (p, { u with next := none }) ∈
        (a.items ++ [(p, { u with next := none })]).map (fun (it : Nat × auth_client) =>
              if it.1 = q then (it.1, { it.2 with next := some p }) else it) := by
      simp only [List.map_append, List.map_cons, List.map_nil, List.mem_append,
        List.mem_singleton]
      right
      simp [Ne.symm hne]
    unfold enqueue_item
    rw [h1]
    simp only [Except.bind, bind, pure, Except.pure]
    split_ifs with hr
    · exact ⟨_, rfl, rfl, rfl, hmem⟩
    · obtain ⟨a2, e2, hpc, hit, _, htp⟩ := start_handler_ok E a.handlers.toNat 0
        { a with items := (a.items ++ [(p, { u with next := none })]).map (fun (it : Nat × auth_client) =>
              if it.1 = q then (it.1, { it.2 with next := some p }) else it),
                 tailp := some (tail_ref.next p), pending_count := a.pending_count + 1 }
        (by simpa using hh)
      exact ⟨a2, e2, hpc, htp, by rw [hit]; exact hmem⟩

/-- C2, as stated, fails: on a mount with `no_mount` set whose authenticator
is running, has an `authenticate` callback and an empty queue, an
unauthenticated listener is answered 403 "mountpoint unavailable" and nothing
is queued. -/
theorem auth_add_listener_no_mount_counterexample :
    has_bits sample_client.flags CLIENT_AUTHENTICATED = false ∧
    sample_auth.running = 1 ∧ sample_auth.authenticate = some 1 ∧
    sample_auth.pending_count = 0 ∧
    auth_add_listener sample_fserve_env sample_process empty_fserve sample_globals "/closed"
        sample_client
      = .ok { ret := 0,
              st := config_release_config (config_get_config empty_fserve),
              client := { sample_client with respcode := 403 },
              mountinfo := some { sample_mount with mountname := "/closed", no_mount := 1 },
              globals := sample_globals } := by
  decide

/-- C2, amended: for an unauthenticated client on a mount that has neither
`no_mount` nor `redirect` set and whose authenticator is running and has an
`authenticate` callback, `auth_add_listener` returns 0 with the listener
queued (`pending_count` one more, `CLIENT_ACTIVE` cleared, the new work item
at the tail) when `pending_count ≤ 300`, and answers 403 "busy" with the
authenticator untouched when `pending_count ≥ 301`. -/
theorem auth_add_listener_pending_bound (E : fserve_env) (process : process_fn)
    (st : fserve_state) (G : auth_globals) (mount : String)
    (client : client_t) (m : mount_proxy) (a : auth_t)
    (hm : E.config_find_mount mount = some m)
    (hc : has_bits client.flags CLIENT_AUTHENTICATED = false)
    (ha : m.auth = some a) (hcb : a.authenticate.isSome = true) (hrun : a.running ≠ 0)
    (hnm : m.no_mount = 0) (hrd : m.redirect = none) (hq : auth_queue_ready a) :
    (a.pending_count ≤ 300 →
      ∃ c' a' it, auth_add_listener E process st G mount client
          = .ok { ret := 0, st := config_release_config (config_get_config st), client := c',
                  mountinfo := some { m with auth := some a' },
                  globals := (mount_marks m client G).2 } ∧
        a'.pending_count = a.pending_count + 1 ∧
        has_bits c'.flags CLIENT_ACTIVE = false ∧
        (fresh_item a, it) ∈ a'.items ∧ it.client = some c' ∧
        it.process = some auth_process.auth_new_listener ∧ it.next = none ∧
        a'.tailp = some (tail_ref.next (fresh_item a))) ∧
    (301 ≤ a.pending_count →
      auth_add_listener E process st G mount client
          = .ok { ret := (E.client_send_403 (mount_marks m client G).1
                            "busy, please try again later").1,
                  st := config_release_config (config_get_config st),
                  client := (E.client_send_403 (mount_marks m client G).1
                            "busy, please try again later").2,
                  mountinfo := some m,
                  globals :=
                    if (mount_marks m client G).2.new_connections_slowdown < 10 then
                      { (mount_marks m client G).2 with
                        new_connections_slowdown :=
                          (mount_marks m client G).2.new_connections_slowdown + 1 }
                    else (mount_marks m client G).2 }) := by
  constructor
  · intro hp
    obtain ⟨a', e, hpc, htp, hmem⟩ := enqueue_item_ok E.toauth_env a (fresh_item a)
      { auth_client_setup E.toauth_env mount (some
          { (mount_marks m client G).1 with
            flags := clear_bits (mount_marks m client G).1.flags CLIENT_ACTIVE })
        with process := some auth_process.auth_new_listener } hq (fresh_item_fresh a)
    have hgt : ¬ (a.running = 0 ∨ a.pending_count > 300) := by
      intro h; rcases h with h | h
      · exact hrun h
      · omega
    refine ⟨{ (mount_marks m client G).1 with
            flags := clear_bits (mount_marks m client G).1.flags CLIENT_ACTIVE }, a', _,
      ?_, hpc, has_bits_clear_bits _ _, hmem, rfl, rfl, rfl, htp⟩
    simp only [auth_add_listener, hm, hc, hnm, hrd, ha, hcb, hgt, queue_auth_client, e,
      if_true, if_false, ne_eq, not_true_eq_false, bind, Except.bind, pure, Except.pure,
      Except.map]
  · intro hp
    have hgt : (a.running = 0 ∨ a.pending_count > 300) := Or.inr (by omega)
    simp only [auth_add_listener, hm, hc, hnm, hrd, ha, hcb, hgt, if_true, if_false, ne_eq,
      not_true_eq_false]

/-- C2, amended, on `/stream` with an empty queue. -/
theorem auth_add_listener_pending_bound_witness :
    sample_auth.pending_count ≤ 300 ∧
    (∃ c' a' it, auth_add_listener sample_fserve_env sample_process empty_fserve sample_globals
          "/stream" sample_client
          = .ok { ret := 0, st := config_release_config (config_get_config empty_fserve),
                  client := c', mountinfo := some { sample_mount with auth := some a' },
                  globals := (mount_marks sample_mount sample_client sample_globals).2 } ∧
        a'.pending_count = sample_auth.pending_count + 1 ∧
        has_bits c'.flags CLIENT_ACTIVE = false ∧
        (fresh_item sample_auth, it) ∈ a'.items ∧ it.client = some c' ∧
        it.process = some auth_process.auth_new_listener ∧ it.next = none ∧
        a'.tailp = some (tail_ref.next (fresh_item sample_auth))) :=
  ⟨by decide,
   (auth_add_listener_pending_bound sample_fserve_env sample_process empty_fserve
      sample_globals "/stream" sample_client
      sample_mount sample_auth rfl (by decide) rfl rfl (by decide) rfl rfl
      ⟨Or.inl rfl, by decide⟩).1 (by decide)⟩

/-! ### `fill_http_headers`: byte ranges -/

theorem chars_not_digit_stop (c : Char) (tl : List Char) (h : isdigit c = false) :
    stops (c :: tl) := by
  intro d t e
  cases e
  exact h

theorem range_text_data (N : Int) :
    ("bytes=" ++ toString N ++ "-").data
      = ['b', 'y', 't', 'e', 's', '='] ++ ((toString N).data ++ ['-']) := by
  simp only [String.data_append]
  rfl

theorem range_text_scan (N : Int) :
    range_in_bytes ("bytes=" ++ toString N ++ "-").data = true ∧
    sscanf_off_t (("bytes=" ++ toString N ++ "-").data.drop 6) = (1, saturate N) := by
  rw [range_text_data]
  constructor
  · simp [range_in_bytes]
  · have h := scan_signed_int N ['-'] (chars_not_digit_stop '-' [] (by decide))
    simp only [List.drop_succ_cons, List.drop_zero, List.cons_append, List.nil_append,
      sscanf_off_t, h]

theorem saturate_of_range (v : Int) (h1 : OFF_T_MIN ≤ v) (h2 : v ≤ OFF_T_MAX) :
    saturate v = v := by
  unfold saturate
  rw [if_neg (by omega), if_neg (by omega)]

theorem saturate_neg (v : Int) (h : v < 0) : saturate v < 0 := by
  unfold saturate OFF_T_MAX OFF_T_MIN
  split_ifs <;> omega

theorem saturate_ge (v L : Int) (h : L ≤ v) (hL : L ≤ OFF_T_MAX) : L ≤ saturate v := by
  unfold saturate
  unfold OFF_T_MAX OFF_T_MIN at *
  split_ifs <;> omega

/-- C4: whatever the file size, a `Range` header `bytes=N-` with `N` at or
beyond the size or negative (also one whose number merely reads as such an
`N`), and a header that does not read as `bytes=<number>`, make
`fill_http_headers` return -1 with the client (response code and
`intro_offset` included) exactly as it was. -/
theorem fill_http_headers_bad_range (E : fserve_env) (st : fserve_state) (client : client_t)
    (path : String) (file_buf : Option Int) (range : String)
    (hr : httpp_getvar client.parser "range" = some range)
    (hL : file_buf.getD 0 ≤ OFF_T_MAX)
    (hbad : (∃ N : Int, range = "bytes=" ++ toString N ++ "-" ∧
              (file_buf.getD 0 ≤ N ∨ N < 0)) ∨
            (∃ N : Int, scan_signed (range.data.drop 6) = some N ∧
              (file_buf.getD 0 ≤ N ∨ N < 0)) ∨
            range_in_bytes range.data = false ∨
            scan_signed (range.data.drop 6) = none) :
    fill_http_headers E st client path file_buf = .ok (-1, client) := by
  have hsat : ∀ N : Int, (file_buf.getD 0 ≤ N ∨ N < 0) →
      ¬ (saturate N ≥ 0 ∧ saturate N < file_buf.getD 0) := by
    rintro N hN ⟨h3, h4⟩
    rcases hN with hN | hN
    · have := saturate_ge N _ hN hL
      omega
    · have := saturate_neg N hN
      omega
  unfold fill_http_headers
  simp only [hr]
  rcases hbad with ⟨N, e, hN⟩ | ⟨N, e, hN⟩ | hp | hs
  · subst e
    obtain ⟨h1, h2⟩ := range_text_scan N
    simp only [h1, h2, if_true]
    rw [if_neg]
    rintro ⟨-, h3⟩
    exact hsat N hN h3
  · rw [if_neg]
    rintro ⟨h0, h3⟩
    split_ifs at h0 h3
    · simp only [sscanf_off_t, e] at h3
      exact hsat N hN h3
    · simp at h0
  · simp [hp]
  · have : (sscanf_off_t (range.data.drop 6)).1 ≠ 1 := by
      unfold sscanf_off_t
      rw [hs]
      split_ifs <;> simp
    rw [if_neg]
    rintro ⟨h3, -, -⟩
    split_ifs at h3
    · exact this h3
    · simp at h3

/-- C4 at `Range: bytes=100-` on a 100-byte file. -/
theorem fill_http_headers_bad_range_witness :
    fill_http_headers sample_fserve_env sample_fserve (range_client "bytes=100-") "/live.mp3"
      (some 100) = .ok (-1, range_client "bytes=100-") :=
  fill_http_headers_bad_range sample_fserve_env sample_fserve (range_client "bytes=100-")
    "/live.mp3" (some 100) "bytes=100-" (by decide) (by decide)
    (Or.inl ⟨100, by decide, Or.inl (by decide)⟩)

/-- For a `Range` header `bytes=N-` with `0 ≤ N < L` whose seek succeeds and
whose `N` does not read as -1 once stored in the `int` that takes the result
of `lseek`, `fill_http_headers` returns 0 with response code 206,
`intro_offset = N` and the 206 text for length `L - N` and range
`N-(L-1)/L`. -/
theorem fill_http_headers_range_ok (E : fserve_env) (st : fserve_state) (client : client_t)
    (path : String) (L N : Int) (addr : Nat) (fh : fh_node) (worker : worker_t)
    (ref : refbuf_t) (rest : List refbuf_t)
    (hr : httpp_getvar client.parser "range" = some ("bytes=" ++ toString N ++ "-"))
    (h0 : 0 ≤ N) (hN : N < L) (hL : L ≤ OFF_T_MAX)
    (hs : client.shared_data = some addr) (hfh : heap_get st addr = .ok fh)
    (hseek : E.lseek fh.f N = N) (hint : to_int N ≠ -1)
    (hw : client.worker = some worker) (hb : client.refbuf = ref :: rest) :
    fill_http_headers E st client path (some L) = .ok (0,
      { client with
        intro_offset := N, respcode := 206, pos := 0,
        refbuf :=
          { ref with
            data := snprintf BUFSIZE (partial_content_text
              (E.strftime_gmt worker.current_time_sec) (L - N) N (L - 1) L
              (fserve_content_type E st path)),
            len := (snprintf BUFSIZE (partial_content_text
              (E.strftime_gmt worker.current_time_sec) (L - N) N (L - 1) L
              (fserve_content_type E st path))).length,
            flags := ref.flags ||| WRITE_BLOCK_GENERIC } :: rest }) := by
  obtain ⟨h1, h2⟩ := range_text_scan N
  have hsat : saturate N = N := saturate_of_range N (by unfold OFF_T_MIN; omega) (by omega)
  have hend : ¬ (N + (L - N) - 1 < 0) := by omega
  have hLN : N + (L - N) - 1 = L - 1 := by ring
  have hcond : (1 : Int) = 1 ∧ N ≥ 0 ∧ N < L := ⟨rfl, h0, hN⟩
  unfold fill_http_headers
  simp only [hr, h1, h2, hsat, if_true, Option.getD_some, hcond, and_self, hs]
  have hend2 : ¬ (L - 1 < 0) := by omega
  simp only [bind, Except.bind, hfh, hseek, hint, if_false, hw, hend, hLN, store_headers, hb,
    pure, Except.pure, hend2]

set_option maxRecDepth 20000 in
/-- Given the `struct stat` of a 100-byte file, `Range: bytes=0-` gives code
206 with `Content-Length: 100` and `Content-Range: bytes 0-99/100`. -/
theorem fill_http_headers_range_example :
    (fill_http_headers sample_fserve_env sample_fserve (range_client "bytes=0-") "/live.mp3"
      (some 100)).map (fun r => (r.1, r.2.respcode, r.2.intro_offset, r.2.refbuf.map (·.data)))
    = .ok (0, 206, 0,
        ["HTTP/1.1 206 Partial Content\r\nDate: Thu, 01-Jan-1970 00:00:05 GMT\r\n" ++
         "Accept-Ranges: bytes\r\nContent-Length: 100\r\n" ++
         "Content-Range: bytes 0-99/100\r\nContent-Type: audio/mpeg\r\n\r\n"]) := by
  decide

/-! ### `fserve_setup_client_fb`: attaching a listener -/

/-- The test of `fserve_setup_client_fb` against `max_listeners` lets a
listener through when the handle already has exactly `max_listeners`
listeners: the found handle is kept for the attach (no 403), for every
`max_listeners ≥ 0`. -/
theorem attach_found_at_max (E : fserve_env) (st st3 st4 : fserve_state) (client : client_t)
    (finfo : fbinfo) (m : mount_proxy) (addr : Nat) (fh : fh_node)
    (hl : lock st (lock_id.fh addr) = .ok st3) (hu : unlock st3 lock_id.fh_cache = .ok st4)
    (hg : heap_get st4 addr = .ok fh)
    (hr : fh.refcount = m.max_listeners)
    (hd : E.check_duplicate_logins finfo.mount fh.clients { client with shared_data := none }
            m.auth ≠ 0) :
    attach_found E st client finfo (some m) addr
      = .ok (attach_step.holding addr (config_release_config st4)
               { client with shared_data := none } finfo) := by
  have hlt : ¬ (m.max_listeners ≥ 0 ∧ fh.refcount > m.max_listeners) := by
    rintro ⟨-, h⟩; omega
  simp only [attach_found, hl, hu, hg, bind, Except.bind, hlt, hd, if_false, pure, Except.pure]

/-- C1 fails on the code: on the mount `/live.mp3` with `max_listeners = 2`,
once the listeners 11 and 12 are attached (refcount 2), the attach of a third
listener returns 0 with a 200 response and the listener attached
(refcount 3), not a 403. -/
theorem attach_third_listener_at_max (process : process_fn) :
    (sample_fserve_env.config_find_mount "/live.mp3").map (fun m => m.max_listeners) = some 2 ∧
    (attach_listeners sample_fserve_env process sample_request
        [listener 11 none, listener 12 none] empty_fserve).map counts_at
      = .ok (.ok (2, [11, 12])) ∧
    ((attach_listeners sample_fserve_env process sample_request
        [listener 11 none, listener 12 none] empty_fserve) >>= fun st =>
      fserve_setup_client_fb sample_fserve_env process st (listener 13 none)
        (some sample_request)).map
      (fun r => (r.1, r.2.2.respcode, r.2.2.shared_data, counts_at r.2.1))
      = .ok (0, 200, some 1, .ok (3, [11, 12, 13])) :=
  ⟨by decide, rfl, rfl⟩

/-- With no `struct stat` passed, every request that carries a `Range`
header makes `fill_http_headers` return -1 and leave the client as it was. -/
theorem fill_http_headers_null_stat (E : fserve_env) (st : fserve_state) (client : client_t)
    (path range : String) (hr : httpp_getvar client.parser "range" = some range) :
    fill_http_headers E st client path none = .ok (-1, client) := by
  unfold fill_http_headers
  simp only [hr, Option.getD_none]
  rw [if_neg]
  rintro ⟨-, h1, h2⟩
  omega

/-- C3 fails on the code: the only call of `fill_http_headers` in the
program, the one in `fserve_setup_client_fb`, passes `NULL` for the
`struct stat`, so the function takes the length of the file as 0 and, for
every request that carries a `Range` header, returns -1 with the client as
it was.  For the 100-byte file `/live.mp3` and `Range: bytes=0-` header
synthesis gives no 206 and no `Content-Range`, and the listener ends
attached with response code 0 and an empty buffer; only when it is given the
size of the file does the function produce the 206 response. -/
theorem fill_http_headers_range_without_stat :
    (∀ (E : fserve_env) (st : fserve_state) (client : client_t) (path range : String),
      httpp_getvar client.parser "range" = some range →
      fill_http_headers E st client path none = .ok (-1, client)) ∧
    sample_fserve_env.stat "/webroot/live.mp3" = some (100, true) ∧
    (range_client "bytes=0-").respcode = 0 ∧
    fill_http_headers sample_fserve_env sample_fserve (range_client "bytes=0-") "/live.mp3" none
      = .ok (-1, range_client "bytes=0-") ∧
    (fserve_setup_client_fb sample_fserve_env sample_process empty_fserve
        (listener 1 (some "bytes=0-")) (some sample_request)).map
      (fun r => (r.1, r.2.2.respcode, r.2.2.intro_offset, r.2.2.refbuf.map (·.data),
                 r.2.2.shared_data))
      = .ok (0, 0, 0, [""], some 1) ∧
    (fill_http_headers sample_fserve_env sample_fserve (range_client "bytes=0-") "/live.mp3"
        (some 100)).map (fun r => (r.1, r.2.respcode, r.2.intro_offset))
      = .ok (0, 206, 0) :=
  ⟨fun E st client path range hr => fill_http_headers_null_stat E st client path range hr,
   rfl, rfl, rfl, rfl, by decide⟩

/-- C5 fails on the code: a fresh listener that asks for `Range:
bytes=500000-` and is attached through `fserve_setup_client_fb` (here as
first listener of `/live.mp3`; the attach never looks at the size of the
file) ends attached with response code 0, `intro_offset` 0 and its buffer
untouched: no 206, no `Content-Length`, no offset. -/
theorem attach_with_range_no_partial_content (process : process_fn) :
    (fserve_setup_client_fb sample_fserve_env process empty_fserve
        (listener 1 (some "bytes=500000-")) (some sample_request)).map
      (fun r => (r.1, r.2.2.respcode, r.2.2.intro_offset, r.2.2.refbuf, r.2.2.shared_data))
      = .ok (0, 0, 0, [{ data := "", len := 4096, flags := 0 }], some 1) :=
  rfl

/-- C6 fails on the code: for a request with the malformed header `Range:
bytes=abc` header synthesis fails (`fill_http_headers` gives -1 for any
client that carries this request), yet the attach through
`fserve_setup_client_fb` returns 0 with the listener attached to the new
handle (refcount 1). -/
theorem attach_ignores_header_failure (process : process_fn) :
    (∀ (st : fserve_state) (c : client_t),
      c.parser = (listener 1 (some "bytes=abc")).parser →
      fill_http_headers sample_fserve_env st c "/live.mp3" none = .ok (-1, c)) ∧
    (fserve_setup_client_fb sample_fserve_env process empty_fserve
        (listener 1 (some "bytes=abc")) (some sample_request)).map
      (fun r => (r.1, r.2.2.respcode, r.2.2.shared_data,
                 (heap_get r.2.1 1).map (fun fh => (fh.refcount, fh.clients))))
      = .ok (0, 0, some 1, .ok (1, [1])) :=
  ⟨fun st c h => fill_http_headers_null_stat sample_fserve_env st c "/live.mp3" "bytes=abc"
      (by rw [h]; rfl), rfl⟩

/-! ### `refcount` against the client set -/

/-- `fh_add_client` adds one to `refcount` and one client to the client set. -/
theorem fh_add_client_counts (E : fserve_env) (fh : fh_node) (client : client_t) :
    (fh_add_client E fh client).1.refcount = fh.refcount + 1 ∧
    (fh_add_client E fh client).1.clients = fh.clients ++ [client.connection.id] := by
  unfold fh_add_client
  cases hf : fh.format <;> simp [hf] <;> split_ifs <;> simp [hf]

/-- The path through `file_release` keeps the invariant where the 404 path
of `prefile_send` breaks it: with the listeners 21 and 22 attached to
`/cover.jpg`, the release of listener 21 takes it out of the client set and
drops `refcount` to 1. -/
theorem file_release_keeps_refcount (process : process_fn) :
    ((two_on_cover process) >>= fun s => file_release unreadable_env s.1 s.2).map
      (fun r => (refcount_invariant r.1, counts_at r.1))
      = .ok (true, .ok (1, [22])) :=
  rfl

/-- C9 fails on the code: the listeners 21 and 22 are attached to
`/cover.jpg`, a file that cannot be opened (refcount 2, invariant holding);
both asked for a byte range, so neither has a response code yet.  Listener 21
then runs `prefile_send`, which sends its buffer and takes the no-body 404
path: `refcount` drops to 1 while both listeners stay in the client set, so
the invariant no longer holds for a handle that is still in the cache. -/
theorem prefile_send_404_breaks_refcount (process : process_fn) :
    (two_on_cover process).map (fun s => (refcount_invariant s.1, counts_at s.1))
      = .ok (true, .ok (2, [21, 22])) ∧
    ((two_on_cover process) >>= fun s => prefile_send unreadable_env process s.1 s.2).map
      (fun r => (r.1, r.2.2.respcode, r.2.1.fh_cache, refcount_invariant r.2.1,
                 counts_at r.2.1))
      = .ok (0, 404, [1], false, .ok (1, [21, 22])) :=
  ⟨rfl, rfl⟩

/-! ### Removal from the cache -/

theorem bind_ok {ε α β : Type} (x : Except ε α) (f : α → Except ε β) (b : β)
    (h : (x >>= f) = .ok b) : ∃ a, x = .ok a ∧ f a = .ok b := by
  cases x with
  | error e => simp [bind, Except.bind] at h
  | ok a => exact ⟨a, rfl, h⟩

theorem lock_ok (st st1 : fserve_state) (l : lock_id) (h : lock st l = .ok st1) :
    st1.heap = st.heap ∧ st1.fh_cache = st.fh_cache := by
  unfold lock at h
  split_ifs at h
  cases h
  exact ⟨rfl, rfl⟩

theorem unlock_ok (st st1 : fserve_state) (l : lock_id) (h : unlock st l = .ok st1) :
    st1.heap = st.heap ∧ st1.fh_cache = st.fh_cache := by
  unfold unlock at h
  split_ifs at h
  cases h
  exact ⟨rfl, rfl⟩

theorem heap_get_congr (st st1 : fserve_state) (h : st1.heap = st.heap) (a : Nat) :
    heap_get st1 a = heap_get st a := by
  unfold heap_get
  rw [h]

theorem avl_find_congr (st st1 : fserve_state) (h : st1.heap = st.heap) (key : fbinfo)
    (l : List Nat) : avl_find st1 key l = avl_find st key l := by
  induction l with
  | nil => rfl
  | cons a rest ih => simp only [avl_find, heap_get_congr st st1 h, ih]

theorem find_map_update (heap : List (Nat × fh_node)) (addr : Nat) (fh fh1 : fh_node)
    (h : (heap.find? (fun e => e.1 = addr)).map Prod.snd = some fh) :
    ((heap.map (fun e => if e.1 = addr then (addr, fh1) else e)).find?
      (fun e => e.1 = addr)).map Prod.snd = some fh1 := by
  induction heap with
  | nil => simp at h
  | cons e rest ih =>
    by_cases he : e.1 = addr
    · simp [List.find?, he]
    · simp only [List.map_cons, he, if_false, List.find?, decide_False] at h ⊢
      exact ih h

theorem heap_get_set_same (st : fserve_state) (addr : Nat) (fh fh1 : fh_node)
    (h : heap_get st addr = .ok fh) : heap_get (heap_set st addr fh1) addr = .ok fh1 := by
  have h0 : (st.heap.find? (fun e => e.1 = addr)).map Prod.snd = some fh := by
    unfold heap_get at h
    cases hf : st.heap.find? (fun e => e.1 = addr) with
    | none => rw [hf] at h; cases h
    | some e => rw [hf] at h; cases h; rfl
  have h1 := find_map_update st.heap addr fh fh1 h0
  unfold heap_get heap_set
  cases hf : (st.heap.map (fun e => if e.1 = addr then (addr, fh1) else e)).find?
      (fun e => e.1 = addr) with
  | none => rw [hf] at h1; cases h1
  | some e => rw [hf] at h1; simp at h1; simp [h1]

theorem avl_find_some (st : fserve_state) (key : fbinfo) (l : List Nat) (a : Nat)
    (h : avl_find st key l = .ok (some a)) :
    a ∈ l ∧ ∃ n, heap_get st a = .ok n ∧ _compare_fh key n.finfo = .ok 0 := by
  induction l with
  | nil => simp [avl_find] at h
  | cons b rest ih =>
    simp only [avl_find] at h
    obtain ⟨n, hn, h⟩ := bind_ok _ _ _ h
    obtain ⟨r, hr, h⟩ := bind_ok _ _ _ h
    by_cases h0 : r = 0
    · simp only [h0, if_true, pure, Except.pure] at h
      cases h
      exact ⟨List.mem_cons_self _ _, n, hn, by rw [hr, h0]⟩
    · simp only [h0, if_false] at h
      obtain ⟨h1, h2⟩ := ih h
      exact ⟨List.mem_cons_of_mem _ h1, h2⟩

theorem avl_delete_ok (st st1 : fserve_state) (key : fbinfo) (h : avl_delete st key = .ok st1) :
    st1.heap = st.heap ∧
    (st1.fh_cache = st.fh_cache ∨
      ∃ a n, st1.fh_cache = st.fh_cache.erase a ∧ heap_get st a = .ok n ∧
        _compare_fh key n.finfo = .ok 0) := by
  unfold avl_delete at h
  obtain ⟨r, hr, h⟩ := bind_ok _ _ _ h
  cases r with
  | none => simp only [pure, Except.pure] at h; cases h; exact ⟨rfl, Or.inl rfl⟩
  | some a =>
    simp only [pure, Except.pure] at h
    cases h
    obtain ⟨_, n, hn, hc⟩ := avl_find_some st key st.fh_cache a hr
    exact ⟨rfl, Or.inr ⟨a, n, rfl, hn, hc⟩⟩

/-- When `remove_fh_from_cache (fh)` changes the cache, `fh->refcount` is 0
at that instant and the node that left the tree has the key of `fh`. -/
theorem remove_fh_from_cache_at_zero (st st1 : fserve_state) (addr : Nat) (ret : Int)
    (h : remove_fh_from_cache st addr = .ok (ret, st1))
    (hc : st1.fh_cache ≠ st.fh_cache) :
    ∃ fh a n, heap_get st1 addr = .ok fh ∧ fh.refcount = 0 ∧
      st1.fh_cache = st.fh_cache.erase a ∧ heap_get (heap_set st addr fh) a = .ok n ∧
      _compare_fh fh.finfo n.finfo = .ok 0 := by
  unfold remove_fh_from_cache at h
  obtain ⟨s1, hs1, h⟩ := bind_ok _ _ _ h
  obtain ⟨s2, hs2, h⟩ := bind_ok _ _ _ h
  obtain ⟨fh, hfh, h⟩ := bind_ok _ _ _ h
  obtain ⟨e1, c1⟩ := lock_ok _ _ _ hs1
  obtain ⟨e2, c2⟩ := lock_ok _ _ _ hs2
  simp only at h
  generalize (if fh.refcount ≠ 0 then ({ fh with refcount := fh.refcount - 1 } : fh_node)
    else fh) = fh1 at h
  have hcache0 : (heap_set s2 addr fh1).fh_cache = st.fh_cache := by
    show s2.fh_cache = st.fh_cache
    rw [c2, c1]
  by_cases hz : fh1.refcount = 0
  · rw [if_pos hz] at h
    obtain ⟨s4, hs4, h⟩ := bind_ok _ _ _ h
    obtain ⟨s5, hs5, h⟩ := bind_ok _ _ _ h
    obtain ⟨s6, hs6, h⟩ := bind_ok _ _ _ h
    simp only [pure, Except.pure, Except.ok.injEq, Prod.mk.injEq] at h
    obtain ⟨-, rfl⟩ := h
    obtain ⟨e5, c5⟩ := unlock_ok _ _ _ hs5
    obtain ⟨e6, c6⟩ := unlock_ok _ _ _ hs6
    obtain ⟨e4, c4⟩ := avl_delete_ok _ _ _ hs4
    have hheap : s6.heap = (heap_set s2 addr fh1).heap := by
      rw [e6, e5, e4]
    have hget : heap_get s6 addr = .ok fh1 := by
      rw [heap_get_congr _ _ hheap]
      exact heap_get_set_same s2 addr fh _ hfh
    rcases c4 with c4 | ⟨a, n, c4, hn, hcmp⟩
    · exfalso
      apply hc
      rw [c6, c5, c4, hcache0]
    · refine ⟨fh1, a, n, hget, hz, ?_, ?_, hcmp⟩
      · rw [c6, c5, c4, hcache0]
      · rw [← hn]
        apply heap_get_congr
        show (st.heap.map _) = (s2.heap.map _)
        rw [e2, e1]
  · rw [if_neg hz] at h
    obtain ⟨s5, hs5, h⟩ := bind_ok _ _ _ h
    obtain ⟨s6, hs6, h⟩ := bind_ok _ _ _ h
    simp only [pure, Except.pure, Except.ok.injEq, Prod.mk.injEq] at h
    obtain ⟨-, rfl⟩ := h
    obtain ⟨e5, c5⟩ := unlock_ok _ _ _ hs5
    obtain ⟨e6, c6⟩ := unlock_ok _ _ _ hs6
    exfalso
    apply hc
    rw [c6, c5, hcache0]

theorem strcmp_chars_eq (a : List Char) : ∀ b, strcmp_chars a b = 0 → a = b := by
  induction a with
  | nil => intro b h; cases b with
    | nil => rfl
    | cons d ds => simp [strcmp_chars] at h
  | cons c cs ih =>
    intro b h
    cases b with
    | nil => simp [strcmp_chars] at h
    | cons d ds =>
      simp only [strcmp_chars] at h
      by_cases hcd : c = d
      · rw [if_pos hcd] at h
        rw [hcd, ih ds h]
      · rw [if_neg hcd] at h
        split_ifs at h
        omega

theorem strcmp_eq (a b : String) (h : strcmp a b = 0) : a = b := by
  have := strcmp_chars_eq a.data b.data h
  exact String.ext this

theorem compare_fh_zero (k n : fbinfo) (h : _compare_fh k n = .ok 0) :
    k.mount = n.mount ∧ k.flags = n.flags := by
  unfold _compare_fh at h
  cases hk : k.mount with
  | none => rw [hk] at h; cases h
  | some a =>
    cases hn : n.mount with
    | none => rw [hk, hn] at h; cases h
    | some b =>
      rw [hk, hn] at h
      simp only at h
      by_cases hs : strcmp a b = 0
      · rw [if_neg (by simpa using hs)] at h
        simp only [Except.ok.injEq] at h
        exact ⟨by rw [strcmp_eq a b hs], by omega⟩
      · rw [if_pos hs] at h
        simp only [Except.ok.injEq] at h
        exact absurd h hs

theorem compare_fh_key (k1 k2 x : fbinfo) (hm : k1.mount = k2.mount) (hf : k1.flags = k2.flags) :
    _compare_fh k1 x = _compare_fh k2 x := by
  unfold _compare_fh
  rw [hm, hf]

theorem avl_find_key (st : fserve_state) (k1 k2 : fbinfo) (hm : k1.mount = k2.mount)
    (hf : k1.flags = k2.flags) (l : List Nat) : avl_find st k1 l = avl_find st k2 l := by
  induction l with
  | nil => rfl
  | cons a rest ih => simp only [avl_find, compare_fh_key k1 k2 _ hm hf, ih]

/-- When `fserve_set_override` returns 1 it has taken the handle it found out
of the cache and left its `refcount` as it was, whatever its value. -/
theorem fserve_set_override_removes (st st1 : fserve_state) (mount dest : String)
    (type : format_type_t) (h : fserve_set_override st mount dest type = .ok (1, st1)) :
    ∃ a fh fh1, a ∈ st.fh_cache ∧ heap_get st a = .ok fh ∧
      st1.fh_cache = st.fh_cache.erase a ∧ heap_get st1 a = .ok fh1 ∧
      fh1.refcount = fh.refcount ∧ fh1.clients = fh.clients := by
  unfold fserve_set_override at h
  obtain ⟨s1, hs1, h⟩ := bind_ok _ _ _ h
  obtain ⟨e1, c1⟩ := lock_ok _ _ _ hs1
  obtain ⟨found, hfound, h⟩ := bind_ok _ _ _ h
  cases found with
  | none =>
    simp only at h
    obtain ⟨s2, -, h⟩ := bind_ok _ _ _ h
    simp [pure, Except.pure] at h
  | some r =>
    simp only at h
    obtain ⟨result, hres, h⟩ := bind_ok _ _ _ h
    by_cases ht : result.finfo.type = type
    · rw [if_pos ht] at h
      obtain ⟨s2, hs2, h⟩ := bind_ok _ _ _ h
      obtain ⟨s3, hs3, h⟩ := bind_ok _ _ _ h
      obtain ⟨s4, hs4, h⟩ := bind_ok _ _ _ h
      obtain ⟨s6, hs6, h⟩ := bind_ok _ _ _ h
      simp only [pure, Except.pure, Except.ok.injEq, Prod.mk.injEq, true_and] at h
      subst h
      obtain ⟨e2, c2⟩ := lock_ok _ _ _ hs2
      obtain ⟨e4, c4⟩ := unlock_ok _ _ _ hs4
      obtain ⟨e6, c6⟩ := unlock_ok _ _ _ hs6
      obtain ⟨hmem, n, hn, hcmp⟩ := avl_find_some s1 _ s1.fh_cache r hfound
      rw [hres] at hn
      cases hn
      obtain ⟨km, kf⟩ := compare_fh_zero _ _ hcmp
      have hdel : avl_get_by_key s2 result.finfo = .ok (some r) := by
        unfold avl_get_by_key at hfound ⊢
        rw [avl_find_congr s1 s2 e2, c2, ← avl_find_key s1 _ result.finfo km kf]
        exact hfound
      have hs3' : s3 = { s2 with fh_cache := s2.fh_cache.erase r } := by
        unfold avl_delete at hs3
        rw [hdel] at hs3
        simp only [bind, Except.bind, pure, Except.pure, Except.ok.injEq] at hs3
        exact hs3.symm
      have e3 : s3.heap = s2.heap := by rw [hs3']
      have c3 : s3.fh_cache = s2.fh_cache.erase r := by rw [hs3']
      have hg4 : heap_get s4 r = .ok result := by
        rw [heap_get_congr s1 s4 (by rw [e4, e3, e2])]
        exact hres
      refine ⟨r, result,
        { result with finfo := { result.finfo with flags := result.finfo.flags ||| FS_OVERRIDE,
                                                   fallback := some dest, type := type } },
        ?_, ?_, ?_, ?_, rfl, rfl⟩
      · rw [← c1]; exact hmem
      · rw [← heap_get_congr st s1 e1]; exact hres
      · rw [c6]
        show s4.fh_cache = _
        rw [c4, c3, c2, c1]
      · rw [heap_get_congr _ s6 e6]
        exact heap_get_set_same s4 r result _ hg4
    · rw [if_neg ht] at h
      obtain ⟨s2, -, h⟩ := bind_ok _ _ _ h
      simp [pure, Except.pure] at h

/-- C10, as stated, fails: with listener 31 attached to the fallback file
`/live.mp3` (refcount 1), `fserve_set_override` takes the handle out of the
cache and leaves its refcount at 1. -/
theorem fserve_set_override_counterexample :
    attach_listeners sample_fserve_env sample_process fallback_request
        [listener 31 none] empty_fserve = .ok fallback_fserve ∧
    fallback_fserve.fh_cache = [1] ∧
    counts_at fallback_fserve = .ok (1, [31]) ∧
    (fserve_set_override fallback_fserve "/live.mp3" "/other"
        format_type_t.FORMAT_TYPE_MPEG).map
      (fun r => (r.1, r.2.fh_cache, counts_at r.2))
      = .ok (1, [], .ok (1, [31])) := by
  decide

theorem heap_get_set_other (st : fserve_state) (addr a : Nat) (fh : fh_node) (h : a ≠ addr) :
    heap_get (heap_set st addr fh) a = heap_get st a := by
  unfold heap_get heap_set
  have : (st.heap.map (fun e => if e.1 = addr then (addr, fh) else e)).find? (fun e => e.1 = a)
      = st.heap.find? (fun e => e.1 = a) := by
    induction st.heap with
    | nil => rfl
    | cons e es ih =>
      simp only [List.map_cons, List.find?_cons]
      by_cases he : e.1 = addr
      · have hne : ¬ e.1 = a := by rw [he]; exact fun h2 => h h2.symm
        have hne2 : ¬ addr = a := fun h2 => h h2.symm
        simp [he, hne2, ih]
      · simp only [he, if_false]
        by_cases hea : e.1 = a
        · simp [hea]
        · simp [hea, ih]
  simp only [this]

/-- When `remove_fh_from_cache (fh)` changes the cache, the `refcount` of
`fh` is 0 at that instant and the node that leaves the tree is one of the
cache that compares equal to `fh`. -/
theorem remove_fh_from_cache_node (st st1 : fserve_state) (addr : Nat) (ret : Int)
    (h : remove_fh_from_cache st addr = .ok (ret, st1))
    (hc : st1.fh_cache ≠ st.fh_cache) :
    ∃ fh0 fh a n, heap_get st addr = .ok fh0 ∧ heap_get st1 addr = .ok fh ∧
      fh.finfo = fh0.finfo ∧ fh.refcount = 0 ∧
      a ∈ st.fh_cache ∧ st1.fh_cache = st.fh_cache.erase a ∧
      heap_get (heap_set st addr fh) a = .ok n ∧
      _compare_fh fh0.finfo n.finfo = .ok 0 := by
  obtain ⟨fh, a, n, hg, hz, hcache, hn, hcmp⟩ := remove_fh_from_cache_at_zero st st1 addr ret h hc
  unfold remove_fh_from_cache at h
  obtain ⟨s1, hs1, h⟩ := bind_ok _ _ _ h
  obtain ⟨s2, hs2, h⟩ := bind_ok _ _ _ h
  obtain ⟨fh0, hfh, h⟩ := bind_ok _ _ _ h
  obtain ⟨e1, c1⟩ := lock_ok _ _ _ hs1
  obtain ⟨e2, c2⟩ := lock_ok _ _ _ hs2
  have hg0 : heap_get st addr = .ok fh0 := by
    rw [← hfh]
    exact (heap_get_congr st s2 (by rw [e2, e1]) addr).symm
  have hfin : ∀ x : fh_node, heap_get st1 addr = .ok x → x.finfo = fh0.finfo := by
    intro x hx
    simp only at h
    have hfin1 : (if fh0.refcount ≠ 0 then ({ fh0 with refcount := fh0.refcount - 1 } : fh_node)
        else fh0).finfo = fh0.finfo := by
      split_ifs <;> rfl
    generalize (if fh0.refcount ≠ 0 then ({ fh0 with refcount := fh0.refcount - 1 } : fh_node)
      else fh0) = fh1 at h hfin1
    have hget : ∀ s6 : fserve_state, s6.heap = (heap_set s2 addr fh1).heap →
        heap_get s6 addr = .ok fh1 := by
      intro s6 hh
      rw [heap_get_congr _ _ hh]
      exact heap_get_set_same s2 addr fh0 _ hfh
    split_ifs at h
    · obtain ⟨s4, hs4, h⟩ := bind_ok _ _ _ h
      obtain ⟨s5, hs5, h⟩ := bind_ok _ _ _ h
      obtain ⟨s6, hs6, h⟩ := bind_ok _ _ _ h
      simp only [pure, Except.pure, Except.ok.injEq, Prod.mk.injEq] at h
      obtain ⟨-, rfl⟩ := h
      obtain ⟨e5, _⟩ := unlock_ok _ _ _ hs5
      obtain ⟨e6, _⟩ := unlock_ok _ _ _ hs6
      obtain ⟨e4, _⟩ := avl_delete_ok _ _ _ hs4
      rw [hget s6 (by rw [e6, e5, e4])] at hx
      cases hx
      exact hfin1
    · obtain ⟨s5, hs5, h⟩ := bind_ok _ _ _ h
      obtain ⟨s6, hs6, h⟩ := bind_ok _ _ _ h
      simp only [pure, Except.pure, Except.ok.injEq, Prod.mk.injEq] at h
      obtain ⟨-, rfl⟩ := h
      obtain ⟨e5, _⟩ := unlock_ok _ _ _ hs5
      obtain ⟨e6, _⟩ := unlock_ok _ _ _ hs6
      rw [hget s6 (by rw [e6, e5])] at hx
      cases hx
      exact hfin1
  have hmem : a ∈ st.fh_cache := by
    by_contra hna
    apply hc
    rw [hcache, List.erase_of_not_mem hna]
  exact ⟨fh0, fh, a, n, hg0, hg, hfin fh hg, hz, hmem, hcache, hn, by rw [← hfin fh hg]; exact hcmp⟩

/-- The node that `remove_fh_from_cache` takes out of the tree is found by
key: called on the handle at address 1, which is not in the cache and whose
`refcount` drops to 0, it takes out the handle at address 2, which has the
same mount and flags and a `refcount` of 2. -/
theorem remove_fh_from_cache_by_key :
    twin_fserve.fh_cache = [2] ∧
    (remove_fh_from_cache twin_fserve 1).map
      (fun r => (r.1, r.2.fh_cache,
                 (heap_get r.2 1).map (fun fh => fh.refcount),
                 (heap_get r.2 2).map (fun fh => fh.refcount)))
      = .ok (1, [], .ok 0, .ok 2) := by
  decide

/-- C10, amended: `remove_fh_from_cache` (reached through `fh_release`)
changes the cache only when the `refcount` of the handle it is called on is 0
after its decrement; the node it then takes out is a cached one with the
mount and flags of that handle, and it is that handle itself, with `refcount`
0 at the instant of removal, whenever no other cached handle has its mount
and flags.  `fserve_set_override` takes the handle it finds out of the cache
whatever its `refcount`, which it leaves as it was. -/
theorem cache_removal_refcount (st st1 st2 st3 : fserve_state) (addr : Nat) (ret : Int)
    (mount dest : String) (type : format_type_t)
    (h1 : remove_fh_from_cache st addr = .ok (ret, st1))
    (hc : st1.fh_cache ≠ st.fh_cache)
    (h2 : fserve_set_override st2 mount dest type = .ok (1, st3)) :
    (∃ fh0 fh a n, heap_get st addr = .ok fh0 ∧ heap_get st1 addr = .ok fh ∧
      fh.finfo = fh0.finfo ∧ fh.refcount = 0 ∧
      a ∈ st.fh_cache ∧ st1.fh_cache = st.fh_cache.erase a ∧
      heap_get (heap_set st addr fh) a = .ok n ∧
      n.finfo.mount = fh0.finfo.mount ∧ n.finfo.flags = fh0.finfo.flags ∧
      ((∀ b ∈ st.fh_cache, ∀ m, heap_get st b = .ok m →
          m.finfo.mount = fh0.finfo.mount → m.finfo.flags = fh0.finfo.flags → b = addr) →
        a = addr ∧ n = fh ∧ n.refcount = 0 ∧ st1.fh_cache = st.fh_cache.erase addr)) ∧
    (∃ a fh fh1, a ∈ st2.fh_cache ∧ heap_get st2 a = .ok fh ∧
      st3.fh_cache = st2.fh_cache.erase a ∧ heap_get st3 a = .ok fh1 ∧
      fh1.refcount = fh.refcount) := by
  obtain ⟨fh0, fh, a, n, hg0, hg, hfin, hz, hmem, hcache, hn, hcmp⟩ :=
    remove_fh_from_cache_node st st1 addr ret h1 hc
  obtain ⟨b, fh2, fh3, hm, hg2, hcache2, hg3, hr, _⟩ :=
    fserve_set_override_removes st2 st3 mount dest type h2
  obtain ⟨hkm, hkf⟩ := compare_fh_zero _ _ hcmp
  refine ⟨⟨fh0, fh, a, n, hg0, hg, hfin, hz, hmem, hcache, hn, hkm.symm, hkf.symm, ?_⟩,
    ⟨b, fh2, fh3, hm, hg2, hcache2, hg3, hr⟩⟩
  intro hone
  have ha : a = addr := by
    by_contra hne
    rw [heap_get_set_other st addr a fh hne] at hn
    exact hne (hone a hmem n hn hkm.symm hkf.symm)
  subst ha
  have hnf : n = fh := by
    rw [heap_get_set_same st a fh0 fh hg0] at hn
    cases hn
    rfl
  exact ⟨rfl, hnf, by rw [hnf]; exact hz, hcache⟩

/-- C10, amended, on the file engine with listener 31 attached to the
fallback file `/live.mp3`, the only handle of the cache: once its `refcount`
is 0, `remove_fh_from_cache` takes that handle out; `fserve_set_override`
takes it out with `refcount` 1. -/
theorem cache_removal_refcount_witness :
    (∃ fh, heap_get (state_after (remove_fh_from_cache fallback_fserve 1) fallback_fserve) 1
        = .ok fh ∧ fh.refcount = 0 ∧
      (state_after (remove_fh_from_cache fallback_fserve 1) fallback_fserve).fh_cache
        = fallback_fserve.fh_cache.erase 1) ∧
    (∃ a fh fh1, a ∈ fallback_fserve.fh_cache ∧ heap_get fallback_fserve a = .ok fh ∧
      (state_after (fserve_set_override fallback_fserve "/live.mp3" "/other"
          format_type_t.FORMAT_TYPE_MPEG) fallback_fserve).fh_cache
        = fallback_fserve.fh_cache.erase a ∧
      heap_get (state_after (fserve_set_override fallback_fserve "/live.mp3" "/other"
          format_type_t.FORMAT_TYPE_MPEG) fallback_fserve) a = .ok fh1 ∧
      fh1.refcount = fh.refcount) := by
  obtain ⟨⟨fh0, fh, a, n, _, hg, _, hz, _, _, _, _, _, hone⟩, hso⟩ :=
    cache_removal_refcount fallback_fserve
      (state_after (remove_fh_from_cache fallback_fserve 1) fallback_fserve)
      fallback_fserve
      (state_after (fserve_set_override fallback_fserve "/live.mp3" "/other"
        format_type_t.FORMAT_TYPE_MPEG) fallback_fserve)
      1 1 "/live.mp3" "/other" format_type_t.FORMAT_TYPE_MPEG
      (by decide) (by decide) (by decide)
  have h := hone (by
    intro b hb m _ _ _
    have : fallback_fserve.fh_cache = [1] := by decide
    rw [this] at hb
    simpa using hb)
  exact ⟨⟨fh, hg, hz, h.2.2.2⟩, hso⟩

/-! ### The queue stays ready for the next item -/

/-- An authenticator built by `auth_get_authenticator` can take an item. -/
theorem auth_get_authenticator_ready (B : auth_backends) (type : Option String)
    (children : List xml_child) (thread_id : Nat) (a : auth_t)
    (h : (auth_get_authenticator B type children thread_id).2.1 = some a) :
    auth_queue_ready a ∧ a.refcount = 1 ∧ a.running = 1 := by
  unfold auth_get_authenticator at h
  simp only at h
  split_ifs at h
  simp only [Option.some.injEq] at h
  subst h
  exact ⟨⟨Or.inl rfl, by simp [make_handles]⟩, rfl, rfl⟩

theorem start_handler_slots (E : auth_env) : ∀ (n i : Nat) (a a' : auth_t),
    start_handler E a i n = .ok a' →
    a'.handlers = a.handlers ∧ a'.handles.length = a.handles.length := by
  intro n
  induction n with
  | zero => intro i a a' h; cases h; exact ⟨rfl, rfl⟩
  | succ n ih =>
    intro i a a' h
    simp only [start_handler] at h
    cases hg : a.handles.get? i with
    | none => rw [hg] at h; cases h
    | some s =>
      rw [hg] at h
      simp only at h
      split_ifs at h
      · cases h; exact ⟨rfl, by simp⟩
      · exact ih (i + 1) a a' h

/-- A queue that can take an item can take another one after
`queue_auth_client` has put one in. -/
theorem enqueue_item_ready (E : auth_env) (a a' : auth_t) (u : auth_client)
    (hq : auth_queue_ready a) (h : enqueue_item E a (fresh_item a) u = .ok a') :
    auth_queue_ready a' := by
  obtain ⟨a2, e, _, htp, hmem⟩ := enqueue_item_ok E a (fresh_item a) u hq (fresh_item_fresh a)
  rw [h] at e
  cases e
  refine ⟨Or.inr ⟨fresh_item a, htp, ?_⟩, ?_⟩
  · exact List.any_eq_true.mpr ⟨_, hmem, by simp⟩
  · unfold enqueue_item at h
    obtain ⟨a1, h1, h⟩ := bind_ok _ _ _ h
    have hs : a1.handlers = a.handlers ∧ a1.handles = a.handles := by
      unfold store_tail at h1
      split at h1
      · cases h1
      · cases h1; exact ⟨rfl, rfl⟩
      · split_ifs at h1
        cases h1; exact ⟨rfl, rfl⟩
    simp only at h
    split_ifs at h
    · simp only [pure, Except.pure, Except.ok.injEq] at h
      subst h
      show a1.handlers.toNat ≤ a1.handles.length
      rw [hs.1, hs.2]; exact hq.2
    · obtain ⟨e1, e2⟩ := start_handler_slots E _ _ _ _ h
      rw [e1, e2]
      show a1.handlers.toNat ≤ a1.handles.length
      rw [hs.1, hs.2]; exact hq.2

/-! ### A closed mount with no handle in the cache -/

/-- On a mount with `max_listeners = 0` the branch of `fserve_setup_client_fb`
for a key that is not in the cache calls `fh_release (fh)` with `fh == NULL`:
the run ends in the dereference of a null pointer, whatever the state. -/
theorem attach_missing_closed (E : fserve_env) (st : fserve_state) (client : client_t)
    (finfo : fbinfo) (m : mount_proxy) (h : m.max_listeners = 0) :
    attach_missing E st client finfo (some m) = .error (fault.null_deref "fh") := by
  simp [attach_missing, h, fh_release, bind, Except.bind]

/-- C20 fails on the code: `/shut.mp3` is configured with `max_listeners = 0`
and the cache is empty, so no handle is found for the request.  The attach of
listener 41 does not return a 403: it ends in `fh_release (NULL)`, which
dereferences the null handle, and at that point the cache lock taken on entry
is still held. -/
theorem attach_closed_mount_null_release (process : process_fn) :
    (closed_env.config_find_mount "/shut.mp3").map (fun m => m.max_listeners) = some 0 ∧
    ((lock empty_fserve lock_id.fh_cache) >>= fun st => find_fh st shut_request)
      = .ok (none, shut_request) ∧
    fserve_setup_client_fb closed_env process empty_fserve (listener 41 none)
      (some shut_request) = .error (fault.null_deref "fh") ∧
    (lock empty_fserve lock_id.fh_cache).map (fun st =>
        (attach_missing closed_env (config_get_config st) (listener 41 none) shut_request
           (closed_env.config_find_mount "/shut.mp3"),
         held (config_release_config (config_get_config st)).trace lock_id.fh_cache))
      = .ok (.error (fault.null_deref "fh"), true) :=
  ⟨by decide, by decide, rfl, by decide⟩

/-! ### `open_fh` followed by `fh_release` -/

theorem fresh_fh_fresh (st : fserve_state) : ∀ e ∈ st.heap, e.1 ≠ fresh_fh st := by
  intro e he
  have := le_foldl_max (st.heap.map Prod.fst) 0 e.1 (Or.inl (List.mem_map_of_mem _ he))
  unfold fresh_fh
  omega

theorem heap_get_grow_old (st st1 : fserve_state) (x : List (Nat × fh_node))
    (hh : st1.heap = st.heap ++ x) (a : Nat) (n : fh_node) (h : heap_get st a = .ok n) :
    heap_get st1 a = .ok n := by
  unfold heap_get at h ⊢
  rw [hh, List.find?_append]
  cases hf : st.heap.find? (fun e => e.1 = a) with
  | none => rw [hf] at h; cases h
  | some e => rw [hf] at h; simpa using h

theorem heap_get_grow_new (st st1 : fserve_state) (addr : Nat) (fh : fh_node)
    (hh : st1.heap = st.heap ++ [(addr, fh)]) (hf : ∀ e ∈ st.heap, e.1 ≠ addr) :
    heap_get st1 addr = .ok fh := by
  unfold heap_get
  have h0 : st.heap.find? (fun e => e.1 = addr) = none := by
    rw [List.find?_eq_none]
    intro e he
    simpa using hf e he
  rw [hh, List.find?_append, h0]
  simp

theorem heap_get_mem (st : fserve_state) (a : Nat) (n : fh_node) (h : heap_get st a = .ok n) :
    ∃ e ∈ st.heap, e.1 = a := by
  unfold heap_get at h
  cases hf : st.heap.find? (fun e => e.1 = a) with
  | none => rw [hf] at h; cases h
  | some e =>
    exact ⟨e, List.mem_of_find?_eq_some hf, by simpa using List.find?_some hf⟩

theorem avl_find_none_mem (st : fserve_state) (key : fbinfo) :
    ∀ l, avl_find st key l = .ok none → ∀ a ∈ l, ∃ n, heap_get st a = .ok n := by
  intro l
  induction l with
  | nil => intro _ a ha; cases ha
  | cons b rest ih =>
    intro h a ha
    simp only [avl_find] at h
    obtain ⟨n, hn, h⟩ := bind_ok _ _ _ h
    obtain ⟨r, hr, h⟩ := bind_ok _ _ _ h
    by_cases h0 : r = 0
    · simp [h0, pure, Except.pure] at h
    · simp only [h0, if_false] at h
      rcases List.mem_cons.mp ha with e | e
      · exact ⟨n, by rw [e]; exact hn⟩
      · exact ih h a e

theorem avl_find_grow (st st1 : fserve_state) (key : fbinfo) (x : List (Nat × fh_node))
    (hh : st1.heap = st.heap ++ x) :
    ∀ l, avl_find st key l = .ok none → avl_find st1 key l = .ok none := by
  intro l
  induction l with
  | nil => intro _; rfl
  | cons b rest ih =>
    intro h
    simp only [avl_find] at h ⊢
    obtain ⟨n, hn, h⟩ := bind_ok _ _ _ h
    obtain ⟨r, hr, h⟩ := bind_ok _ _ _ h
    rw [heap_get_grow_old st st1 x hh b n hn]
    simp only [bind, Except.bind]
    rw [hr]
    by_cases h0 : r = 0
    · simp [h0, pure, Except.pure] at h
    · simp only [h0, if_false] at h ⊢
      exact ih h

theorem avl_find_append (st : fserve_state) (key : fbinfo) (l2 : List Nat) :
    ∀ l, avl_find st key l = .ok none → avl_find st key (l ++ l2) = avl_find st key l2 := by
  intro l
  induction l with
  | nil => intro _; rfl
  | cons b rest ih =>
    intro h
    simp only [avl_find, List.cons_append] at h ⊢
    obtain ⟨n, hn, h⟩ := bind_ok _ _ _ h
    obtain ⟨r, hr, h⟩ := bind_ok _ _ _ h
    rw [hn]
    simp only [bind, Except.bind]
    rw [hr]
    by_cases h0 : r = 0
    · simp [h0, pure, Except.pure] at h
    · simp only [h0, if_false] at h ⊢
      exact ih h
theorem open_fh_file_key (E : fserve_env) (st : fserve_state) (finfo : fbinfo) (mount : String)
    (fh fh1 : fh_node) (h : open_fh_file E st finfo mount fh = some fh1) :
    fh1.finfo.flags = fh.finfo.flags ∧ fh1.finfo.mount = fh.finfo.mount := by
  unfold open_fh_file at h
  simp only at h
  split_ifs at h <;> simp only [Option.some.injEq] at h <;> subst h <;> exact ⟨rfl, rfl⟩

theorem lock_eq (st st1 : fserve_state) (l : lock_id) (h : lock st l = .ok st1) :
    held st.trace l = false ∧ st1 = { st with trace := st.trace ++ [lock_ev.acquire l] } := by
  unfold lock at h
  split_ifs at h with hh
  cases h
  exact ⟨by simpa using hh, rfl⟩

theorem unlock_eq (st st1 : fserve_state) (l : lock_id) (h : unlock st l = .ok st1) :
    held st.trace l = true ∧ st1 = { st with trace := st.trace ++ [lock_ev.release l] } := by
  unfold unlock at h
  split_ifs at h with hh
  cases h
  exact ⟨hh, rfl⟩

theorem open_fh_new (E : fserve_env) (st st1 : fserve_state) (finfo finfo1 : fbinfo)
    (addr : Nat)
    (hnew : find_fh st finfo = .ok (none, finfo1))
    (hopen : open_fh E st finfo = .ok (some addr, st1, finfo1)) :
    addr = fresh_fh st ∧
    ∃ fh : fh_node, fh.refcount = 0 ∧ fh.finfo.mount = finfo1.mount ∧
      fh.finfo.flags = finfo1.flags ∧ finfo1.mount ≠ none ∧
      avl_find st finfo1 st.fh_cache = .ok none ∧
      st1 = { st with heap := st.heap ++ [(addr, fh)], fh_cache := st.fh_cache ++ [addr],
                      trace := st.trace ++ [lock_ev.acquire (lock_id.fh addr)] ++
                                 [lock_ev.release lock_id.fh_cache] } := by
  simp only [find_fh] at hnew
  obtain ⟨r, hr, h⟩ := bind_ok _ _ _ hnew
  simp only [pure, Except.pure, Except.ok.injEq, Prod.mk.injEq] at h
  obtain ⟨rfl, hf1⟩ := h
  have hm : finfo1.mount ≠ none := by
    rw [← hf1]
    split_ifs with h0
    · simp
    · exact h0
  obtain ⟨m, hm1⟩ := Option.ne_none_iff_exists'.mp hm
  unfold open_fh at hopen
  simp only [hf1] at hopen hr
  obtain ⟨r2, hr2, h⟩ := bind_ok _ _ _ hopen
  rw [hr] at hr2
  cases hr2
  simp only at h
  cases hb : (if finfo1.mount.getD "" ≠ "" then
      open_fh_file E st finfo1 (finfo1.mount.getD "") (calloc_fh finfo1)
    else some (calloc_fh finfo1)) with
  | none =>
    rw [hb] at h
    simp only at h
    obtain ⟨s, _, h⟩ := bind_ok _ _ _ h
    simp [pure, Except.pure] at h
  | some fh =>
    rw [hb] at h
    simp only at h
    obtain ⟨s1, hs1, h⟩ := bind_ok _ _ _ h
    obtain ⟨s2, hs2, h⟩ := bind_ok _ _ _ h
    obtain ⟨-, e1⟩ := lock_eq _ _ _ hs1
    obtain ⟨-, e2⟩ := unlock_eq _ _ _ hs2
    simp only [pure, Except.pure, Except.ok.injEq, Prod.mk.injEq, Option.some.injEq] at h
    obtain ⟨ha, hst, -⟩ := h
    have hkey : fh.finfo.flags = finfo1.flags ∧ fh.finfo.mount = finfo1.mount := by
      split_ifs at hb with h0
      · exact open_fh_file_key E st finfo1 _ _ _ hb
      · simp only [Option.some.injEq] at hb
        rw [← hb]
        exact ⟨rfl, rfl⟩
    generalize hbig : (fh_node.mk _ _ _ _ _ _ _ _ _) = big at hst
    refine ⟨ha.symm, big, ?_, ?_, ?_, hm, hr, ?_⟩
    · rw [← hbig]
      show (if _ then _ else _ : fh_node).refcount = 0
      split_ifs <;> rfl
    · rw [← hbig]; simp [hm1]
    · rw [← hbig]
      show (if _ then _ else _ : fh_node).finfo.flags = _
      split_ifs <;> exact hkey.1
    · rw [← hst, e2, e1, ← ha]
theorem lock_free (st : fserve_state) (l : lock_id)
    (h : st.trace.count (lock_ev.acquire l) ≤ st.trace.count (lock_ev.release l)) :
    lock st l = .ok { st with trace := st.trace ++ [lock_ev.acquire l] } := by
  have : held st.trace l = false := by simp [held]; omega
  simp [lock, this]

theorem unlock_held (st : fserve_state) (l : lock_id)
    (h : st.trace.count (lock_ev.release l) < st.trace.count (lock_ev.acquire l)) :
    unlock st l = .ok { st with trace := st.trace ++ [lock_ev.release l] } := by
  have : held st.trace l = true := by simp [held]; omega
  simp [unlock, this]

theorem heap_get_trace (st : fserve_state) (tr : List lock_ev) (a : Nat) :
    heap_get { st with trace := tr } a = heap_get st a := rfl

theorem avl_find_trace (st : fserve_state) (tr : List lock_ev) (key : fbinfo) (l : List Nat) :
    avl_find { st with trace := tr } key l = avl_find st key l :=
  avl_find_congr st { st with trace := tr } rfl key l

/-- The call `remove_fh_from_cache (fh)` for a handle with `refcount` 0 that
the tree finds under its own key: the handle leaves the tree. -/
theorem remove_fh_from_cache_last (st : fserve_state) (addr : Nat) (fh : fh_node)
    (hget : heap_get st addr = .ok fh) (hz : fh.refcount = 0)
    (hfind : avl_find st fh.finfo st.fh_cache = .ok (some addr))
    (hsame : st.heap.map (fun e => if e.1 = addr then (addr, fh) else e) = st.heap)
    (hc : st.trace.count (lock_ev.acquire lock_id.fh_cache)
            = st.trace.count (lock_ev.release lock_id.fh_cache))
    (hf : st.trace.count (lock_ev.acquire (lock_id.fh addr))
            = st.trace.count (lock_ev.release (lock_id.fh addr))) :
    remove_fh_from_cache st addr
      = .ok (1, { st with fh_cache := st.fh_cache.erase addr,
                          trace := st.trace ++ [lock_ev.acquire lock_id.fh_cache] ++
                            [lock_ev.acquire (lock_id.fh addr)] ++
                            [lock_ev.release (lock_id.fh addr)] ++
                            [lock_ev.release lock_id.fh_cache] }) := by
  unfold remove_fh_from_cache
  rw [lock_free st _ (by omega)]
  simp only [bind, Except.bind]
  rw [lock_free _ _ (by simp [List.count_append]; omega)]
  simp only []
  rw [heap_get_trace, hget]
  simp only [hz, ne_eq, not_true_eq_false, if_false, if_true]
  have hs : heap_set { st with trace := st.trace ++ [lock_ev.acquire lock_id.fh_cache] ++
      [lock_ev.acquire (lock_id.fh addr)] } addr fh = { st with trace := st.trace ++
      [lock_ev.acquire lock_id.fh_cache] ++ [lock_ev.acquire (lock_id.fh addr)] } := by
    simp only [heap_set, hsame]
  rw [hs]
  simp only [avl_delete, avl_get_by_key, bind, Except.bind]
  rw [avl_find_trace, hfind]
  simp only [pure, Except.pure]
  rw [unlock_held _ _ (by simp [List.count_append]; omega)]
  simp only []
  rw [unlock_held _ _ (by simp [List.count_append]; omega)]
theorem strcmp_chars_self : ∀ a : List Char, strcmp_chars a a = 0 := by
  intro a
  induction a with
  | nil => rfl
  | cons c cs ih => simp [strcmp_chars, ih]

theorem compare_fh_self (k n : fbinfo) (hm : k.mount = n.mount) (hf : k.flags = n.flags)
    (hn : k.mount ≠ none) : _compare_fh k n = .ok 0 := by
  obtain ⟨m, hk⟩ := Option.ne_none_iff_exists'.mp hn
  unfold _compare_fh
  rw [← hm, hk, hf]
  simp [strcmp, strcmp_chars_self]

theorem heap_map_grow (heap : List (Nat × fh_node)) (addr : Nat) (fh fh1 : fh_node)
    (hf : ∀ e ∈ heap, e.1 ≠ addr) :
    (heap ++ [(addr, fh)]).map (fun e => if e.1 = addr then (addr, fh1) else e)
      = heap ++ [(addr, fh1)] := by
  rw [List.map_append]
  congr 1
  · conv_rhs => rw [← List.map_id heap]
    apply List.map_congr_left
    intro e he
    simp [hf e he]
  · simp

theorem heap_filter_grow (heap : List (Nat × fh_node)) (addr : Nat) (fh : fh_node)
    (hf : ∀ e ∈ heap, e.1 ≠ addr) :
    (heap ++ [(addr, fh)]).filter (fun e => e.1 ≠ addr) = heap := by
  rw [List.filter_append]
  have : heap.filter (fun e => e.1 ≠ addr) = heap := by
    rw [List.filter_eq_self]
    intro e he
    simpa using hf e he
  rw [this]
  simp

/-- C11: when the key of `finfo` is not in the cache and `open_fh (finfo)`,
entered with the cache lock held, returns a handle, that handle is new and
has `refcount` 0, and `fh_release` of it right away returns and leaves the
cache (and the set of live handles) exactly as it was before the open. -/
theorem open_fh_then_release (E : fserve_env) (st st1 : fserve_state) (finfo finfo1 : fbinfo)
    (addr : Nat)
    (hnew : find_fh st finfo = .ok (none, finfo1))
    (hopen : open_fh E st finfo = .ok (some addr, st1, finfo1))
    (hcache : st.trace.count (lock_ev.acquire lock_id.fh_cache)
                = st.trace.count (lock_ev.release lock_id.fh_cache) + 1)
    (hlock : st.trace.count (lock_ev.acquire (lock_id.fh addr))
                = st.trace.count (lock_ev.release (lock_id.fh addr))) :
    addr ∉ st.fh_cache ∧ st1.fh_cache = st.fh_cache ++ [addr] ∧
    (∃ fh, heap_get st1 addr = .ok fh ∧ fh.refcount = 0) ∧
    ∃ st2, fh_release st1 (some addr) = .ok st2 ∧ st2.fh_cache = st.fh_cache ∧
      st2.heap = st.heap := by
  obtain ⟨ha, fh, hz, hmnt, hfl, hm, hfind, hst⟩ := open_fh_new E st st1 finfo finfo1 addr hnew hopen
  have hfresh : ∀ e ∈ st.heap, e.1 ≠ addr := by rw [ha]; exact fresh_fh_fresh st
  have hget1 : heap_get st1 addr = .ok fh :=
    heap_get_grow_new st st1 addr fh (by rw [hst]) hfresh
  have hnotin : addr ∉ st.fh_cache := by
    intro hin
    obtain ⟨n, hn⟩ := avl_find_none_mem st finfo1 _ hfind addr hin
    obtain ⟨e, he, hea⟩ := heap_get_mem st addr n hn
    exact hfresh e he hea
  refine ⟨hnotin, by rw [hst], ⟨fh, hget1, hz⟩, ?_⟩
  have hmf : fh.finfo.mount ≠ none := by rw [hmnt]; exact hm
  have hfind1 : avl_find st1 fh.finfo st1.fh_cache = .ok (some addr) := by
    rw [avl_find_key st1 fh.finfo finfo1 hmnt hfl]
    have h1 := avl_find_grow st st1 finfo1 [(addr, fh)] (by rw [hst]) _ hfind
    have h2 : st1.fh_cache = st.fh_cache ++ [addr] := by rw [hst]
    rw [h2, avl_find_append st1 finfo1 [addr] _ h1]
    simp only [avl_find, hget1, bind, Except.bind,
      compare_fh_self finfo1 fh.finfo hmnt.symm hfl.symm hm, pure, Except.pure, if_true]
  have htr : st1.trace = st.trace ++ [lock_ev.acquire (lock_id.fh addr)] ++
      [lock_ev.release lock_id.fh_cache] := by rw [hst]
  have hheap : st1.heap = st.heap ++ [(addr, fh)] := by rw [hst]
  have hcl : st1.fh_cache = st.fh_cache ++ [addr] := by rw [hst]
  clear hst
  unfold fh_release
  simp only [hget1, bind, Except.bind, hmf, if_false]
  rw [unlock_held _ _ (by simp [htr, List.count_append]; omega)]
  simp only []
  rw [remove_fh_from_cache_last _ addr fh (by rw [heap_get_trace]; exact hget1) hz
    (by rw [avl_find_trace]; exact hfind1)
    (by show st1.heap.map _ = st1.heap
        rw [hheap]; exact heap_map_grow st.heap addr fh fh hfresh)
    (by simp [htr, List.count_append]; omega) (by simp [htr, List.count_append]; omega)]
  have hget2 : ∀ s : fserve_state, s.heap = st1.heap → heap_get s addr = .ok fh :=
    fun s hs => (heap_get_congr st1 s hs addr).trans hget1
  simp only [pure, Except.pure, ne_eq, one_ne_zero, not_false_eq_true, if_true, hget2]
  refine ⟨_, rfl, ?_, ?_⟩
  · show (st1.fh_cache).erase addr = st.fh_cache
    rw [hcl, List.erase_append_right _ hnotin]
    simp
  · show (st1.heap.map _).filter _ = st.heap
    rw [hheap, heap_map_grow st.heap addr fh _ hfresh]
    exact heap_filter_grow st.heap addr _ hfresh
/-- C11 on the empty cache and the request for `/live.mp3`: the handle is
built at address 1 and released again. -/
theorem open_fh_then_release_witness :
    1 ∉ locked_fserve.fh_cache ∧ opened_fserve.fh_cache = locked_fserve.fh_cache ++ [1] ∧
    (∃ fh, heap_get opened_fserve 1 = .ok fh ∧ fh.refcount = 0) ∧
    ∃ st2, fh_release opened_fserve (some 1) = .ok st2 ∧
      st2.fh_cache = locked_fserve.fh_cache ∧ st2.heap = locked_fserve.heap :=
  open_fh_then_release sample_fserve_env locked_fserve opened_fserve sample_request
    sample_request 1 (by decide) (by decide) (by decide) (by decide)

/-! ### The loop of `move_listener` -/

theorem move_loop_passes_snd (E : fserve_env) (finfo : fbinfo) (client : client_t) :
    ∀ (loop : Nat) (st : fserve_state) (rate : Int) (mount : String),
      (move_loop_passes E finfo client loop st rate mount).2
        = move_loop E finfo client loop st rate mount := by
  intro loop
  induction loop with
  | zero => intro st rate mount; rfl
  | succ n ih =>
    intro st rate mount
    simp only [move_loop_passes, move_loop]
    cases hb : move_body E finfo client st rate mount with
    | error e => rfl
    | ok s =>
      cases s with
      | attached st1 c => rfl
      | stop st1 r m => rfl
      | next st1 r m => exact ih st1 r m

theorem move_loop_passes_length (E : fserve_env) (finfo : fbinfo) (client : client_t) :
    ∀ (loop : Nat) (st : fserve_state) (rate : Int) (mount : String),
      (move_loop_passes E finfo client loop st rate mount).1.length ≤ loop + 1 := by
  intro loop
  induction loop with
  | zero => intro st rate mount; simp [move_loop_passes]
  | succ n ih =>
    intro st rate mount
    simp only [move_loop_passes]
    cases hb : move_body E finfo client st rate mount with
    | error e => simp
    | ok s =>
      cases s with
      | attached st1 c => simp
      | stop st1 r m => simp
      | next st1 r m =>
        have := ih st1 r m
        simp only [List.length_cons]
        omega

/-- C15, as stated, fails: with `/a` falling back to `/b` and `/b` to `/a`
the body of the loop of `move_listener` runs 21 times, for `/a` and `/b` in
turn, before the listener goes to file serving (of `/b`): the run of
`move_listener` takes the lock of a source 21 times. -/
theorem move_listener_cycle_counterexample :
    (move_loop_passes cycle_env cycle_request (listener 51 none) 20 moving_fserve 0 "/a").1
      = ["/a", "/b", "/a", "/b", "/a", "/b", "/a", "/b", "/a", "/b", "/a", "/b", "/a", "/b",
         "/a", "/b", "/a", "/b", "/a", "/b", "/a"] ∧
    (move_loop_passes cycle_env cycle_request (listener 51 none) 20 moving_fserve 0 "/a").1.length
      = 21 ∧
    (move_listener cycle_env sample_process empty_fserve (listener 51 none) cycle_request).map
      (fun r => (r.1, r.2.2.mount,
                 r.2.1.trace.count (lock_ev.acquire (lock_id.source "/a")) +
                 r.2.1.trace.count (lock_ev.acquire (lock_id.source "/b"))))
      = .ok (0, some "/b", 21) :=
  ⟨by decide, by decide, rfl⟩

/-- C15, amended: for every configuration, cyclic or not, the loop of
`move_listener` (entered with the counter at 20) ends after at most 21 runs
of its body; the record of passes is that of the loop `move_listener` runs. -/
theorem move_listener_loop_bound (E : fserve_env) (finfo : fbinfo) (client : client_t)
    (st : fserve_state) (rate : Int) (mount : String) :
    (move_loop_passes E finfo client 20 st rate mount).1.length ≤ 21 ∧
    (move_loop_passes E finfo client 20 st rate mount).2
      = move_loop E finfo client 20 st rate mount :=
  ⟨move_loop_passes_length E finfo client 20 st rate mount,
   move_loop_passes_snd E finfo client 20 st rate mount⟩

/-! ### `move_listener`: only a source of matching type takes the listener -/

theorem move_body_attached (E : fserve_env) (finfo : fbinfo) (client : client_t)
    (st st1 : fserve_state) (rate : Int) (mount : String) (c : client_t)
    (h : move_body E finfo client st rate mount = .ok (move_step.attached st1 c)) :
    ∃ src, E.source_find_mount_raw mount = some src ∧ src.available = true ∧
      (src.format_type = finfo.type ∨
        src.format_type = format_type_t.FORMAT_TYPE_UNDEFINED) ∧
      c = { E.source_setup_listener src client with
            flags := (E.source_setup_listener src client).flags ||| CLIENT_HAS_MOVED } := by
  unfold move_body at h
  simp only at h
  cases hs : E.source_find_mount_raw mount with
  | none =>
    rw [hs] at h
    simp only at h
    split_ifs at h
    · cases h
    · cases hf : (E.config_find_mount mount).bind (fun m => m.fallback_mount) <;>
        rw [hf] at h <;> cases h
  | some src =>
    rw [hs] at h
    simp only at h
    obtain ⟨s1, _, h⟩ := bind_ok _ _ _ h
    split_ifs at h with hc
    · obtain ⟨s3, _, h⟩ := bind_ok _ _ _ h
      obtain ⟨s4, _, h⟩ := bind_ok _ _ _ h
      simp only [pure, Except.pure, Except.ok.injEq, move_step.attached.injEq] at h
      exact ⟨src, rfl, hc.1, hc.2, h.2.symm⟩
    · obtain ⟨s2, _, h⟩ := bind_ok _ _ _ h
      cases hf : (E.config_find_mount mount).bind (fun m => m.fallback_mount) <;>
        rw [hf] at h <;> cases h

theorem move_loop_attached (E : fserve_env) (finfo : fbinfo) (client : client_t) :
    ∀ (loop : Nat) (st st1 : fserve_state) (rate : Int) (mount : String) (c : client_t),
      move_loop E finfo client loop st rate mount = .ok (move_step.attached st1 c) →
      ∃ m src, E.source_find_mount_raw m = some src ∧ src.available = true ∧
        (src.format_type = finfo.type ∨
          src.format_type = format_type_t.FORMAT_TYPE_UNDEFINED) ∧
        c = { E.source_setup_listener src client with
              flags := (E.source_setup_listener src client).flags ||| CLIENT_HAS_MOVED } := by
  intro loop
  induction loop with
  | zero =>
    intro st st1 rate mount c h
    exact ⟨mount, move_body_attached E finfo client st st1 rate mount c h⟩
  | succ n ih =>
    intro st st1 rate mount c h
    simp only [move_loop] at h
    obtain ⟨s, hs, h⟩ := bind_ok _ _ _ h
    cases s with
    | attached s1 c1 =>
      simp only [pure, Except.pure, Except.ok.injEq, move_step.attached.injEq] at h
      obtain ⟨rfl, rfl⟩ := h
      exact ⟨mount, move_body_attached E finfo client st _ rate mount _ hs⟩
    | stop s1 r m => simp [pure, Except.pure] at h
    | next s1 r m => exact ih s1 st1 r m c h

/-- A live source whose type is neither the requested one nor undefined is
passed over: the body of the loop goes on with the fallback of the mount, or
leaves the loop (for file serving) when there is none. -/
theorem move_body_skips (E : fserve_env) (finfo : fbinfo) (client : client_t)
    (st : fserve_state) (rate : Int) (mount : String) (src : source_t)
    (hs : E.source_find_mount_raw mount = some src)
    (ht : src.format_type ≠ finfo.type)
    (hu : src.format_type ≠ format_type_t.FORMAT_TYPE_UNDEFINED)
    (hl : st.trace.count (lock_ev.acquire (lock_id.source src.mount))
            = st.trace.count (lock_ev.release (lock_id.source src.mount))) :
    ∃ st1 rate1, move_body E finfo client st rate mount
      = .ok (match (E.config_find_mount mount).bind (fun m => m.fallback_mount) with
             | some fb => move_step.next st1 rate1 fb
             | none => move_step.stop st1 rate1 mount) := by
  unfold move_body
  simp only [hs]
  rw [lock_free st _ (by omega)]
  simp only [bind, Except.bind]
  rw [if_neg (by rintro ⟨-, h | h⟩; exact ht h; exact hu h),
    unlock_held _ _ (by simp [List.count_append]; omega)]
  simp only []
  cases (E.config_find_mount mount).bind (fun m => m.fallback_mount) with
  | none => exact ⟨_, _, rfl⟩
  | some fb => exact ⟨_, _, rfl⟩

/-- Where `move_listener` goes once its loop is left without a source: a
slave gets -1; any other listener is handed to `fserve_setup_client_fb` with
the request of `move_listener` at the mount the loop stopped at (with mount
and fallback swapped when `FS_OVERRIDE` is set) and the limit resolved. -/
theorem move_listener_exit (E : fserve_env) (process : process_fn) (finfo : fbinfo)
    (client : client_t) (st st2 st3 st4 : fserve_state) (mount0 mount : String) (rate : Int)
    (hm : finfo.mount = some mount0)
    (hl : lock (config_get_config st) lock_id.source_tree = .ok st2)
    (hloop : move_loop E finfo client 20 st2 (to_int finfo.limit) mount0
        = .ok (move_step.stop st3 rate mount) ∨
      move_loop E finfo client 20 st2 (to_int finfo.limit) mount0
        = .ok (move_step.next st3 rate mount))
    (hu : unlock st3 lock_id.source_tree = .ok st4) :
    (has_bits client.flags CLIENT_IS_SLAVE = true →
      move_listener E process st client finfo = .ok (-1, config_release_config st4, client)) ∧
    (has_bits client.flags CLIENT_IS_SLAVE = false →
      has_bits finfo.flags FS_OVERRIDE = false →
      ∃ limit, move_listener E process st client finfo
        = fserve_setup_client_fb E process (config_release_config st4) client
            (some { finfo with mount := some mount, limit := limit })) ∧
    (has_bits client.flags CLIENT_IS_SLAVE = false →
      has_bits finfo.flags FS_OVERRIDE = true →
      ∀ fb, finfo.fallback = some fb →
      ∃ limit, move_listener E process st client finfo
        = fserve_setup_client_fb E process (config_release_config st4) client
            (some { finfo with mount := some fb, fallback := none,
                               flags := clear_bits finfo.flags FS_OVERRIDE,
                               limit := limit })) := by
  refine ⟨?_, ?_, ?_⟩
  · intro hsl
    rcases hloop with h | h <;>
      simp [move_listener, hm, hl, bind, Except.bind, h, hu, hsl, pure, Except.pure]
  · intro hsl hov
    rcases hloop with h | h
    all_goals
      unfold move_listener
      simp only [hm, hl, bind, Except.bind, h, hu, hsl, hov, Bool.false_eq_true, if_false]
      by_cases h0 : finfo.limit = 0
      · exact ⟨_, by simp only [h0, if_true]; rfl⟩
      · exact ⟨finfo.limit, by simp only [h0, if_false]⟩
  · intro hsl hov fb hfb
    rcases hloop with h | h
    all_goals
      unfold move_listener
      simp only [hm, hl, bind, Except.bind, h, hu, hsl, hov, hfb, Bool.false_eq_true, if_false,
        if_true]
      by_cases h0 : finfo.limit = 0
      · exact ⟨_, by simp only [h0, if_true]; rfl⟩
      · exact ⟨finfo.limit, by simp only [h0, if_false]⟩

/-- C16, as stated, fails: a slave listener of Ogg type is moved to `/mp3`,
whose live source is MPEG and whose mount has no fallback; the source is
passed over, the loop is left, and `move_listener` returns -1 with the
listener attached nowhere: no file serving.  For a listener that is not a
slave the same move ends in file serving of `/mp3` (handle at address 1). -/
theorem move_listener_slave_counterexample :
    has_bits slave_listener.flags CLIENT_IS_SLAVE = true ∧
    (sources_env.source_find_mount_raw "/mp3").map (fun s => (s.available, s.format_type))
      = some (true, format_type_t.FORMAT_TYPE_MPEG) ∧
    mp3_request.type = format_type_t.FORMAT_TYPE_OGG ∧
    (move_listener sources_env sample_process empty_fserve slave_listener mp3_request).map
      (fun r => (r.1, r.2.1.fh_cache, r.2.2.shared_data, r.2.2.respcode, r.2.2.flags))
      = .ok (-1, [], none, 0, CLIENT_IS_SLAVE) ∧
    (move_listener sources_env sample_process empty_fserve (listener 62 none) mp3_request).map
      (fun r => (r.1, r.2.1.fh_cache, r.2.2.shared_data, r.2.2.respcode,
                 has_bits r.2.2.flags CLIENT_HAS_MOVED))
      = .ok (0, [1], some 1, 200, false) :=
  ⟨by decide, by decide, rfl, rfl, rfl⟩

/-- C16, amended: `move_listener` hands the listener to a live source
(through `source_setup_listener`, with `CLIENT_HAS_MOVED` set and 0 returned)
only if that source is available and its type is the requested one or
`FORMAT_TYPE_UNDEFINED`.  A live source of any other type is passed over: the
pass ends with the fallback of that mount as next mount, or leaves the loop
when there is none; a pass that ends with a next mount is followed by the
pass of that mount while the counter lasts.  Once the loop is left without a
source the listener goes to file serving (`fserve_setup_client_fb` with the
request at the mount reached, mount and fallback swapped under
`FS_OVERRIDE`) when it is not a slave; a slave gets -1 and is served
nothing. -/
theorem move_listener_source_type (E : fserve_env) (process : process_fn) (finfo : fbinfo)
    (client : client_t) (st st2 : fserve_state) (mount0 : String)
    (hm : finfo.mount = some mount0)
    (hl : lock (config_get_config st) lock_id.source_tree = .ok st2) :
    (∀ (st1 : fserve_state) (c : client_t),
      move_loop E finfo client 20 st2 (to_int finfo.limit) mount0
        = .ok (move_step.attached st1 c) →
      move_listener E process st client finfo = .ok (0, st1, c) ∧
      ∃ m src, E.source_find_mount_raw m = some src ∧ src.available = true ∧
        (src.format_type = finfo.type ∨
          src.format_type = format_type_t.FORMAT_TYPE_UNDEFINED) ∧
        c = { E.source_setup_listener src client with
              flags := (E.source_setup_listener src client).flags ||| CLIENT_HAS_MOVED }) ∧
    (∀ (st3 : fserve_state) (rate : Int) (mount : String) (src : source_t),
      E.source_find_mount_raw mount = some src →
      src.format_type ≠ finfo.type →
      src.format_type ≠ format_type_t.FORMAT_TYPE_UNDEFINED →
      st3.trace.count (lock_ev.acquire (lock_id.source src.mount))
        = st3.trace.count (lock_ev.release (lock_id.source src.mount)) →
      ∃ st4 rate1, move_body E finfo client st3 rate mount
        = .ok (match (E.config_find_mount mount).bind (fun m => m.fallback_mount) with
               | some fb => move_step.next st4 rate1 fb
               | none => move_step.stop st4 rate1 mount)) ∧
    (∀ (loop : Nat) (st3 st4 : fserve_state) (rate rate1 : Int) (mount fb : String),
      move_body E finfo client st3 rate mount = .ok (move_step.next st4 rate1 fb) →
      move_loop E finfo client (loop + 1) st3 rate mount
        = move_loop E finfo client loop st4 rate1 fb) ∧
    (∀ (st3 st4 : fserve_state) (rate : Int) (mount : String),
      (move_loop E finfo client 20 st2 (to_int finfo.limit) mount0
          = .ok (move_step.stop st3 rate mount) ∨
        move_loop E finfo client 20 st2 (to_int finfo.limit) mount0
          = .ok (move_step.next st3 rate mount)) →
      unlock st3 lock_id.source_tree = .ok st4 →
      (has_bits client.flags CLIENT_IS_SLAVE = true →
        move_listener E process st client finfo
          = .ok (-1, config_release_config st4, client)) ∧
      (has_bits client.flags CLIENT_IS_SLAVE = false →
        has_bits finfo.flags FS_OVERRIDE = false →
        ∃ limit, move_listener E process st client finfo
          = fserve_setup_client_fb E process (config_release_config st4) client
              (some { finfo with mount := some mount, limit := limit })) ∧
      (has_bits client.flags CLIENT_IS_SLAVE = false →
        has_bits finfo.flags FS_OVERRIDE = true →
        ∀ fb, finfo.fallback = some fb →
        ∃ limit, move_listener E process st client finfo
          = fserve_setup_client_fb E process (config_release_config st4) client
              (some { finfo with mount := some fb, fallback := none,
                                 flags := clear_bits finfo.flags FS_OVERRIDE,
                                 limit := limit }))) := by
  refine ⟨fun st1 c h => ⟨?_, move_loop_attached E finfo client 20 st2 st1 _ mount0 c h⟩,
    fun st3 rate mount src hs ht hu hc => move_body_skips E finfo client st3 rate mount src hs ht hu hc,
    ?_,
    fun st3 st4 rate mount hloop hu =>
      move_listener_exit E process finfo client st st2 st3 st4 mount0 mount rate hm hl hloop hu⟩
  · unfold move_listener
    simp only [hm, hl, bind, Except.bind, h, pure, Except.pure]
  · intro loop st3 st4 rate rate1 mount fb hb
    simp only [move_loop, hb, bind, Except.bind]

/-- C16, amended, on a listener of an MPEG stream sent to `/ogg`: the Ogg
source of `/ogg` is passed over for the fallback `/mp3`, whose MPEG source
takes the listener; and on an Ogg listener sent to `/mp3`: the MPEG source is
passed over, the loop is left and the listener goes to file serving of
`/mp3`. -/
theorem move_listener_source_type_witness :
    (move_listener sources_env sample_process empty_fserve (listener 61 none) ogg_request
        = .ok (0,
            { empty_fserve with
              trace := [lock_ev.acquire lock_id.config, lock_ev.acquire lock_id.source_tree,
                        lock_ev.acquire (lock_id.source "/ogg"),
                        lock_ev.release (lock_id.source "/ogg"),
                        lock_ev.acquire (lock_id.source "/mp3"),
                        lock_ev.release lock_id.config, lock_ev.release lock_id.source_tree,
                        lock_ev.release (lock_id.source "/mp3")] },
            { listener 61 none with flags := CLIENT_HAS_MOVED }) ∧
      ∃ m src, sources_env.source_find_mount_raw m = some src ∧ src.available = true ∧
        (src.format_type = ogg_request.type ∨
          src.format_type = format_type_t.FORMAT_TYPE_UNDEFINED) ∧
        ({ listener 61 none with flags := CLIENT_HAS_MOVED } : client_t)
          = { sources_env.source_setup_listener src (listener 61 none) with
              flags := (sources_env.source_setup_listener src (listener 61 none)).flags
                         ||| CLIENT_HAS_MOVED }) ∧
    (∃ st4 rate1, move_body sources_env ogg_request (listener 61 none) moving_fserve 0 "/ogg"
        = .ok (match (sources_env.config_find_mount "/ogg").bind (fun m => m.fallback_mount) with
               | some fb => move_step.next st4 rate1 fb
               | none => move_step.stop st4 rate1 "/ogg")) ∧
    (∃ limit, move_listener sources_env sample_process empty_fserve (listener 62 none)
        mp3_request
      = fserve_setup_client_fb sources_env sample_process
          { empty_fserve with
            trace := [lock_ev.acquire lock_id.config, lock_ev.acquire lock_id.source_tree,
                      lock_ev.acquire (lock_id.source "/mp3"),
                      lock_ev.release (lock_id.source "/mp3"),
                      lock_ev.release lock_id.source_tree, lock_ev.release lock_id.config] }
          (listener 62 none) (some { mp3_request with mount := some "/mp3", limit := limit })) :=
  ⟨(move_listener_source_type sources_env sample_process ogg_request (listener 61 none)
      empty_fserve moving_fserve "/ogg" rfl (by decide)).1 _ _ (by decide),
   (move_listener_source_type sources_env sample_process ogg_request (listener 61 none)
      empty_fserve moving_fserve "/ogg" rfl (by decide)).2.1 moving_fserve 0 "/ogg"
      { mount := "/ogg", available := true, format_type := format_type_t.FORMAT_TYPE_OGG }
      (by decide) (by decide) (by decide) (by decide),
   ((move_listener_source_type sources_env sample_process mp3_request (listener 62 none)
      empty_fserve moving_fserve "/mp3" rfl (by decide)).2.2.2
      { empty_fserve with
        trace := [lock_ev.acquire lock_id.config, lock_ev.acquire lock_id.source_tree,
                  lock_ev.acquire (lock_id.source "/mp3"),
                  lock_ev.release (lock_id.source "/mp3")] }
      { empty_fserve with
        trace := [lock_ev.acquire lock_id.config, lock_ev.acquire lock_id.source_tree,
                  lock_ev.acquire (lock_id.source "/mp3"),
                  lock_ev.release (lock_id.source "/mp3"),
                  lock_ev.release lock_id.source_tree] }
      0 "/mp3" (Or.inl (by decide)) (by decide)).2.1 (by decide) (by decide)⟩

/-! ### `move_listener`: the rate in the name of the mount -/

theorem sscanf_bracket_rate_text (pre : List Char) (n : Nat) (tail : List Char)
    (hpre : pre ≠ []) (hno : ∀ c ∈ pre, c ≠ '[') (hn : n ≤ 2147483647) :
    sscanf_bracket_rate (pre ++ '[' :: ((toString (n : Int)).data ++ ']' :: tail))
      = some (n : Int) := by
  have hp : ∀ c ∈ pre, (decide (c ≠ '[')) = true := by
    intro c hc
    simpa using hno c hc
  unfold sscanf_bracket_rate
  rw [List.takeWhile_append_of_pos hp, List.dropWhile_append_of_pos hp]
  have h1 : pre ++ List.takeWhile (fun c => decide (c ≠ '['))
      ('[' :: ((toString (n : Int)).data ++ ']' :: tail)) ≠ [] := by
    simp [hpre]
  rw [if_neg h1]
  simp only [List.dropWhile_cons, ne_eq, not_true_eq_false, decide_False, Bool.false_eq_true,
    if_false]
  rw [scan_signed_int (n : Int) (']' :: tail) (chars_not_digit_stop ']' tail (by decide))]
  simp only [Option.map_some']
  rw [saturate_of_range _ (by unfold OFF_T_MIN; omega) (by unfold OFF_T_MAX; omega)]
  simp only [Option.some.injEq]
  unfold to_int
  omega

/-- For a number of at most 2147483 the product `rate * 1000` fits an `int`
and the code's `rate * 1000/8`, stored in the `unsigned int` limit, is
`rate * 125`. -/
theorem bracket_rate_in_range (E : fserve_env) (n : Nat) (hn : n ≤ 2147483) :
    to_uint (kbits_rate E (n : Int)) = (n : Int) * 125 := by
  unfold kbits_rate
  rw [if_pos (by omega)]
  have h2 : Int.tdiv ((n : Int) * 1000) 8 = (n : Int) * 125 := by
    rw [show (n : Int) * 1000 = ((n * 125 : Nat) : Int) * 8 by push_cast; ring]
    rw [Int.mul_tdiv_cancel _ (by decide)]
    push_cast
    rfl
  rw [h2]
  unfold to_uint
  omega

/-- Above 2147483 the product `rate * 1000` does not fit an `int`; when the
compiled program multiplies by 125 in 32 bits the limit is still
`rate * 125` as long as that fits the `unsigned int`, that is up to
34359738. -/
theorem bracket_rate_compiled (E : fserve_env) (n : Nat) (hn : n ≤ 34359738)
    (hc : E.overflowed_rate (n : Int) = (n : Int) * 125) :
    to_uint (kbits_rate E (n : Int)) = (n : Int) * 125 := by
  by_cases h : n ≤ 2147483
  · exact bracket_rate_in_range E n h
  · unfold kbits_rate
    rw [if_neg (by omega), hc]
    unfold to_uint to_int
    omega

/-- From 34359739 on `rate * 125` does not fit the `unsigned int` limit,
whatever the compiled program computes. -/
theorem bracket_rate_too_large (E : fserve_env) (n : Nat) (hn : 34359738 < n) :
    to_uint (kbits_rate E (n : Int)) ≠ (n : Int) * 125 := by
  have h : to_uint (kbits_rate E (n : Int)) < 4294967296 := by
    unfold to_uint
    omega
  omega

/-- When the loop of `move_listener` is left with no rate found at a mount
named `<prefix>[NNN]...`, with a non-empty prefix free of `[` and `NNN` an
`int`, the limit handed to `fserve_setup_client_fb` is what the statement
`rate = rate * 1000/8` gives for `NNN`, stored in the `unsigned int`. -/
theorem move_listener_bracket_rate (E : fserve_env) (process : process_fn)
    (st st2 st3 st4 : fserve_state) (client : client_t) (finfo : fbinfo) (mount0 : String)
    (pre tail : List Char) (n : Nat)
    (hm : finfo.mount = some mount0) (hlim : finfo.limit = 0)
    (hov : has_bits finfo.flags FS_OVERRIDE = false)
    (hsl : has_bits client.flags CLIENT_IS_SLAVE = false)
    (hl : lock (config_get_config st) lock_id.source_tree = .ok st2)
    (hloop : move_loop E finfo client 20 st2 0 mount0
      = .ok (move_step.stop st3 0
          (String.mk (pre ++ '[' :: ((toString (n : Int)).data ++ ']' :: tail)))))
    (hu : unlock st3 lock_id.source_tree = .ok st4)
    (hpre : pre ≠ []) (hno : ∀ c ∈ pre, c ≠ '[') (hn : n ≤ 2147483647) :
    move_listener E process st client finfo
      = fserve_setup_client_fb E process (config_release_config st4) client
          (some { finfo with
                  mount := some (String.mk
                    (pre ++ '[' :: ((toString (n : Int)).data ++ ']' :: tail))),
                  limit := to_uint (kbits_rate E (n : Int)) }) := by
  have h0 : to_int 0 = 0 := rfl
  unfold move_listener
  simp only [hm, hl, bind, Except.bind, h0, hloop, hu, hsl, hov, Bool.false_eq_true, if_false,
    Option.getD_some, true_and, and_self, if_true,
    sscanf_bracket_rate_text pre n tail hpre hno hn, hlim]

/-- C17, as stated, fails: for the mount `/stream[2147483647]` and a request
without limit, `move_listener` hands `fserve_setup_client_fb` the limit
2147483523 (the low 32 bits of the product by 125), not
2147483647 * 125 = 268435455875, a number that no `unsigned int` limit can
hold.  For `/stream[128]` the limit is 16000 and for `/stream[2147484]` it is
268435500. -/
theorem move_listener_bracket_rate_counterexample :
    move_listener sample_fserve_env sample_process empty_fserve (listener 71 none)
        (bracket_request "/stream[2147483647]")
      = fserve_setup_client_fb sample_fserve_env sample_process moved_fserve (listener 71 none)
          (some { bracket_request "/stream[2147483647]" with limit := 2147483523 }) ∧
    (2147483647 : Int) * 125 = 268435455875 ∧
    (∀ v : Int, to_uint v ≠ 268435455875) ∧
    move_listener sample_fserve_env sample_process empty_fserve (listener 71 none)
        (bracket_request "/stream[128]")
      = fserve_setup_client_fb sample_fserve_env sample_process moved_fserve (listener 71 none)
          (some { bracket_request "/stream[128]" with limit := 16000 }) ∧
    move_listener sample_fserve_env sample_process empty_fserve (listener 71 none)
        (bracket_request "/stream[2147484]")
      = fserve_setup_client_fb sample_fserve_env sample_process moved_fserve (listener 71 none)
          (some { bracket_request "/stream[2147484]" with limit := 268435500 }) :=
  ⟨rfl, by decide, fun v => by unfold to_uint; omega, rfl, rfl⟩

/-- C17, amended: when `move_listener` leaves its loop for file serving with
`finfo.limit` 0 and no rate found, at a mount named `<prefix>[NNN]...` with a
non-empty prefix free of `[` and `NNN` a non-negative `int`, the limit handed
to `fserve_setup_client_fb` is the result of `rate = rate * 1000/8` for
`NNN`, stored in the `unsigned int`.  It is `NNN * 125` for every `NNN` up to
2147483, where the product by 1000 fits an `int`; it is still `NNN * 125` up
to 34359738 when the compiled program multiplies by 125 in 32 bits; from
34359739 on it is never `NNN * 125`. -/
theorem move_listener_bracket_limit (E : fserve_env) (process : process_fn)
    (st st2 st3 st4 : fserve_state) (client : client_t) (finfo : fbinfo) (mount0 : String)
    (pre tail : List Char) (n : Nat)
    (hm : finfo.mount = some mount0) (hlim : finfo.limit = 0)
    (hov : has_bits finfo.flags FS_OVERRIDE = false)
    (hsl : has_bits client.flags CLIENT_IS_SLAVE = false)
    (hl : lock (config_get_config st) lock_id.source_tree = .ok st2)
    (hloop : move_loop E finfo client 20 st2 0 mount0
      = .ok (move_step.stop st3 0
          (String.mk (pre ++ '[' :: ((toString (n : Int)).data ++ ']' :: tail)))))
    (hu : unlock st3 lock_id.source_tree = .ok st4)
    (hpre : pre ≠ []) (hno : ∀ c ∈ pre, c ≠ '[') (hn : n ≤ 2147483647) :
    move_listener E process st client finfo
      = fserve_setup_client_fb E process (config_release_config st4) client
          (some { finfo with
                  mount := some (String.mk
                    (pre ++ '[' :: ((toString (n : Int)).data ++ ']' :: tail))),
                  limit := to_uint (kbits_rate E (n : Int)) }) ∧
    (n ≤ 2147483 → to_uint (kbits_rate E (n : Int)) = (n : Int) * 125) ∧
    (n ≤ 34359738 → E.overflowed_rate (n : Int) = (n : Int) * 125 →
      to_uint (kbits_rate E (n : Int)) = (n : Int) * 125) ∧
    (34359738 < n → to_uint (kbits_rate E (n : Int)) ≠ (n : Int) * 125) :=
  ⟨move_listener_bracket_rate E process st st2 st3 st4 client finfo mount0 pre tail n hm hlim
      hov hsl hl hloop hu hpre hno hn,
   bracket_rate_in_range E n, bracket_rate_compiled E n, bracket_rate_too_large E n⟩

/-- C17, amended, at `/stream[128]`: the limit is 128 * 125 = 16000. -/
theorem move_listener_bracket_limit_witness :
    move_listener sample_fserve_env sample_process empty_fserve (listener 71 none)
        (bracket_request "/stream[128]")
      = fserve_setup_client_fb sample_fserve_env sample_process
          (config_release_config (state_or_empty (unlock moving_fserve lock_id.source_tree)))
          (listener 71 none)
          (some { bracket_request "/stream[128]" with
                  mount := some (String.mk
                    ("/stream".data ++ '[' :: ((toString ((128 : Nat) : Int)).data ++ ']' :: []))),
                  limit := to_uint (kbits_rate sample_fserve_env ((128 : Nat) : Int)) }) ∧
    to_uint (kbits_rate sample_fserve_env ((128 : Nat) : Int)) = ((128 : Nat) : Int) * 125 :=
  ⟨(move_listener_bracket_limit sample_fserve_env sample_process empty_fserve moving_fserve
      moving_fserve (state_or_empty (unlock moving_fserve lock_id.source_tree))
      (listener 71 none) (bracket_request "/stream[128]")
      "/stream[128]" "/stream".data [] 128 rfl rfl (by decide) (by decide) (by decide)
      (by decide) (by decide) (by decide) (by decide) (by decide)).1,
   (move_listener_bracket_limit sample_fserve_env sample_process empty_fserve moving_fserve
      moving_fserve (state_or_empty (unlock moving_fserve lock_id.source_tree))
      (listener 71 none) (bracket_request "/stream[128]")
      "/stream[128]" "/stream".data [] 128 rfl rfl (by decide) (by decide) (by decide)
      (by decide) (by decide) (by decide) (by decide) (by decide)).2.1 (by decide)⟩

/-! ### `auth_postprocess_listener`: where an unauthenticated listener goes -/

/-- C18: for a work item that carries a listener the back-end left
unauthenticated, `auth_postprocess_listener` sends no 401 when the
authenticator has a `rejected_mount`: it hands the listener to
`add_authenticated_listener` with that mount and its configuration.  It sends
the 401, with the realm of the authenticator, exactly when the listener is
unauthenticated and there is no `rejected_mount`. -/
theorem auth_postprocess_listener_routes (E : fserve_env) (process : process_fn)
    (st : fserve_state) (auth : auth_t) (auth_user : auth_client) (client : client_t)
    (hc : auth_user.client = some client) :
    (∀ rejected, has_bits client.flags CLIENT_AUTHENTICATED = false →
      auth.rejected_mount = some rejected →
      auth_postprocess_listener E process st auth auth_user
        = (add_authenticated_listener E process (config_get_config st) rejected
            (E.config_find_mount rejected) client).map (fun r =>
            ({ ret := r.1, st := config_release_config r.2.1,
               auth_user := { auth_user with client := none },
               client := some r.2.2, sent_401 := none } : postprocess_result))) ∧
    (has_bits client.flags CLIENT_AUTHENTICATED = false → auth.rejected_mount = none →
      auth_postprocess_listener E process st auth auth_user
        = .ok { ret := -1, st := st, auth_user := { auth_user with client := none },
                client := some (E.client_send_401 client auth.realm).2,
                sent_401 := some auth.realm }) ∧
    (∀ r, auth_postprocess_listener E process st auth auth_user = .ok r →
      (r.sent_401 = some auth.realm ↔
        (has_bits client.flags CLIENT_AUTHENTICATED = false ∧ auth.rejected_mount = none)) ∧
      (r.sent_401 = none ∨ r.sent_401 = some auth.realm)) := by
  refine ⟨?_, ?_, ?_⟩
  · intro rejected hu hr
    simp only [auth_postprocess_listener, hc, hu, hr, if_true]
  · intro hu hr
    simp only [auth_postprocess_listener, hc, hu, hr, if_true]
  · intro r h
    simp only [auth_postprocess_listener, hc] at h
    by_cases hu : has_bits client.flags CLIENT_AUTHENTICATED = false
    · cases hr : auth.rejected_mount with
      | none =>
        simp only [hu, hr, if_true, Except.ok.injEq] at h
        subst h
        exact ⟨⟨fun _ => ⟨hu, rfl⟩, fun _ => rfl⟩, Or.inr rfl⟩
      | some rejected =>
        simp only [hu, hr, if_true] at h
        cases ha : add_authenticated_listener E process (config_get_config st) rejected
            (E.config_find_mount rejected) client with
        | error e => rw [ha] at h; cases h
        | ok v =>
          rw [ha] at h
          simp only [Except.map, Except.ok.injEq] at h
          subst h
          exact ⟨⟨fun h => (by cases h), fun h => (by cases h.2)⟩, Or.inl rfl⟩
    · have hu1 : has_bits client.flags CLIENT_AUTHENTICATED = true := by simpa using hu
      simp only [hu1, Bool.true_eq_false, if_false] at h
      cases ha : add_authenticated_listener E process (config_get_config st) auth_user.mount
          (E.config_find_mount auth_user.mount) client with
      | error e => rw [ha] at h; cases h
      | ok v =>
        rw [ha] at h
        simp only [Except.map, Except.ok.injEq] at h
        subst h
        exact ⟨⟨fun h => (by cases h), fun h => absurd h.1 hu⟩, Or.inl rfl⟩

/-- C18 on listener 81, refused by the back-end of an authenticator whose
`rejected_mount` is `/denied`: the listener is served the file `/denied`
(response 200) and no 401 is sent; without `rejected_mount` the 401 goes
out. -/
theorem auth_postprocess_listener_routes_witness :
    (auth_postprocess_listener sample_fserve_env sample_process empty_fserve rejecting_auth
        refused_item).map
      (fun r => (r.ret, r.sent_401, r.client.map (fun c => (c.respcode, c.mount))))
      = .ok (0, none, some (200, some "/denied")) ∧
    (auth_postprocess_listener sample_fserve_env sample_process empty_fserve sample_auth
        refused_item).map
      (fun r => (r.ret, r.sent_401, r.client.map (fun c => (c.respcode, c.mount))))
      = .ok (-1, some none, some (401, none)) :=
  ⟨by rw [(auth_postprocess_listener_routes sample_fserve_env sample_process empty_fserve
        rejecting_auth refused_item (listener 81 none) rfl).1 "/denied" (by decide) rfl]
      decide,
   by rw [(auth_postprocess_listener_routes sample_fserve_env sample_process empty_fserve
        sample_auth refused_item (listener 81 none) rfl).2.1 (by decide) rfl]
      decide⟩

/-! ### `auth_add_listener` after `auth_shutdown` -/

theorem except_map_map {ε α β γ : Type} (x : Except ε α) (f : α → β) (g : β → γ) :
    (x.map f).map g = x.map (fun a => g (f a)) := by
  cases x <;> rfl

/-- What `auth_add_listener` returns and what it does to the state, the
client and the authenticator does not depend on `allow_auth`. -/
theorem auth_add_listener_allow_auth (E : fserve_env) (process : process_fn)
    (st : fserve_state) (G : auth_globals) (mount : String) (client : client_t) (v : Int) :
    (auth_add_listener E process st { G with allow_auth := v } mount client).map
        (fun r => (r.ret, r.st, r.client, r.mountinfo))
      = (auth_add_listener E process st G mount client).map
        (fun r => (r.ret, r.st, r.client, r.mountinfo)) := by
  have hc : ∀ m, (mount_marks m client { G with allow_auth := v }).1
      = (mount_marks m client G).1 := fun m => rfl
  unfold auth_add_listener
  simp only [hc, except_map_map]
  repeat' split
  all_goals first
    | rfl
    | (generalize queue_auth_client _ _ _ = q; cases q <;> rfl)
    | (generalize add_authenticated_listener _ _ _ _ _ _ = q; cases q <;> rfl)

theorem queue_wf_initial (a : auth_t) (h : auth_initial a) : queue_wf a := by
  obtain ⟨h1, h2, h3, h4, h5⟩ := h
  refine ⟨by rw [h2]; exact List.nodup_nil, by rw [h2]; trivial, by rw [h1, h2]; rfl,
    by rw [h3, h2]; rfl, by rw [h4, h2]; rfl, h5⟩

theorem chained_link (p : Nat) (u : auth_client) (hu : u.next = none) :
    ∀ (items : List (Nat × auth_client)) (it0 : Nat × auth_client) (q : Nat),
      ((it0 :: items).map Prod.fst).Nodup → p ∉ (it0 :: items).map Prod.fst →
      chained (it0 :: items) → ((it0 :: items).getLast?).map Prod.fst = some q →
      chained (((it0 :: items) ++ [(p, u)]).map (fun (it : Nat × auth_client) =>
        if it.1 = q then (it.1, { it.2 with next := some p }) else it)) := by
  intro items
  induction items with
  | nil =>
    intro it0 q _ hp _ hq
    simp only [List.getLast?_singleton, Option.map_some', Option.some.injEq] at hq
    have hpq : p ≠ q := by
      intro e
      apply hp
      simp [e, hq]
    simp only [List.cons_append, List.nil_append, List.map_cons, List.map_nil, hq, if_true,
      hpq, if_false]
    exact ⟨rfl, hu⟩
  | cons it1 rest ih =>
    intro it0 q hnd hp hch hq
    rw [List.getLast?_cons_cons] at hq
    have hnd1 : ((it1 :: rest).map Prod.fst).Nodup := (List.nodup_cons.mp hnd).2
    have hp1 : p ∉ (it1 :: rest).map Prod.fst := fun h => hp (List.mem_cons_of_mem _ h)
    have h0 : it0.1 ≠ q := by
      intro e
      have hmem : q ∈ (it1 :: rest).map Prod.fst := by
        cases hl : (it1 :: rest).getLast? with
        | none => rw [hl] at hq; cases hq
        | some l =>
          rw [hl] at hq
          simp only [Option.map_some', Option.some.injEq] at hq
          rw [← hq]
          exact List.mem_map_of_mem _ (List.mem_of_getLast?_eq_some hl)
      exact (List.nodup_cons.mp hnd).1 (by rw [show (it0 :: it1 :: rest).map Prod.fst
        = it0.1 :: (it1 :: rest).map Prod.fst from rfl] at hnd; rw [e]; exact hmem)
    have ih1 := ih it1 q hnd1 hp1 hch.2 hq
    simp only [List.cons_append, List.map_cons, h0, if_false] at ih1 ⊢
    refine ⟨?_, ih1⟩
    rw [hch.1]
    split_ifs <;> rfl

theorem map_fst_link (items : List (Nat × auth_client)) (q p : Nat) :
    (items.map (fun (it : Nat × auth_client) =>
      if it.1 = q then (it.1, { it.2 with next := some p }) else it)).map Prod.fst
      = items.map Prod.fst := by
  rw [List.map_map]
  apply List.map_congr_left
  intro it _
  simp only [Function.comp]
  split_ifs <;> rfl

theorem map_plain_link (items : List (Nat × auth_client)) (q p : Nat) :
    (items.map (fun (it : Nat × auth_client) =>
      if it.1 = q then (it.1, { it.2 with next := some p }) else it)).map (fun it => plain it.2)
      = items.map (fun it => plain it.2) := by
  rw [List.map_map]
  apply List.map_congr_left
  intro it _
  simp only [Function.comp]
  split_ifs <;> rfl

theorem getLast_map_fst (items : List (Nat × auth_client)) (f : Nat × auth_client → Nat × auth_client)
    (hf : ∀ it, (f it).1 = it.1) :
    ((items.map f).getLast?).map Prod.fst = (items.getLast?).map Prod.fst := by
  rw [List.getLast?_map]
  cases items.getLast? with
  | none => rfl
  | some it => simp [hf]

/-- The store through `tailp` and the append of `queue_auth_client` keep the
queue in order and put the new work item last. -/
theorem store_tail_wf (a : auth_t) (u : auth_client) (hw : queue_wf a) :
    ∃ a1, store_tail { a with items := a.items ++ [(fresh_item a, { u with next := none })] }
        (fresh_item a) = .ok a1 ∧
      (a1.items.map Prod.fst).Nodup ∧ chained a1.items ∧
      a1.head = a1.items.head?.map Prod.fst ∧
      a1.items.map Prod.fst = a.items.map Prod.fst ++ [fresh_item a] ∧
      a1.items.map (fun it => plain it.2) = a.items.map (fun it => plain it.2) ++ [plain u] ∧
      a1.pending_count = a.pending_count ∧ a1.handlers = a.handlers ∧
      a1.handles = a.handles ∧ a1.refcount = a.refcount ∧ a1.running = a.running := by
  obtain ⟨hnd, hch, hhd, hpc, htl, hh⟩ := hw
  have hfresh : fresh_item a ∉ a.items.map Prod.fst := by
    intro h
    obtain ⟨it, hit, e⟩ := List.mem_map.mp h
    exact fresh_item_fresh a it hit e
  have hnd2 : (a.items.map Prod.fst ++ [fresh_item a]).Nodup := by
    rw [List.nodup_append]
    refine ⟨hnd, List.nodup_singleton _, ?_⟩
    intro x hx hx2
    rw [List.mem_singleton] at hx2
    exact hfresh (hx2 ▸ hx)
  obtain hi | ⟨it0, rest, hi⟩ : a.items = [] ∨ ∃ it0 rest, a.items = it0 :: rest := by
    cases a.items with
    | nil => exact Or.inl rfl
    | cons x y => exact Or.inr ⟨x, y, rfl⟩
  · rw [hi] at htl hhd
    simp only [List.getLast?_nil] at htl
    refine ⟨{ a with items := [(fresh_item a, { u with next := none })],
                     head := some (fresh_item a) }, ?_, ?_, ?_, rfl, ?_, ?_, rfl, rfl, rfl, rfl,
             rfl⟩
    · simp [store_tail, htl, hi]
    · simp
    · exact rfl
    · simp [hi]
    · simp [plain, hi]
  · have hne : a.items ≠ [] := by rw [hi]; simp
    obtain ⟨l, hl⟩ : ∃ l, a.items.getLast? = some l := by
      cases h : a.items.getLast? with
      | none => exact absurd (List.getLast?_eq_none_iff.mp h) hne
      | some l => exact ⟨l, rfl⟩
    rw [hl] at htl
    simp only at htl
    have hany : (a.items ++ [(fresh_item a, { u with next := none })]).any
        (fun it => it.1 = l.1) = true := by
      rw [List.any_append]
      simp only [Bool.or_eq_true, List.any_eq_true, decide_eq_true_eq]
      exact Or.inl ⟨l, List.mem_of_getLast?_eq_some hl, rfl⟩
    have hst : store_tail { a with items := a.items ++ [(fresh_item a, { u with next := none })] }
        (fresh_item a)
        = .ok { a with items := (a.items ++ [(fresh_item a, { u with next := none })]).map (fun
                  (it : Nat × auth_client) =>
                    if it.1 = l.1 then (it.1, { it.2 with next := some (fresh_item a) })
                    else it) } := by
      simp only [store_tail, htl, hany, if_true]
    refine ⟨_, hst, ?_, ?_, ?_, ?_, ?_, rfl, rfl, rfl, rfl, rfl⟩
    · show ((List.map _ _).map Prod.fst).Nodup
      rw [map_fst_link, List.map_append]
      exact hnd2
    · show chained (List.map _ _)
      rw [hi]
      apply chained_link (fresh_item a) { u with next := none } rfl rest it0 l.1
      · rw [← hi]; exact hnd
      · rw [← hi]; exact hfresh
      · rw [← hi]; exact hch
      · rw [← hi, hl]; rfl
    · show a.head = (List.map _ _).head?.map Prod.fst
      rw [hhd, hi]
      simp only [List.cons_append, List.map_cons, List.head?_cons, Option.map_some']
      split_ifs <;> rfl
    · show (List.map _ _).map Prod.fst = _
      rw [map_fst_link, List.map_append]
      rfl
    · show (List.map _ _).map (fun (it : Nat × auth_client) => plain it.2) = _
      rw [map_plain_link, List.map_append]
      simp [plain]

theorem start_handler_keeps (E : auth_env) : ∀ (n i : Nat) (a a' : auth_t),
    start_handler E a i n = .ok a' →
    a'.items = a.items ∧ a'.head = a.head ∧ a'.tailp = a.tailp ∧
    a'.pending_count = a.pending_count ∧ a'.handlers = a.handlers ∧
    a'.handles.length = a.handles.length ∧ a'.running = a.running := by
  intro n
  induction n with
  | zero => intro i a a' h; cases h; exact ⟨rfl, rfl, rfl, rfl, rfl, rfl, rfl⟩
  | succ n ih =>
    intro i a a' h
    simp only [start_handler] at h
    cases hg : a.handles.get? i with
    | none => rw [hg] at h; cases h
    | some s =>
      rw [hg] at h
      simp only at h
      split_ifs at h
      · cases h; exact ⟨rfl, rfl, rfl, rfl, rfl, by simp, rfl⟩
      · exact ih (i + 1) a a' h

theorem getLast_of_map_fst (items : List (Nat × auth_client)) (l : List Nat) (p : Nat)
    (h : items.map Prod.fst = l ++ [p]) : ∃ it, items.getLast? = some it ∧ it.1 = p := by
  have h1 : (items.map Prod.fst).getLast? = some p := by rw [h]; simp
  rw [List.getLast?_map] at h1
  cases hl : items.getLast? with
  | none => rw [hl] at h1; cases h1
  | some it =>
    rw [hl] at h1
    exact ⟨it, rfl, by simpa using h1⟩

/-- The body of `queue_auth_client` returns for a queue in order, leaves it
in order and puts the work item last. -/
theorem enqueue_item_wf (E : auth_env) (a : auth_t) (u : auth_client) (hw : queue_wf a) :
    ∃ a', enqueue_item E a (fresh_item a) u = .ok a' ∧ queue_wf a' ∧
      a'.items.map (fun it => plain it.2) = a.items.map (fun it => plain it.2) ++ [plain u] ∧
      a'.handles.length = a.handles.length ∧ a'.running = a.running := by
  obtain ⟨a1, h1, hnd, hch, hhd, hfst, hpl, hpc, hhl, hhs, hrc, hrun⟩ := store_tail_wf a u hw
  obtain ⟨_, _, _, hpc0, _, hh⟩ := hw
  obtain ⟨it, hlast, hit⟩ := getLast_of_map_fst a1.items _ _ hfst
  have hlen : a1.items.length = a.items.length + 1 := by
    have := congrArg List.length hfst
    simpa using this
  have hw2 : queue_wf { a1 with tailp := some (tail_ref.next (fresh_item a)),
                                pending_count := a1.pending_count + 1 } := by
    refine ⟨hnd, hch, hhd, ?_, ?_, ?_⟩
    · show a1.pending_count + 1 = (a1.items.length : Int)
      rw [hpc, hpc0, hlen]
      push_cast
      rfl
    · show some (tail_ref.next (fresh_item a)) = some (match a1.items.getLast? with
                  | none => tail_ref.head
                  | some it => tail_ref.next it.1)
      rw [hlast]
      simp only [hit]
    · show a1.handlers.toNat ≤ a1.handles.length
      rw [hhl, hhs]; exact hh
  unfold enqueue_item
  rw [h1]
  simp only [bind, Except.bind]
  split_ifs with hr
  · exact ⟨_, rfl, hw2, hpl, by show a1.handles.length = _; rw [hhs], hrun⟩
  · obtain ⟨a2, e2, _⟩ := start_handler_ok E a1.handlers.toNat 0
      { a1 with tailp := some (tail_ref.next (fresh_item a)),
                pending_count := a1.pending_count + 1 }
      (by show 0 + a1.handlers.toNat ≤ a1.handles.length; rw [hhl, hhs]; omega)
    obtain ⟨k1, k2, k3, k4, k5, k6, k7⟩ := start_handler_keeps E _ _ _ _ e2
    obtain ⟨w1, w2, w3, w4, w5, w6⟩ := hw2
    refine ⟨a2, e2, ⟨?_, ?_, ?_, ?_, ?_, ?_⟩, ?_, ?_, ?_⟩
    · rw [k1]; exact w1
    · rw [k1]; exact w2
    · rw [k1, k2]; exact w3
    · rw [k1, k4]; exact w4
    · rw [k1, k3]; exact w5
    · rw [k5, k6]; exact w6
    · rw [k1]; exact hpl
    · rw [k6]; show a1.handles.length = _; rw [hhs]
    · rw [k7]; exact hrun

theorem filter_head_nodup (it : Nat × auth_client) (rest : List (Nat × auth_client))
    (hnd : ((it :: rest).map Prod.fst).Nodup) :
    (it :: rest).filter (fun e => e.1 ≠ it.1) = rest := by
  have h1 : ∀ e ∈ rest, e.1 ≠ it.1 := by
    intro e he e1
    have := (List.nodup_cons.mp hnd).1
    exact this (by rw [← e1]; exact List.mem_map_of_mem _ he)
  simp only [List.filter_cons, ne_eq, not_true_eq_false, decide_False, Bool.false_eq_true,
    if_false]
  rw [List.filter_eq_self]
  intro e he
  simpa using h1 e he

theorem pass_leaving (a : auth_t) (slot : Nat) (handler : auth_thread_t)
    (hget : a.handles.get? slot = some handler) (hhead : a.head = none) :
    auth_run_thread_pass a slot
      = .ok (thread_pass.leaving
          { a with handles := a.handles.set slot { handler with thread := none } }) := by
  simp only [auth_run_thread_pass, hget, hhead]

theorem pass_popped (a : auth_t) (slot p : Nat) (handler : auth_thread_t)
    (it : Nat × auth_client)
    (hget : a.handles.get? slot = some handler) (hhead : a.head = some p)
    (hfind : a.items.find? (fun e => e.1 = p) = some it) :
    auth_run_thread_pass a slot
      = .ok (thread_pass.popped
          { a with head := it.2.next,
                   tailp := if it.2.next = none then some tail_ref.head else a.tailp,
                   pending_count := a.pending_count - 1,
                   items := a.items.filter (fun e => e.1 ≠ p) }
          { it.2 with next := none, thread_data := handler.data, handler := handler.id }) := by
  simp only [auth_run_thread_pass, hget, hhead, hfind]
  split_ifs <;> rfl

/-- A pass of the loop of a worker on a queue in order: with the queue empty
the worker gives up its slot, else it takes the first work item; the queue
stays in order. -/
theorem pass_wf (a : auth_t) (slot : Nat) (hw : queue_wf a) (hs : slot < a.handles.length) :
    (a.items = [] ∧ ∃ a', auth_run_thread_pass a slot = .ok (thread_pass.leaving a') ∧
        queue_wf a' ∧ a'.items = [] ∧ a'.handles.length = a.handles.length ∧
        a'.running = a.running ∧ a'.refcount = a.refcount) ∨
    (∃ it rest a' u, a.items = it :: rest ∧
        auth_run_thread_pass a slot = .ok (thread_pass.popped a' u) ∧
        queue_wf a' ∧ a'.items = rest ∧ plain u = plain it.2 ∧ a'.handles = a.handles ∧
        a'.running = a.running ∧ a'.refcount = a.refcount) := by
  obtain ⟨hnd, hch, hhd, hpc, htl, hh⟩ := hw
  have hget : a.handles.get? slot = some (a.handles[slot]) := by
    rw [List.get?_eq_getElem?, List.getElem?_eq_getElem hs]
  obtain hi | ⟨it, rest, hi⟩ : a.items = [] ∨ ∃ it rest, a.items = it :: rest := by
    cases a.items with
    | nil => exact Or.inl rfl
    | cons x y => exact Or.inr ⟨x, y, rfl⟩
  · left
    have hhead : a.head = none := by rw [hhd, hi]; rfl
    refine ⟨hi, _, pass_leaving a slot _ hget hhead, ⟨hnd, hch, hhd, hpc, htl, ?_⟩, hi, ?_,
      rfl, rfl⟩
    · show a.handlers.toNat ≤ (a.handles.set slot _).length
      rw [List.length_set]; exact hh
    · show (a.handles.set slot _).length = _
      rw [List.length_set]
  · right
    have hhead : a.head = some it.1 := by rw [hhd, hi]; rfl
    have hfind : a.items.find? (fun e => e.1 = it.1) = some it := by
      rw [hi]; simp
    have hfil : a.items.filter (fun e => e.1 ≠ it.1) = rest := by
      rw [hi]; rw [hi] at hnd; exact filter_head_nodup it rest hnd
    have hnd1 : (rest.map Prod.fst).Nodup := by
      rw [hi] at hnd; exact (List.nodup_cons.mp hnd).2
    have hpc1 : a.pending_count - 1 = (rest.length : Int) := by
      rw [hpc, hi]; simp
    refine ⟨it, rest, _, _, hi, pass_popped a slot it.1 _ it hget hhead hfind,
      ⟨?_, ?_, ?_, ?_, ?_, hh⟩, hfil, rfl, rfl, rfl, rfl⟩
    · show ((a.items.filter _).map Prod.fst).Nodup
      rw [hfil]; exact hnd1
    · show chained (a.items.filter _)
      rw [hfil]
      rw [hi] at hch
      cases rest with
      | nil => trivial
      | cons it2 r => exact hch.2
    · show it.2.next = (a.items.filter _).head?.map Prod.fst
      rw [hfil]
      rw [hi] at hch
      cases rest with
      | nil => exact hch
      | cons it2 r => exact hch.1
    · show a.pending_count - 1 = ((a.items.filter _).length : Int)
      rw [hfil]; exact hpc1
    · show (if it.2.next = none then some tail_ref.head else a.tailp)
        = some (match (a.items.filter _).getLast? with
                | none => tail_ref.head
                | some it => tail_ref.next it.1)
      rw [hfil]
      rw [hi] at hch htl
      cases rest with
      | nil =>
        have hnx : it.2.next = none := hch
        rw [if_pos hnx]
        rfl
      | cons it2 r =>
        have hnx : it.2.next = some it2.1 := hch.1
        rw [if_neg (by rw [hnx]; simp), htl, List.getLast?_cons_cons]

theorem chained_next (it : Nat × auth_client) (rest : List (Nat × auth_client))
    (h : chained (it :: rest)) : it.2.next = rest.head?.map Prod.fst ∧ chained rest := by
  cases rest with
  | nil => exact ⟨h, trivial⟩
  | cons it2 r => exact ⟨h.1, h.2⟩

theorem linked_items_chain : ∀ (suf pre : List (Nat × auth_client)) (fuel : Nat),
    ((pre ++ suf).map Prod.fst).Nodup → chained suf → suf.length < fuel →
    linked_items (pre ++ suf) fuel (suf.head?.map Prod.fst) = suf.map Prod.fst := by
  intro suf
  induction suf with
  | nil =>
    intro pre fuel _ _ _
    cases fuel <;> rfl
  | cons it rest ih =>
    intro pre fuel hnd hch hf
    obtain ⟨f, rfl⟩ : ∃ f, fuel = f + 1 := ⟨fuel - 1, by simp at hf; omega⟩
    have hfind : (pre ++ it :: rest).find? (fun e => e.1 = it.1) = some it := by
      rw [List.find?_append]
      have hpre : pre.find? (fun e => e.1 = it.1) = none := by
        rw [List.find?_eq_none]
        intro e he
        simp only [decide_eq_true_eq]
        intro e1
        rw [List.map_append, List.nodup_append] at hnd
        exact hnd.2.2 (List.mem_map_of_mem Prod.fst he)
          (by rw [e1]; exact List.mem_map_of_mem Prod.fst (List.mem_cons_self _ _))
      rw [hpre]
      simp
    obtain ⟨hnx, hch1⟩ := chained_next it rest hch
    simp only [List.head?_cons, Option.map_some', linked_items, hfind, List.map_cons]
    rw [hnx]
    have := ih (pre ++ [it]) f (by rw [List.append_assoc]; exact hnd) hch1
      (by simp at hf; omega)
    rw [List.append_assoc] at this
    rw [show pre ++ it :: rest = pre ++ ([it] ++ rest) from rfl, this]

/-- In a queue in order the work items linked from `head` are the items of
the queue, in order. -/
theorem queue_chain_wf (a : auth_t) (hw : queue_wf a) :
    queue_chain a = a.items.map Prod.fst := by
  obtain ⟨hnd, hch, hhd, _⟩ := hw
  unfold queue_chain
  rw [hhd]
  exact linked_items_chain a.items [] _ hnd hch (Nat.lt_succ_self _)

/-- Operations on a queue in order all return and leave the queue in order;
the work items that were in the queue or were put there are those taken off,
followed by those still in the queue, in this order. -/
theorem run_queue_ops_wf (E : auth_env) : ∀ (ops : List queue_op) (a : auth_t),
    queue_wf a → (∀ slot, queue_op.pass slot ∈ ops → slot < a.handles.length) →
    ∃ a' popped, run_queue_ops E ops a = .ok (a', popped) ∧ queue_wf a' ∧
      a.items.map (fun it => plain it.2) ++ (enqueued ops).map plain
        = popped.map plain ++ a'.items.map (fun it => plain it.2) ∧
      a'.handles.length = a.handles.length ∧ a'.running = a.running := by
  intro ops
  induction ops with
  | nil =>
    intro a hw _
    exact ⟨a, [], rfl, hw, by simp [enqueued], rfl, rfl⟩
  | cons op ops ih =>
    intro a hw hs
    cases op with
    | enqueue u =>
      obtain ⟨a1, h1, hw1, hp1, hl1, hr1⟩ := enqueue_item_wf E a u hw
      obtain ⟨a', popped, h2, hw2, hp2, hl2, hr2⟩ := ih a1 hw1
        (fun slot hm => by rw [hl1]; exact hs slot (List.mem_cons_of_mem _ hm))
      refine ⟨a', popped, ?_, hw2, ?_, by rw [hl2, hl1], by rw [hr2, hr1]⟩
      · simp only [run_queue_ops, h1, bind, Except.bind]
        exact h2
      · rw [← hp2, hp1]
        simp [enqueued]
    | pass slot =>
      have hslot : slot < a.handles.length := hs slot (List.mem_cons_self _ _)
      rcases pass_wf a slot hw hslot with
        ⟨hi, a1, h1, hw1, hi1, hl1, hr1, _⟩ | ⟨it, rest, a1, u, hi, h1, hw1, hi1, hu, hl1, hr1, _⟩
      · obtain ⟨a', popped, h2, hw2, hp2, hl2, hr2⟩ := ih a1 hw1
          (fun s hm => by rw [hl1]; exact hs s (List.mem_cons_of_mem _ hm))
        refine ⟨a', popped, ?_, hw2, ?_, by rw [hl2, hl1], by rw [hr2, hr1]⟩
        · simp only [run_queue_ops, h1, bind, Except.bind]
          exact h2
        · rw [← hp2, hi, hi1]
          simp [enqueued]
      · obtain ⟨a', popped, h2, hw2, hp2, hl2, hr2⟩ := ih a1 hw1
          (fun s hm => by rw [hl1]; exact hs s (List.mem_cons_of_mem _ hm))
        refine ⟨a', u :: popped, ?_, hw2, ?_, by rw [hl2, hl1], by rw [hr2, hr1]⟩
        · simp only [run_queue_ops, h1, bind, Except.bind, h2, pure, Except.pure]
        · rw [hi1] at hp2
          rw [hi]
          simp only [List.map_cons, List.cons_append, enqueued, hu]
          rw [← hp2]

/-- A worker that runs alone on a queue in order handles the work items of
the queue in their order and then leaves. -/
theorem auth_run_thread_drains (slot : Nat) : ∀ (n : Nat) (a : auth_t),
    queue_wf a → a.items.length = n → slot < a.handles.length →
    ∃ l rel, auth_run_thread slot (n + 1) a = .ok (some (l, rel)) ∧
      l.map plain = a.items.map (fun it => plain it.2) := by
  intro n
  induction n with
  | zero =>
    intro a hw hn hs
    have hnil : a.items = [] := List.length_eq_zero.mp hn
    rcases pass_wf a slot hw hs with
      ⟨_, a1, h1, _⟩ | ⟨it, rest, a1, u, hi, _⟩
    · refine ⟨[], auth_release (some a1), ?_, by rw [hnil]; rfl⟩
      simp only [auth_run_thread, h1, bind, Except.bind, pure, Except.pure]
    · rw [hnil] at hi; cases hi
  | succ n ih =>
    intro a hw hn hs
    rcases pass_wf a slot hw hs with
      ⟨hi, _⟩ | ⟨it, rest, a1, u, hi, h1, hw1, hi1, hu, hl1, _⟩
    · rw [hi] at hn; cases hn
    · have hn1 : a1.items.length = n := by
        rw [hi1]; rw [hi] at hn; simpa using hn
      obtain ⟨l, rel, h2, hl⟩ := ih a1 hw1 hn1 (by rw [hl1]; exact hs)
      refine ⟨u :: l, rel, ?_, ?_⟩
      · rw [auth_run_thread]
        simp only [h1, bind, Except.bind, h2, pure, Except.pure, Option.map_some']
      · rw [hi, List.map_cons, List.map_cons, hu, hl, hi1]

/-- C12: from the initial state of an authenticator (no work item,
`pending_count` 0, `tailp` at `head`), every sequence of enqueues and of
passes of the loops of the workers of its slots returns, and afterwards
`pending_count` is the number of work items linked from `head` and `tailp`
points at the `next` field of the last of them, at `head` when there is none;
the items linked from `head` are all the queued items. -/
theorem queue_ops_pending_count (E : auth_env) (a : auth_t) (ops : List queue_op)
    (hi : auth_initial a)
    (hs : ∀ slot, queue_op.pass slot ∈ ops → slot < a.handles.length) :
    ∃ a' popped, run_queue_ops E ops a = .ok (a', popped) ∧
      a'.pending_count = ((queue_chain a').length : Int) ∧
      a'.tailp = some (match (queue_chain a').getLast? with
                       | none => tail_ref.head
                       | some q => tail_ref.next q) ∧
      queue_chain a' = a'.items.map Prod.fst := by
  obtain ⟨a', popped, h, hw, _⟩ := run_queue_ops_wf E ops a (queue_wf_initial a hi) hs
  have hc := queue_chain_wf a' hw
  obtain ⟨_, _, _, hpc, htl, _⟩ := hw
  refine ⟨a', popped, h, ?_, ?_, hc⟩
  · rw [hc, hpc]; simp
  · rw [hc, htl, List.getLast?_map]
    cases a'.items.getLast? <;> rfl

/-- C12 on the authenticator built for a node without options: three work
items are queued, the first is taken off between the second and the third. -/
theorem queue_ops_pending_count_witness :
    ∃ a' popped, run_queue_ops sample_auth_env
        [queue_op.enqueue (item_of 1), queue_op.enqueue (item_of 2), queue_op.pass 0,
         queue_op.enqueue (item_of 3)] built_auth = .ok (a', popped) ∧
      a'.pending_count = ((queue_chain a').length : Int) ∧
      a'.tailp = some (match (queue_chain a').getLast? with
                       | none => tail_ref.head
                       | some q => tail_ref.next q) ∧
      queue_chain a' = a'.items.map Prod.fst :=
  queue_ops_pending_count sample_auth_env built_auth _ ⟨rfl, rfl, rfl, rfl, by decide⟩
    (by intro slot h; simp at h; subst h; decide)

/-- C13, as stated, fails: on an authenticator with three handlers the work
items of the listeners 1 and 2 are queued in this order, each enqueue starts a
worker, the worker of slot 0 takes the item of listener 1 off the queue and
the worker of slot 1 then takes that of listener 2; the worker of slot 1
calls `process` first, so the callback of listener 2 is dispatched before
that of listener 1. -/
theorem dispatch_order_counterexample :
    (run_events sample_auth_env
        [auth_event.enqueue (item_of 1), auth_event.enqueue (item_of 2),
         auth_event.pass 0, auth_event.pass 1] (system_start built_auth)).map
      (fun s => (s.holding.map (fun w => (w.1, w.2.client.map (fun c => c.connection.id))),
                 listeners_of s.dispatched))
      = some ([(0, some 1), (1, some 2)], []) ∧
    (run_events sample_auth_env
        [auth_event.enqueue (item_of 1), auth_event.enqueue (item_of 2),
         auth_event.pass 0, auth_event.pass 1,
         auth_event.dispatch 1, auth_event.dispatch 0] (system_start built_auth)).map
      (fun s => listeners_of s.dispatched)
      = some [some 2, some 1] := by
  decide

/-- C13, amended: from the initial state of an authenticator, after any
sequence of enqueues and of passes of the worker loops, the work items taken
off the queue are, in order, the first of the items that were queued, and
those still queued are the others, in order; a worker that then runs alone
takes these off and handles them (call of `process`) in that same order, so
that the items taken off are exactly those that were queued, in the order of
the enqueues. -/
theorem queue_ops_fifo (E : auth_env) (a : auth_t) (ops : List queue_op) (slot : Nat)
    (hi : auth_initial a)
    (hs : ∀ s, queue_op.pass s ∈ ops → s < a.handles.length)
    (hslot : slot < a.handles.length) :
    ∃ a' popped, run_queue_ops E ops a = .ok (a', popped) ∧
      (enqueued ops).map plain = popped.map plain ++ a'.items.map (fun it => plain it.2) ∧
      ∃ rest rel, auth_run_thread slot (a'.items.length + 1) a' = .ok (some (rest, rel)) ∧
        (enqueued ops).map plain = (popped ++ rest).map plain := by
  obtain ⟨a', popped, h, hw, hp, hl, _⟩ := run_queue_ops_wf E ops a (queue_wf_initial a hi) hs
  rw [hi.2.1] at hp
  simp only [List.map_nil, List.nil_append] at hp
  obtain ⟨rest, rel, hr, hrp⟩ := auth_run_thread_drains slot _ a' hw rfl (by rw [hl]; exact hslot)
  exact ⟨a', popped, h, hp, rest, rel, hr, by rw [hp, List.map_append, hrp]⟩

/-- C13, amended, on the authenticator built for a node without options:
the items of the listeners 1, 2 and 3 are queued, the first is taken off
between the second and the third. -/
theorem queue_ops_fifo_witness :
    ∃ a' popped, run_queue_ops sample_auth_env
        [queue_op.enqueue (item_of 1), queue_op.enqueue (item_of 2), queue_op.pass 0,
         queue_op.enqueue (item_of 3)] built_auth = .ok (a', popped) ∧
      (enqueued [queue_op.enqueue (item_of 1), queue_op.enqueue (item_of 2), queue_op.pass 0,
         queue_op.enqueue (item_of 3)]).map plain
        = popped.map plain ++ a'.items.map (fun it => plain it.2) ∧
      ∃ rest rel, auth_run_thread 0 (a'.items.length + 1) a' = .ok (some (rest, rel)) ∧
        (enqueued [queue_op.enqueue (item_of 1), queue_op.enqueue (item_of 2), queue_op.pass 0,
           queue_op.enqueue (item_of 3)]).map plain = (popped ++ rest).map plain :=
  queue_ops_fifo sample_auth_env built_auth _ 0 ⟨rfl, rfl, rfl, rfl, by decide⟩
    (by intro slot h; simp at h; subst h; decide) (by decide)

/-! ### References of an authenticator -/

theorem filter_set_le (p : auth_thread_t → Bool) : ∀ (l : List auth_thread_t) (i : Nat)
    (v : auth_thread_t), ((l.set i v).filter p).length ≤ (l.filter p).length + 1 := by
  intro l
  induction l with
  | nil => intro i v; simp
  | cons h t ih =>
    intro i v
    cases i with
    | zero =>
      simp only [List.set_cons_zero, List.filter_cons]
      split_ifs <;> first | omega | (simp only [List.length_cons]; omega)
    | succ j =>
      have := ih j v
      simp only [List.set_cons_succ, List.filter_cons]
      split_ifs <;> first | omega | (simp only [List.length_cons]; omega)

theorem filter_set_clear (p : auth_thread_t → Bool) : ∀ (l : List auth_thread_t) (i : Nat)
    (h v : auth_thread_t), l.get? i = some h → p h = true → p v = false →
    ((l.set i v).filter p).length + 1 = (l.filter p).length := by
  intro l
  induction l with
  | nil => intro i h v hg; simp at hg
  | cons x t ih =>
    intro i h v hg hp hv
    cases i with
    | zero =>
      simp only [List.get?_cons_zero, Option.some.injEq] at hg
      subst hg
      simp [List.filter_cons, hp, hv]
    | succ j =>
      have := ih j h v (by simpa using hg) hp hv
      simp only [List.set_cons_succ, List.filter_cons]
      split_ifs <;> first | omega | (simp only [List.length_cons]; omega)

theorem start_handler_counts (E : auth_env) : ∀ (n i : Nat) (a a' : auth_t),
    start_handler E a i n = .ok a' →
    (occupied a' : Int) - a'.refcount ≤ (occupied a : Int) - a.refcount := by
  intro n
  induction n with
  | zero => intro i a a' h; cases h; exact le_refl _
  | succ n ih =>
    intro i a a' h
    simp only [start_handler] at h
    cases hg : a.handles.get? i with
    | none => rw [hg] at h; cases h
    | some s =>
      rw [hg] at h
      simp only at h
      split_ifs at h
      · cases h
        have := filter_set_le (fun h => h.thread.isSome) a.handles i
          { s with thread := E.thread_create a.mount i }
        simp only [occupied]
        omega
      · exact ih (i + 1) a a' h

theorem enqueue_item_counts (E : auth_env) (a a' : auth_t) (u : auth_client) (hw : queue_wf a)
    (h : enqueue_item E a (fresh_item a) u = .ok a') :
    (occupied a' : Int) - a'.refcount ≤ (occupied a : Int) - a.refcount := by
  obtain ⟨a1, h1, _, _, _, _, _, _, _, hhs, hrc, _⟩ := store_tail_wf a u hw
  unfold enqueue_item at h
  rw [h1] at h
  simp only [bind, Except.bind] at h
  have h0 : (occupied a1 : Int) - a1.refcount = (occupied a : Int) - a.refcount := by
    simp only [occupied, hhs, hrc]
  split_ifs at h
  · simp only [pure, Except.pure, Except.ok.injEq] at h
    subst h
    exact le_of_eq h0
  · have := start_handler_counts E _ _ _ _ h
    simp only [occupied] at this h0 ⊢
    omega

theorem auth_release_some (a : auth_t) :
    (a.refcount - 1 ≠ 0 ∧
      auth_release (some a) = some (released.alive { a with refcount := a.refcount - 1 })) ∨
    (a.refcount - 1 = 0 ∧
      auth_release (some a) = some (released.freed
        { a with refcount := a.refcount - 1, running := 0, handlers := 0, handles := [] })) := by
  by_cases h : a.refcount - 1 = 0
  · right; exact ⟨h, by simp [auth_release, h]⟩
  · left; exact ⟨h, by simp [auth_release, h]⟩

/-- Every event keeps the references accounted for. -/
theorem system_step_counted (E : auth_env) (r0 : Int) (s s' : auth_system) (ev : auth_event)
    (hc : system_counted r0 s) (h : system_step E s ev = some s') : system_counted r0 s' := by
  unfold system_step at h
  cases ha : s.auth with
  | freed l => rw [ha] at h; cases h
  | alive a =>
    rw [ha] at h
    simp only [system_counted, ha] at hc
    obtain ⟨hw, hrun, hcnt⟩ := hc
    cases ev with
    | enqueue u =>
      simp only at h
      split_ifs at h with h0
      obtain ⟨a1, e1, hw1, _, _, hr1⟩ := enqueue_item_wf E a u hw
      have hk := enqueue_item_counts E a a1 u hw e1
      rw [e1] at h
      simp only [Option.some.injEq] at h
      subst h
      simp only [system_counted]
      exact ⟨hw1, by rw [hr1, hrun], by omega⟩
    | pass slot =>
      simp only at h
      split_ifs at h with h0
      push_neg at h0
      have hsome : ((a.handles.get? slot).bind (fun h => h.thread)).isSome = true := by
        have := h0.1
        cases hx : (a.handles.get? slot).bind (fun h => h.thread) with
        | none => rw [hx] at this; simp at this
        | some t => rfl
      obtain ⟨handler, hg, ht⟩ : ∃ handler, a.handles.get? slot = some handler ∧
          handler.thread.isSome = true := by
        cases hx : a.handles.get? slot with
        | none => rw [hx] at hsome; simp at hsome
        | some handler => rw [hx] at hsome; exact ⟨handler, rfl, by simpa using hsome⟩
      have hslot : slot < a.handles.length := by
        rw [List.get?_eq_getElem?] at hg
        exact (List.getElem?_eq_some_iff.mp hg).1
      rcases pass_wf a slot hw hslot with
        ⟨hi, a1, e1, hw1, _, _, hr1, hrc1⟩ | ⟨it, rest, a1, u, hi, e1, hw1, _, _, hl1, hr1, hrc1⟩
      · rw [e1] at h
        simp only [Option.some.injEq] at h
        subst h
        have hhead : a.head = none := by rw [hw.2.2.1, hi]; rfl
        have e2 := pass_leaving a slot handler hg hhead
        rw [e1] at e2
        simp only [Except.ok.injEq, thread_pass.leaving.injEq] at e2
        have hocc : occupied a1 + 1 = occupied a := by
          rw [e2]
          exact filter_set_clear (fun h => h.thread.isSome) a.handles slot handler
            { handler with thread := none } hg ht rfl
        simp only [system_counted]
        refine ⟨hw1, by rw [hr1, hrun], ?_⟩
        rw [hrc1]
        push_cast
        omega
      · rw [e1] at h
        simp only [Option.some.injEq] at h
        subst h
        simp only [system_counted]
        refine ⟨hw1, by rw [hr1, hrun], ?_⟩
        rw [hrc1]
        simp only [occupied, hl1]
        simp only [occupied] at hcnt
        exact hcnt
    | dispatch slot =>
      simp only at h
      cases hf : s.holding.find? (fun w => w.1 = slot) with
      | none => rw [hf] at h; cases h
      | some w =>
        rw [hf] at h
        simp only [Option.some.injEq] at h
        subst h
        simp only [system_counted, ha]
        exact ⟨hw, hrun, hcnt⟩
    | worker_release =>
      simp only at h
      split_ifs at h with h0
      rcases auth_release_some a with ⟨hz, e⟩ | ⟨hz, e⟩
      · rw [e] at h
        simp only [Option.map_some', Option.some.injEq] at h
        subst h
        simp only [system_counted]
        refine ⟨hw, hrun, ?_⟩
        show (occupied a : Int) + ((s.leaving - 1 : Nat) : Int) + (s.holders : Int)
          ≤ a.refcount - 1
        omega
      · rw [e] at h
        simp only [Option.map_some', Option.some.injEq] at h
        subst h
        simp only [system_counted]
        exact ⟨hz, trivial, trivial⟩
    | holder_release =>
      simp only at h
      split_ifs at h with h0
      rcases auth_release_some a with ⟨hz, e⟩ | ⟨hz, e⟩
      · rw [e] at h
        simp only [Option.map_some', Option.some.injEq] at h
        subst h
        simp only [system_counted]
        refine ⟨hw, hrun, ?_⟩
        show (occupied a : Int) + (s.leaving : Int) + ((s.holders - 1 : Nat) : Int)
          ≤ a.refcount - 1
        omega
      · rw [e] at h
        simp only [Option.map_some', Option.some.injEq] at h
        subst h
        simp only [system_counted]
        exact ⟨hz, trivial, trivial⟩

theorem run_events_counted (E : auth_env) (r0 : Int) : ∀ (evs : List auth_event)
    (s s' : auth_system), system_counted r0 s → run_events E evs s = some s' →
    system_counted r0 s' := by
  intro evs
  induction evs with
  | nil => intro s s' hc h; cases h; exact hc
  | cons ev evs ih =>
    intro s s' hc h
    simp only [run_events] at h
    cases h1 : system_step E s ev with
    | none => rw [h1] at h; cases h
    | some s1 =>
      rw [h1] at h
      exact ih s1 s' (system_step_counted E r0 s s1 ev hc h1) h

/-- Where the invariant on references holds: in every state reached from the
start by enqueues, passes of the worker loops, calls of `process` and releases
by workers and holders, an authenticator that is alive has `refcount >= 1`
whenever a worker runs in one of its slots and keeps its value of `running`;
an authenticator is freed only with `refcount` 0, and only then is it torn
down (`running` 0, no slots). -/
theorem workers_hold_references (E : auth_env) (a : auth_t) (evs : List auth_event)
    (s : auth_system) (hi : auth_initial a) (ho : occupied a = 0) (hr : a.refcount = 1)
    (h : run_events E evs (system_start a) = some s) :
    match s.auth with
    | released.alive a' => (0 < occupied a' → 1 ≤ a'.refcount) ∧ a'.running = a.running
    | released.freed l => l.refcount = 0 ∧ l.running = 0 ∧ l.handles = [] := by
  have h0 : system_counted a.running (system_start a) := by
    simp only [system_counted, system_start]
    refine ⟨queue_wf_initial a hi, trivial, ?_⟩
    rw [ho, hr]
    decide
  have h1 := run_events_counted E a.running evs _ s h0 h
  unfold system_counted at h1
  cases hs : s.auth with
  | alive a' =>
    rw [hs] at h1
    simp only at h1 ⊢
    exact ⟨fun hpos => by omega, h1.2.1⟩
  | freed l =>
    rw [hs] at h1
    exact h1

/-- C14 fails on the code: on an authenticator with one handler the item of
listener 1 is queued (a worker starts in slot 0), taken off and handled; the
worker finds the queue empty and gives up its slot; before it calls
`auth_release` the item of listener 2 is queued, and as `refcount` (2) is
above `handlers` (1) no worker is started.  The worker then drops its
reference (`refcount` 1, no worker left, one item queued) and the holder of
the last reference releases the authenticator: `refcount` reaches 0 and the
authenticator is torn down and freed with the item still linked from `head`.
The figures are: alive, `refcount`, `pending_count`, `head`, `running`, the
threads of the slots, workers holding an item, workers leaving, holders. -/
theorem auth_release_strands_queued_item :
    single_auth.handlers = 1 ∧
    (run_events sample_auth_env
        [auth_event.enqueue (item_of 1), auth_event.pass 0, auth_event.dispatch 0,
         auth_event.pass 0] (system_start single_auth)).map system_figures
      = some (true, 2, 0, none, 1, [none], 0, 1, 1) ∧
    (run_events sample_auth_env
        [auth_event.enqueue (item_of 1), auth_event.pass 0, auth_event.dispatch 0,
         auth_event.pass 0, auth_event.enqueue (item_of 2)]
        (system_start single_auth)).map system_figures
      = some (true, 2, 1, some 1, 1, [none], 0, 1, 1) ∧
    (run_events sample_auth_env
        [auth_event.enqueue (item_of 1), auth_event.pass 0, auth_event.dispatch 0,
         auth_event.pass 0, auth_event.enqueue (item_of 2), auth_event.worker_release]
        (system_start single_auth)).map system_figures
      = some (true, 1, 1, some 1, 1, [none], 0, 0, 1) ∧
    (run_events sample_auth_env
        [auth_event.enqueue (item_of 1), auth_event.pass 0, auth_event.dispatch 0,
         auth_event.pass 0, auth_event.enqueue (item_of 2), auth_event.worker_release,
         auth_event.holder_release]
        (system_start single_auth)).map system_figures
      = some (false, 0, 1, some 1, 0, [], 0, 0, 0) :=
  ⟨by decide, rfl, rfl, rfl, rfl⟩

/-! ### The initial state of a built authenticator -/

theorem apply_option_queue (a : auth_t) (o : config_options_t) :
    (apply_option a o).head = a.head ∧ (apply_option a o).items = a.items ∧
    (apply_option a o).pending_count = a.pending_count := by
  unfold apply_option
  split_ifs <;> exact ⟨rfl, rfl, rfl⟩

theorem apply_options_queue (opts : List config_options_t) : ∀ a : auth_t,
    (apply_options a opts).head = a.head ∧ (apply_options a opts).items = a.items ∧
    (apply_options a opts).pending_count = a.pending_count := by
  induction opts with
  | nil => intro a; exact ⟨rfl, rfl, rfl⟩
  | cons o os ih =>
    intro a
    obtain ⟨h1, h2, h3⟩ := ih (apply_option a o)
    obtain ⟨k1, k2, k3⟩ := apply_option_queue a o
    simp only [apply_options, List.foldl_cons] at h1 h2 h3 ⊢
    exact ⟨h1.trans k1, h2.trans k2, h3.trans k3⟩

theorem clamp_handlers_queue (a : auth_t) :
    (clamp_handlers a).head = a.head ∧ (clamp_handlers a).items = a.items ∧
    (clamp_handlers a).pending_count = a.pending_count := by
  unfold clamp_handlers
  simp only []
  split_ifs <;> exact ⟨rfl, rfl, rfl⟩

/-- An authenticator built by `auth_get_authenticator` starts in the initial
state of the queue when the constructor of the back-end leaves the queue of
the zeroed object alone. -/
theorem auth_get_authenticator_initial (B : auth_backends) (type : Option String)
    (children : List xml_child) (thread_id : Nat) (a : auth_t)
    (h : (auth_get_authenticator B type children thread_id).2.1 = some a)
    (hb : ∀ b, select_backend B (calloc_auth type) (collect_options children) = some b →
      b.head = none ∧ b.items = [] ∧ b.pending_count = 0) :
    auth_initial a := by
  obtain ⟨⟨_, hlen⟩, _, _⟩ := auth_get_authenticator_ready B type children thread_id a h
  unfold auth_get_authenticator at h
  simp only at h
  split_ifs at h with hneg
  simp only [Option.some.injEq] at h
  have hq : (get_authenticator B (calloc_auth type) (collect_options children)).2.head = none ∧
      (get_authenticator B (calloc_auth type) (collect_options children)).2.items = [] ∧
      (get_authenticator B (calloc_auth type) (collect_options children)).2.pending_count = 0 := by
    unfold get_authenticator at hneg ⊢
    cases hs : select_backend B (calloc_auth type) (collect_options children) with
    | none => rw [hs] at hneg; simp at hneg
    | some b =>
      obtain ⟨b1, b2, b3⟩ := hb b hs
      obtain ⟨c1, c2, c3⟩ := clamp_handlers_queue (apply_options b (collect_options children))
      obtain ⟨d1, d2, d3⟩ := apply_options_queue (collect_options children) b
      simp only
      exact ⟨by rw [c1, d1, b1], by rw [c2, d2, b2], by rw [c3, d3, b3]⟩
  subst h
  exact ⟨hq.1, hq.2.1, hq.2.2, rfl, hlen⟩

/-! ### The key of the file-handle cache -/

/-- C21, as stated, fails: the requests `fallback_request` and
`override_request` have the same mount and the same `FS_FALLBACK` and
`FS_USE_ADMIN` bits, yet `_compare_fh` gives 16 for them; with the handle of
the first in the cache, `find_fh` finds it for the first request and nothing
for the second, and `open_fh` builds a second handle for the same mount. -/
theorem compare_fh_override_counterexample :
    override_request.mount = fallback_request.mount ∧
    override_request.flags &&& (FS_FALLBACK ||| FS_USE_ADMIN)
      = fallback_request.flags &&& (FS_FALLBACK ||| FS_USE_ADMIN) ∧
    _compare_fh override_request fallback_request = .ok 16 ∧
    fallback_fserve.fh_cache = [1] ∧
    (heap_get fallback_fserve 1).map (fun fh => (fh.finfo.mount, fh.finfo.flags))
      = .ok (some "/live.mp3", FS_FALLBACK) ∧
    (find_fh fallback_fserve fallback_request).map Prod.fst = .ok (some 1) ∧
    (find_fh fallback_fserve override_request).map Prod.fst = .ok none ∧
    (open_fh sample_fserve_env fallback_locked fallback_request).map
      (fun r => (r.1, r.2.1.fh_cache)) = .ok (some 1, [1]) ∧
    (open_fh sample_fserve_env fallback_locked override_request).map
      (fun r => (r.1, r.2.1.fh_cache,
        (heap_get r.2.1 2).map (fun fh => (fh.finfo.mount, fh.finfo.flags))))
      = .ok (some 2, [1, 2], .ok (some "/live.mp3", FS_FALLBACK ||| FS_OVERRIDE)) := by
  decide

/-- C21, amended: the cache is keyed by the mount name and the whole of
`flags`.  For two requests that name a mount `_compare_fh` returns 0 exactly
when the mounts are equal and the flags are equal, bit for bit; two requests
with equal mount and equal flags are resolved by `find_fh` to the same
handle of the cache, or both to none. -/
theorem compare_fh_whole_flags (st : fserve_state) (x y : fbinfo)
    (hx : x.mount ≠ none) (hy : y.mount ≠ none) :
    (_compare_fh x y = .ok 0 ↔ x.mount = y.mount ∧ x.flags = y.flags) ∧
    (x.mount = y.mount ∧ x.flags = y.flags →
      (find_fh st x).map Prod.fst = (find_fh st y).map Prod.fst) := by
  refine ⟨⟨compare_fh_zero x y, fun h => compare_fh_self x y h.1 h.2 hx⟩, ?_⟩
  rintro ⟨hm, hf⟩
  simp only [find_fh, if_neg hx, if_neg hy, avl_get_by_key, avl_find_key st x y hm hf]
  cases avl_find st y st.fh_cache <;> rfl

/-- C21, amended, on the cache that holds the handle of the fallback file
`/live.mp3`: the request `fallback_request` and the same request with another
limit and type have the same key. -/
theorem compare_fh_whole_flags_witness :
    (_compare_fh fallback_request { fallback_request with limit := 0 } = .ok 0 ↔
      fallback_request.mount = ({ fallback_request with limit := 0 } : fbinfo).mount ∧
      fallback_request.flags = ({ fallback_request with limit := 0 } : fbinfo).flags) ∧
    (fallback_request.mount = ({ fallback_request with limit := 0 } : fbinfo).mount ∧
      fallback_request.flags = ({ fallback_request with limit := 0 } : fbinfo).flags →
      (find_fh fallback_fserve fallback_request).map Prod.fst
        = (find_fh fallback_fserve { fallback_request with limit := 0 }).map Prod.fst) :=
  compare_fh_whole_flags fallback_fserve fallback_request { fallback_request with limit := 0 }
    (by decide) (by decide)

/-! ### When `queue_auth_client` starts a worker -/

theorem start_handler_full (E : auth_env) : ∀ (n i : Nat) (a : auth_t),
    i + n ≤ a.handles.length →
    (∀ j s, i ≤ j → j < i + n → a.handles.get? j = some s → s.thread ≠ none) →
    start_handler E a i n = .ok a := by
  intro n
  induction n with
  | zero => intro i a _ _; rfl
  | succ n ih =>
    intro i a hl hocc
    have hi : i < a.handles.length := by omega
    simp only [start_handler, List.get?_eq_getElem?, List.getElem?_eq_getElem hi]
    have ht := hocc i (a.handles[i]) (le_refl _) (by omega)
      (by rw [List.get?_eq_getElem?, List.getElem?_eq_getElem hi])
    rw [if_neg ht]
    exact ih (i + 1) a (by omega) (fun j s h1 h2 => hocc j s (by omega) (by omega))

theorem start_handler_first (E : auth_env) : ∀ (n i k : Nat) (a : auth_t) (s : auth_thread_t),
    i ≤ k → k < i + n → a.handles.get? k = some s → s.thread = none →
    (∀ j t, i ≤ j → j < k → a.handles.get? j = some t → t.thread ≠ none) →
    start_handler E a i n
      = .ok { a with refcount := a.refcount + 1,
                     handles := a.handles.set k { s with thread := E.thread_create a.mount k } } := by
  intro n
  induction n with
  | zero => intro i k a s h1 h2; omega
  | succ n ih =>
    intro i k a s h1 h2 hk hfree hocc
    have hkl : k < a.handles.length := by
      rw [List.get?_eq_getElem?] at hk
      exact (List.getElem?_eq_some_iff.mp hk).1
    have hi : i < a.handles.length := by omega
    simp only [start_handler, List.get?_eq_getElem?, List.getElem?_eq_getElem hi]
    by_cases hik : i = k
    · subst hik
      rw [List.get?_eq_getElem?, List.getElem?_eq_getElem hi] at hk
      simp only [Option.some.injEq] at hk
      rw [hk, if_pos hfree]
    · have ht := hocc i (a.handles[i]) (le_refl _) (by omega)
        (by rw [List.get?_eq_getElem?, List.getElem?_eq_getElem hi])
      rw [if_neg ht]
      exact ih (i + 1) k a s (by omega) (by omega) hk hfree
        (fun j t h3 h4 => hocc j t (by omega) h4)

theorem store_tail_rest (x a1 : auth_t) (p : Nat) (h : store_tail x p = .ok a1) :
    a1.handles = x.handles ∧ a1.refcount = x.refcount ∧ a1.handlers = x.handlers ∧
    a1.mount = x.mount ∧ a1.pending_count = x.pending_count := by
  unfold store_tail at h
  split at h
  · cases h
  · cases h; exact ⟨rfl, rfl, rfl, rfl, rfl⟩
  · split_ifs at h
    cases h; exact ⟨rfl, rfl, rfl, rfl, rfl⟩

/-- C22, as stated, fails: on the sample authenticator (three handlers) the
first `queue_auth_client` finds the queue empty and starts the worker of slot
0; the second finds one pending item and starts the worker of slot 1, taking
`refcount` from 2 to 3.  On an authenticator with one handler, a free slot,
an empty queue and `refcount` 2, `queue_auth_client` starts no worker. -/
theorem queue_auth_client_spawn_counterexample :
    queue_figures (some sample_mount) = some (0, 1, [none, none, none]) ∧
    (queue_auth_client sample_auth_env (some (item_of 1)) (some sample_mount)).map queue_figures
      = .ok (some (1, 2, [some 100, none, none])) ∧
    ((queue_auth_client sample_auth_env (some (item_of 1)) (some sample_mount)).bind
        (fun m1 => queue_auth_client sample_auth_env (some (item_of 2)) m1)).map queue_figures
      = .ok (some (2, 3, [some 100, some 101, none])) ∧
    (leaving_auth.handlers, queue_figures (some (mount_with leaving_auth)))
      = (1, some (0, 2, [none])) ∧
    (queue_auth_client sample_auth_env (some (item_of 1)) (some (mount_with leaving_auth))).map
        queue_figures
      = .ok (some (1, 2, [none])) :=
  ⟨rfl, rfl, rfl, rfl, rfl⟩

/-- What the body of `queue_auth_client` does to `refcount` and to the slots
of a queue in order. -/
theorem enqueue_item_spawn (E : auth_env) (a : auth_t) (u : auth_client) (hw : queue_wf a) :
    ∃ a', enqueue_item E a (fresh_item a) u = .ok a' ∧
      a'.pending_count = a.pending_count + 1 ∧
      (a.refcount > a.handlers → a'.refcount = a.refcount ∧ a'.handles = a.handles) ∧
      ((∀ j s, j < a.handlers.toNat → a.handles.get? j = some s → s.thread ≠ none) →
        a'.refcount = a.refcount ∧ a'.handles = a.handles) ∧
      (∀ k s, a.refcount ≤ a.handlers → k < a.handlers.toNat → a.handles.get? k = some s →
        s.thread = none → (∀ j t, j < k → a.handles.get? j = some t → t.thread ≠ none) →
        a'.refcount = a.refcount + 1 ∧
        a'.handles = a.handles.set k { s with thread := E.thread_create a.mount k }) := by
  obtain ⟨a', h, hw', _, _, _⟩ := enqueue_item_wf E a u hw
  refine ⟨a', h, ?_⟩
  have hlen := hw.2.2.2.2.2
  unfold enqueue_item at h
  obtain ⟨a1, h1, h⟩ := bind_ok _ _ _ h
  obtain ⟨hhs, hrc, hhl, hmt, hpc⟩ := store_tail_rest _ _ _ h1
  simp only at hhs hrc hhl hmt hpc
  simp only at h
  by_cases hmax : a.refcount > a.handlers
  · rw [if_pos (by rw [hrc, hhl]; exact hmax)] at h
    simp only [pure, Except.pure, Except.ok.injEq] at h
    subst h
    refine ⟨by simp [hpc], fun _ => ⟨hrc, hhs⟩, fun _ => ⟨hrc, hhs⟩, ?_⟩
    intro k s hle
    omega
  · rw [if_neg (by rw [hrc, hhl]; exact hmax)] at h
    simp only [hhl] at h
    refine ⟨?_, fun hgt => absurd hgt hmax, ?_, ?_⟩
    · obtain ⟨_, _, _, hp, _⟩ := start_handler_keeps E _ _ _ _ h
      rw [hp]
      simp [hpc]
    · intro hocc
      rw [start_handler_full E a.handlers.toNat 0 _ (by simpa [hhs] using hlen)
        (fun j s _ hj hg => hocc j s (by omega) (by simpa [hhs] using hg))] at h
      simp only [Except.ok.injEq] at h
      subst h
      exact ⟨hrc, hhs⟩
    · intro k s _ hk hg hfree hocc
      rw [start_handler_first E a.handlers.toNat 0 k _ s (Nat.zero_le _) (by omega)
        (by simpa [hhs] using hg) hfree
        (fun j t _ hj hgj => hocc j t hj (by simpa [hhs] using hgj))] at h
      simp only [Except.ok.injEq] at h
      subst h
      exact ⟨by simp [hrc], by simp [hhs, hmt]⟩

theorem queue_auth_client_body (E : auth_env) (m : mount_proxy) (a a' : auth_t) (u : auth_client)
    (ha : m.auth = some a) (h : enqueue_item E a (fresh_item a) u = .ok a') :
    queue_auth_client E (some u) (some m) = .ok (some { m with auth := some a' }) := by
  simp [queue_auth_client, ha, h, bind, Except.bind, pure, Except.pure]

/-- C22, amended: `queue_auth_client` on a queue in order returns, with one
more pending item, and starts a worker exactly when `refcount` is at most
`handlers` and one of the first `handlers` slots is free, whatever the number
of pending items: with `refcount` above `handlers`, or with none of these
slots free, `refcount` and the slots stay as they were; otherwise the first
free slot gets the thread that `thread_create` returns and `refcount` grows
by one. -/
theorem queue_auth_client_spawn (E : auth_env) (m : mount_proxy) (a : auth_t) (u : auth_client)
    (ha : m.auth = some a) (hw : queue_wf a) :
    ∃ a', queue_auth_client E (some u) (some m) = .ok (some { m with auth := some a' }) ∧
      a'.pending_count = a.pending_count + 1 ∧
      (a.refcount > a.handlers → a'.refcount = a.refcount ∧ a'.handles = a.handles) ∧
      ((∀ j s, j < a.handlers.toNat → a.handles.get? j = some s → s.thread ≠ none) →
        a'.refcount = a.refcount ∧ a'.handles = a.handles) ∧
      (∀ k s, a.refcount ≤ a.handlers → k < a.handlers.toNat → a.handles.get? k = some s →
        s.thread = none → (∀ j t, j < k → a.handles.get? j = some t → t.thread ≠ none) →
        a'.refcount = a.refcount + 1 ∧
        a'.handles = a.handles.set k { s with thread := E.thread_create a.mount k }) := by
  obtain ⟨a', h, hrest⟩ := enqueue_item_spawn E a u hw
  exact ⟨a', queue_auth_client_body E m a a' u ha h, hrest⟩

/-- C22, amended, on the sample mount: the queue is empty and slot 0 is free,
so the worker of slot 0 is started. -/
theorem queue_auth_client_spawn_witness :
    ∃ a', queue_auth_client sample_auth_env (some (item_of 1)) (some sample_mount)
        = .ok (some { sample_mount with auth := some a' }) ∧
      a'.pending_count = sample_auth.pending_count + 1 ∧
      (sample_auth.refcount > sample_auth.handlers →
        a'.refcount = sample_auth.refcount ∧ a'.handles = sample_auth.handles) ∧
      ((∀ j s, j < sample_auth.handlers.toNat → sample_auth.handles.get? j = some s →
          s.thread ≠ none) →
        a'.refcount = sample_auth.refcount ∧ a'.handles = sample_auth.handles) ∧
      (∀ k s, sample_auth.refcount ≤ sample_auth.handlers → k < sample_auth.handlers.toNat →
        sample_auth.handles.get? k = some s → s.thread = none →
        (∀ j t, j < k → sample_auth.handles.get? j = some t → t.thread ≠ none) →
        a'.refcount = sample_auth.refcount + 1 ∧
        a'.handles = sample_auth.handles.set k
          { s with thread := sample_auth_env.thread_create sample_auth.mount k }) :=
  queue_auth_client_spawn sample_auth_env sample_mount sample_auth (item_of 1) rfl
    (queue_wf_initial sample_auth ⟨rfl, rfl, rfl, rfl, by decide⟩)
/-! ### A queued item has a worker -/

theorem filter_set_gain (p : auth_thread_t → Bool) : ∀ (l : List auth_thread_t) (i : Nat)
    (h v : auth_thread_t), l.get? i = some h → p h = false →
    (l.filter p).length ≤ ((l.set i v).filter p).length := by
  intro l
  induction l with
  | nil => intro i h v hg; simp at hg
  | cons x t ih =>
    intro i h v hg hp
    cases i with
    | zero =>
      simp only [List.get?_cons_zero, Option.some.injEq] at hg
      subst hg
      cases hv : p v <;> simp [List.filter_cons, hp, hv]
    | succ j =>
      have := ih j h v (by simpa using hg) hp
      simp only [List.set_cons_succ, List.filter_cons]
      split_ifs <;> first | omega | (simp only [List.length_cons]; omega)

theorem start_handler_grows (E : auth_env) : ∀ (n i : Nat) (a a' : auth_t),
    start_handler E a i n = .ok a' → occupied a ≤ occupied a' := by
  intro n
  induction n with
  | zero => intro i a a' h; cases h; exact le_refl _
  | succ n ih =>
    intro i a a' h
    simp only [start_handler] at h
    cases hg : a.handles.get? i with
    | none => rw [hg] at h; cases h
    | some s =>
      rw [hg] at h
      simp only at h
      split_ifs at h with hfree
      · cases h
        exact filter_set_gain (fun h => h.thread.isSome) a.handles i s
          { s with thread := E.thread_create a.mount i } hg (by simp [hfree])
      · exact ih (i + 1) a a' h

theorem enqueue_item_grows (E : auth_env) (a a' : auth_t) (p : Nat) (u : auth_client)
    (h : enqueue_item E a p u = .ok a') : occupied a ≤ occupied a' := by
  unfold enqueue_item at h
  obtain ⟨a1, h1, h⟩ := bind_ok _ _ _ h
  obtain ⟨hhs, _⟩ := store_tail_rest _ _ _ h1
  simp only at hhs h
  have h0 : occupied a1 = occupied a := by simp only [occupied, hhs]
  split_ifs at h
  · simp only [pure, Except.pure, Except.ok.injEq] at h
    subst h
    exact le_of_eq h0.symm
  · have := start_handler_grows E _ _ _ _ h
    simp only [occupied] at this h0 ⊢
    omega

theorem occupied_zero_free (a : auth_t) (h0 : occupied a = 0) (k : Nat) (s : auth_thread_t)
    (hg : a.handles.get? k = some s) : s.thread = none := by
  unfold occupied at h0
  have hmem : s ∈ a.handles := List.get?_mem hg
  have hnil := List.length_eq_zero.mp h0
  have := List.filter_eq_nil_iff.mp hnil s hmem
  cases ht : s.thread with
  | none => rfl
  | some t => simp [ht] at this

theorem occupied_set_pos (l : List auth_thread_t) (k : Nat) (v : auth_thread_t)
    (hk : k < l.length) (hv : v.thread.isSome = true) :
    1 ≤ ((l.set k v).filter (fun h => h.thread.isSome)).length := by
  have hmem : v ∈ (l.set k v).filter (fun h => h.thread.isSome) := by
    rw [List.mem_filter]
    exact ⟨List.mem_set l k hk v, hv⟩
  exact List.length_pos_of_mem hmem

/-- C28, as stated, fails: with collaborators whose `thread_create` returns
`NULL`, `queue_auth_client` on the sample authenticator (three handlers, no
slot occupied, `refcount` 1) queues the item, counts a reference for the
worker and leaves every slot free. -/
theorem queue_auth_client_no_thread_counterexample :
    (sample_auth.handlers, sample_auth.refcount, occupied sample_auth) = (3, 1, 0) ∧
    (queue_auth_client threadless_env (some (item_of 1)) (some sample_mount)).map queue_figures
      = .ok (some (1, 2, [none, none, none])) :=
  ⟨rfl, rfl⟩

/-- C28, amended: for an authenticator with a queue in order, at least one
handler and `refcount` equal to 1 plus the number of occupied slots,
`queue_auth_client` returns with at least one slot occupied, provided that
`thread_create` returns a thread. -/
theorem queue_auth_client_worker (E : auth_env) (m : mount_proxy) (a : auth_t) (u : auth_client)
    (ha : m.auth = some a) (hw : queue_wf a) (hh : 1 ≤ a.handlers)
    (hr : a.refcount = 1 + (occupied a : Int))
    (ht : ∀ i, (E.thread_create a.mount i).isSome = true) :
    ∃ a', queue_auth_client E (some u) (some m) = .ok (some { m with auth := some a' }) ∧
      1 ≤ occupied a' := by
  obtain ⟨a', h, _, _, _, hfirst⟩ := enqueue_item_spawn E a u hw
  refine ⟨a', queue_auth_client_body E m a a' u ha h, ?_⟩
  by_cases h0 : occupied a = 0
  · have hlen := hw.2.2.2.2.2
    have hpos : 0 < a.handles.length := by omega
    have hg : a.handles.get? 0 = some (a.handles[0]) := by
      rw [List.get?_eq_getElem?, List.getElem?_eq_getElem hpos]
    have hfree := occupied_zero_free a h0 0 _ hg
    obtain ⟨_, hhs⟩ := hfirst 0 _ (by rw [hr, h0]; simpa using hh) (by omega) hg hfree
      (fun j t hj => absurd hj (Nat.not_lt_zero j))
    unfold occupied
    rw [hhs]
    exact occupied_set_pos _ _ _ hpos (ht 0)
  · have := enqueue_item_grows E a a' _ u h
    omega

/-- C28, amended, on the sample mount, whose collaborators create a thread
for every slot. -/
theorem queue_auth_client_worker_witness :
    ∃ a', queue_auth_client sample_auth_env (some (item_of 1)) (some sample_mount)
        = .ok (some { sample_mount with auth := some a' }) ∧
      1 ≤ occupied a' :=
  queue_auth_client_worker sample_auth_env sample_mount sample_auth (item_of 1) rfl
    (queue_wf_initial sample_auth ⟨rfl, rfl, rfl, rfl, by decide⟩) (by decide) (by decide)
    (fun _ => rfl)

/-! ### The limit and the rate estimator of a new handle -/

theorem open_fh_file_limit (E : fserve_env) (st : fserve_state) (finfo : fbinfo) (mount : String)
    (fh fh1 : fh_node) (h : open_fh_file E st finfo mount fh = some fh1)
    (hr : fh.out_bitrate = none) :
    fh1.finfo.limit = fh.finfo.limit ∧
    (fh1.out_bitrate.isSome = true ↔
      fh1.finfo.type ≠ format_type_t.FORMAT_TYPE_UNDEFINED ∧ fh.finfo.limit ≠ 0) := by
  unfold open_fh_file at h
  simp only at h
  split_ifs at h <;> simp only [Option.some.injEq] at h <;> subst h <;>
    simp_all

/-- The handle that `open_fh` builds when the cache has none for the request:
it is the node set up from the request (by the block for a non-empty mount,
or the zeroed node with the request copied in), with the limit, the type and
the rate estimator of that node. -/
theorem open_fh_built (E : fserve_env) (st st1 : fserve_state) (finfo finfo1 : fbinfo)
    (addr : Nat)
    (hnew : find_fh st finfo = .ok (none, finfo1))
    (hopen : open_fh E st finfo = .ok (some addr, st1, finfo1)) :
    ∃ fh built, heap_get st1 addr = .ok fh ∧
      (if finfo1.mount.getD "" ≠ "" then
          open_fh_file E st finfo1 (finfo1.mount.getD "") (calloc_fh finfo1)
        else some (calloc_fh finfo1)) = some built ∧
      fh.finfo.limit = built.finfo.limit ∧ fh.finfo.type = built.finfo.type ∧
      fh.out_bitrate = built.out_bitrate ∧ finfo1.limit = finfo.limit := by
  simp only [find_fh] at hnew
  obtain ⟨r, hr, h⟩ := bind_ok _ _ _ hnew
  simp only [pure, Except.pure, Except.ok.injEq, Prod.mk.injEq] at h
  obtain ⟨rfl, hf1⟩ := h
  have hlim : finfo1.limit = finfo.limit := by
    rw [← hf1]
    split_ifs <;> rfl
  unfold open_fh at hopen
  simp only [hf1] at hopen hr
  obtain ⟨r2, hr2, h⟩ := bind_ok _ _ _ hopen
  rw [hr] at hr2
  cases hr2
  simp only at h
  cases hb : (if finfo1.mount.getD "" ≠ "" then
      open_fh_file E st finfo1 (finfo1.mount.getD "") (calloc_fh finfo1)
    else some (calloc_fh finfo1)) with
  | none =>
    rw [hb] at h
    simp only at h
    obtain ⟨s, _, h⟩ := bind_ok _ _ _ h
    simp [pure, Except.pure] at h
  | some fh =>
    rw [hb] at h
    simp only at h
    obtain ⟨s1, hs1, h⟩ := bind_ok _ _ _ h
    obtain ⟨s2, hs2, h⟩ := bind_ok _ _ _ h
    obtain ⟨-, e1⟩ := lock_eq _ _ _ hs1
    obtain ⟨-, e2⟩ := unlock_eq _ _ _ hs2
    simp only [pure, Except.pure, Except.ok.injEq, Prod.mk.injEq, Option.some.injEq] at h
    obtain ⟨ha, hst, -⟩ := h
    generalize hbig : (fh_node.mk _ _ _ _ _ _ _ _ _) = big at hst
    have hheap : st1.heap = st.heap ++ [(addr, big)] := by
      rw [← hst, e2, e1, ← ha]
    refine ⟨big, fh, heap_get_grow_new st st1 addr big hheap ?_, rfl, ?_, ?_, ?_, hlim⟩
    · rw [← ha]
      exact fresh_fh_fresh st
    · rw [← hbig]
      show (if _ then _ else _ : fh_node).finfo.limit = _
      split_ifs <;> rfl
    · rw [← hbig]
      show (if _ then _ else _ : fh_node).finfo.type = _
      split_ifs <;> rfl
    · rw [← hbig]
      show (if _ then _ else _ : fh_node).out_bitrate = _
      split_ifs <;> rfl

/-- For a handle that `open_fh` builds, the rate estimator exists exactly
when the mount is not empty, the type of the handle is known and the limit
is not 0. -/
theorem open_fh_estimator (E : fserve_env) (st st1 : fserve_state) (finfo finfo1 : fbinfo)
    (addr : Nat)
    (hnew : find_fh st finfo = .ok (none, finfo1))
    (hopen : open_fh E st finfo = .ok (some addr, st1, finfo1)) :
    ∃ fh, heap_get st1 addr = .ok fh ∧
      (fh.out_bitrate.isSome = true ↔
        finfo1.mount.getD "" ≠ "" ∧ fh.finfo.type ≠ format_type_t.FORMAT_TYPE_UNDEFINED ∧
        fh.finfo.limit ≠ 0) := by
  obtain ⟨fh, built, hg, hb, hl, ht, ho, _⟩ := open_fh_built E st st1 finfo finfo1 addr hnew hopen
  refine ⟨fh, hg, ?_⟩
  rw [ho, hl, ht]
  split_ifs at hb with hm
  · obtain ⟨h1, h2⟩ := open_fh_file_limit E st finfo1 _ _ _ hb rfl
    rw [h2, h1]
    simp [hm]
  · simp only [Option.some.injEq] at hb
    subst hb
    simp [calloc_fh, hm]

/-- C23, as stated, fails: `move_listener` to `/stream[8]` with a request
without limit derives the limit 1000 and `open_fh` builds the handle with
that limit; `open_fh` with a request of limit 100 builds a handle of limit
100.  Both limits are non-zero and below 1400. -/
theorem open_fh_low_limit_counterexample :
    (move_listener sample_fserve_env sample_process empty_fserve (listener 71 none)
        (bracket_request "/stream[8]")).map
      (fun r => (r.1, r.2.1.fh_cache, limit_at r.2.1, r.2.2.shared_data))
      = .ok (0, [1], .ok (1000, format_type_t.FORMAT_TYPE_MPEG, some (10000, 1000)), some 1) ∧
    (open_fh sample_fserve_env empty_locked { cover_request with limit := 100 }).map
      (fun r => (r.1, limit_at r.2.1))
      = .ok (some 1, .ok (100, format_type_t.FORMAT_TYPE_UNDEFINED, none)) :=
  ⟨rfl, rfl⟩

/-- C23, amended: a handle that `open_fh` constructs carries the limit of
the request as it is, whatever its value; no lower bound is applied to it. -/
theorem open_fh_keeps_limit (E : fserve_env) (st st1 : fserve_state) (finfo finfo1 : fbinfo)
    (addr : Nat)
    (hnew : find_fh st finfo = .ok (none, finfo1))
    (hopen : open_fh E st finfo = .ok (some addr, st1, finfo1)) :
    ∃ fh, heap_get st1 addr = .ok fh ∧ fh.finfo.limit = finfo.limit := by
  obtain ⟨fh, built, hg, hb, hl, _, _, hlim⟩ := open_fh_built E st st1 finfo finfo1 addr hnew hopen
  refine ⟨fh, hg, ?_⟩
  rw [hl, ← hlim]
  split_ifs at hb with hm
  · exact (open_fh_file_limit E st finfo1 _ _ _ hb rfl).1
  · simp only [Option.some.injEq] at hb
    subst hb
    rfl

/-- C23, amended, for the request of `/cover.jpg` at 100 bytes/s on the
empty cache. -/
theorem open_fh_keeps_limit_witness :
    ∃ fh, heap_get (state_or_empty
          ((open_fh sample_fserve_env empty_locked { cover_request with limit := 100 }).map
            (fun r => r.2.1))) 1 = .ok fh ∧
      fh.finfo.limit = ({ cover_request with limit := 100 } : fbinfo).limit :=
  open_fh_keeps_limit sample_fserve_env empty_locked _ { cover_request with limit := 100 }
    { cover_request with limit := 100 } 1 rfl rfl

/-- C24 fails on the code: for the request of `/cover.jpg` at 16000 bytes/s,
a file whose content type gives `FORMAT_TYPE_UNDEFINED`, `open_fh` builds a
handle with limit 16000 and no rate estimator; `fserve_setup_client_fb`
attaches listener 41 to it and `prefile_send` then hands the listener to the
throttled operations.  For the MPEG file `/live.mp3` at the same limit the
estimator is there. -/
theorem open_fh_undefined_type_no_estimator :
    (open_fh sample_fserve_env empty_locked limited_cover_request).map
      (fun r => (r.1, limit_at r.2.1))
      = .ok (some 1, .ok (16000, format_type_t.FORMAT_TYPE_UNDEFINED, none)) ∧
    (fserve_setup_client_fb sample_fserve_env sample_process empty_fserve (listener 41 none)
        (some limited_cover_request)).map
      (fun r => (r.1, limit_at r.2.1, r.2.2.shared_data))
      = .ok (0, .ok (16000, format_type_t.FORMAT_TYPE_UNDEFINED, none), some 1) ∧
    ((fserve_setup_client_fb sample_fserve_env sample_process empty_fserve (listener 41 none)
        (some limited_cover_request)).bind
      (fun r => prefile_exhausted sample_fserve_env sample_process r.2.1 r.2.2)).map
      (fun r => (r.1, r.2.2.ops))
      = .ok (0, some client_ops.throttled_file_content_ops) ∧
    (open_fh sample_fserve_env empty_locked fallback_request).map
      (fun r => (r.1, limit_at r.2.1))
      = .ok (some 1, .ok (16000, format_type_t.FORMAT_TYPE_MPEG, some (10000, 1000))) :=
  ⟨rfl, rfl, rfl, rfl⟩

/-! ### `auth_client_free`: the listener a work item still carries -/

/-- C25: for a work item that still carries a listener, `auth_client_free`
calls `client_send_401` with the realm of the authenticator whatever the
response code of the listener; the listener handed to that call is the one
of the item with `connection.error` set to 1 when its response code is not 0
and left as it was otherwise, and the item is freed with its `client` field
cleared. -/
theorem auth_client_free_sends_401 (E : auth_env) (auth : auth_t) (u : auth_client)
    (client : client_t) (hc : u.client = some client) :
    ∃ c1 : client_t,
      auth_client_free E auth (some u)
        = some (some ((E.client_send_401 c1 auth.realm).2, auth.realm),
                { u with client := none }) ∧
      c1 = { client with connection :=
              { client.connection with
                error := if client.respcode ≠ 0 then 1 else client.connection.error } } ∧
      (client.respcode ≠ 0 → c1.connection.error = 1) ∧
      (client.respcode = 0 → c1 = client) := by
  by_cases h : client.respcode = 0
  · exact ⟨client, by simp [auth_client_free, hc, h], by rw [if_neg (not_not.mpr h)],
      fun h1 => absurd h h1, fun _ => rfl⟩
  · exact ⟨{ client with connection := { client.connection with error := 1 } },
      by simp [auth_client_free, hc, h], by rw [if_pos h], fun _ => rfl, fun h1 => absurd h1 h⟩

/-- C25 on a listener dropped by `auth_new_listener`: the socket of listener
81 is closed, `auth_new_listener` sets the response code 400 and leaves the
listener in the item, and `auth_client_free` then sends the 401 with the
realm of the authenticator to the listener with `connection.error` 1. -/
theorem auth_client_free_sends_401_witness :
    (auth_new_listener dropped_worker_env sample_process empty_fserve sample_globals sample_auth
        refused_item).map (fun r => r.2.1)
      = .ok { refused_item with client := some { listener 81 none with respcode := 400 } } ∧
    ∃ c1 : client_t,
      auth_client_free sample_auth_env sample_auth
          (some { refused_item with client := some { listener 81 none with respcode := 400 } })
        = some (some ((sample_auth_env.client_send_401 c1 sample_auth.realm).2,
                      sample_auth.realm),
                { ({ refused_item with
                     client := some { listener 81 none with respcode := 400 } } : auth_client)
                  with client := none }) ∧
      c1 = { ({ listener 81 none with respcode := 400 } : client_t) with connection :=
              { ({ listener 81 none with respcode := 400 } : client_t).connection with
                error := if ({ listener 81 none with respcode := 400 } : client_t).respcode ≠ 0
                  then 1
                  else ({ listener 81 none with respcode := 400 } : client_t).connection.error } } ∧
      (({ listener 81 none with respcode := 400 } : client_t).respcode ≠ 0 →
        c1.connection.error = 1) ∧
      (({ listener 81 none with respcode := 400 } : client_t).respcode = 0 →
        c1 = { listener 81 none with respcode := 400 }) :=
  ⟨rfl, auth_client_free_sends_401 sample_auth_env sample_auth
    { refused_item with client := some { listener 81 none with respcode := 400 } }
    { listener 81 none with respcode := 400 } rfl⟩
/-! ### `auth_postprocess_listener` leaves no listener in the work item -/

theorem map_ok {ε α β : Type} (x : Except ε α) (f : α → β) (b : β) (h : x.map f = .ok b) :
    ∃ a, x = .ok a ∧ f a = b := by
  cases x with
  | error e => cases h
  | ok a =>
    simp only [Except.map, Except.ok.injEq] at h
    exact ⟨a, rfl, h⟩

/-- C30: for a work item that carries a listener, whenever
`auth_postprocess_listener` returns, on the path that sends the 401, on the
path to the rejected mount and on the path of an accepted listener, the
`client` field of the item is cleared, and `auth_client_free` called on the
item then sends nothing; on the path that sends the 401 the function always
returns. -/
theorem auth_postprocess_listener_clears_client (E : fserve_env) (process : process_fn)
    (st : fserve_state) (auth : auth_t) (u : auth_client) (client : client_t)
    (hc : u.client = some client) :
    (∀ r, auth_postprocess_listener E process st auth u = .ok r →
      r.auth_user.client = none ∧
      auth_client_free E.toauth_env auth (some r.auth_user) = some (none, r.auth_user)) ∧
    (has_bits client.flags CLIENT_AUTHENTICATED = false → auth.rejected_mount = none →
      ∃ r, auth_postprocess_listener E process st auth u = .ok r ∧ r.ret = -1 ∧
        r.sent_401 = some auth.realm) := by
  have hfree : ∀ v : auth_client, v.client = none →
      auth_client_free E.toauth_env auth (some v) = some (none, v) := by
    intro v hv
    simp [auth_client_free, hv]
  constructor
  · intro r h
    have hclear : r.auth_user.client = none := by
      unfold auth_postprocess_listener at h
      simp only [hc] at h
      split_ifs at h
      · split at h
        · obtain ⟨x, _, hx⟩ := map_ok _ _ _ h
          rw [← hx]
        · simp only [Except.ok.injEq] at h
          rw [← h]
      · obtain ⟨x, _, hx⟩ := map_ok _ _ _ h
        rw [← hx]
    exact ⟨hclear, hfree _ hclear⟩
  · intro hu hr
    exact ⟨{ ret := -1, st := st, auth_user := { u with client := none },
             client := some (E.client_send_401 client auth.realm).2,
             sent_401 := some auth.realm },
      by simp [auth_postprocess_listener, hc, hu, hr], rfl, rfl⟩

/-- C30 on the three paths: listener 81 is not authenticated and gets the 401
(no `rejected_mount`) or is routed to `/denied`; listener 82 is authenticated
and is accepted.  Each run returns with the `client` field cleared. -/
theorem auth_postprocess_listener_clears_client_witness :
    ((auth_postprocess_listener sample_fserve_env sample_process empty_fserve sample_auth
        refused_item).map (fun r => (r.ret, r.sent_401, r.auth_user.client))
      = .ok (-1, some none, none) ∧
     (auth_postprocess_listener sample_fserve_env sample_process empty_fserve rejecting_auth
        refused_item).map (fun r => (r.ret, r.sent_401, r.auth_user.client))
      = .ok (0, none, none) ∧
     (auth_postprocess_listener sample_fserve_env sample_process empty_fserve sample_auth
        accepted_item).map (fun r => (r.ret, r.sent_401, r.auth_user.client))
      = .ok (0, none, none)) ∧
    (∃ r, auth_postprocess_listener sample_fserve_env sample_process empty_fserve sample_auth
        refused_item = .ok r ∧ r.ret = -1 ∧ r.sent_401 = some sample_auth.realm) ∧
    (∀ r, auth_postprocess_listener sample_fserve_env sample_process empty_fserve rejecting_auth
        refused_item = .ok r →
      r.auth_user.client = none ∧
      auth_client_free sample_fserve_env.toauth_env rejecting_auth (some r.auth_user)
        = some (none, r.auth_user)) ∧
    (∀ r, auth_postprocess_listener sample_fserve_env sample_process empty_fserve sample_auth
        accepted_item = .ok r →
      r.auth_user.client = none ∧
      auth_client_free sample_fserve_env.toauth_env sample_auth (some r.auth_user)
        = some (none, r.auth_user)) :=
  ⟨⟨rfl, rfl, rfl⟩,
   (auth_postprocess_listener_clears_client sample_fserve_env sample_process empty_fserve
     sample_auth refused_item (listener 81 none) rfl).2 (by decide) rfl,
   (auth_postprocess_listener_clears_client sample_fserve_env sample_process empty_fserve
     rejecting_auth refused_item (listener 81 none) rfl).1,
   (auth_postprocess_listener_clears_client sample_fserve_env sample_process empty_fserve
     sample_auth accepted_item { listener 82 none with flags := CLIENT_AUTHENTICATED } rfl).1⟩

/-! ### The order of the cache lock and the handle locks -/

/-- C26 fails on the code: listener 31 is attached to the handle at address
1, which `fserve_set_override` redirected; up to there the cache lock was
never taken under a handle lock.  `fserve_move_listener` then takes the lock
of handle 1 and, through `move_listener` and `fserve_setup_client_fb`, the
cache lock while it still holds that handle lock; it gives the handle lock
back only in `fh_release`.  Along `fh_release` and `remove_fh_from_cache`
alone the handle lock is given back before the cache lock is taken. -/
theorem fserve_move_listener_cache_under_fh_lock :
    overridden_fserve.map (fun r => (r.1.trace.length, cache_under_fh r.1.trace, r.2.shared_data))
      = .ok (10, false, some 1) ∧
    (overridden_fserve.bind
        (fun r => fserve_move_listener sample_fserve_env sample_process r.1 r.2)).map
      (fun r => (r.1, r.2.1.trace.drop 10, cache_under_fh r.2.1.trace))
      = .ok (0,
          [lock_ev.acquire (lock_id.fh 1),
           lock_ev.acquire lock_id.config,
           lock_ev.acquire lock_id.source_tree,
           lock_ev.release lock_id.source_tree,
           lock_ev.release lock_id.config,
           lock_ev.acquire lock_id.fh_cache,
           lock_ev.acquire lock_id.config,
           lock_ev.release lock_id.config,
           lock_ev.acquire (lock_id.fh 2),
           lock_ev.release lock_id.fh_cache,
           lock_ev.release (lock_id.fh 2),
           lock_ev.release (lock_id.fh 1),
           lock_ev.acquire lock_id.fh_cache,
           lock_ev.acquire (lock_id.fh 1),
           lock_ev.release (lock_id.fh 1),
           lock_ev.release lock_id.fh_cache],
          true) ∧
    (overridden_fserve.bind
        (fun r => (lock r.1 (lock_id.fh 1)).bind (fun s => fh_release s (some 1)))).map
      (fun r => (r.trace.drop 10, cache_under_fh r.trace))
      = .ok ([lock_ev.acquire (lock_id.fh 1),
              lock_ev.release (lock_id.fh 1),
              lock_ev.acquire lock_id.fh_cache,
              lock_ev.acquire (lock_id.fh 1),
              lock_ev.release (lock_id.fh 1),
              lock_ev.release lock_id.fh_cache],
             false) := by
  decide

/-! ### The next wake after a write that fails -/

theorem file_send_loop_stall (E : send_env) (now : Int)
    (hkeep : ∀ w c, (E.write_fn w c).2.schedule_ms = c.schedule_ms) :
    ∀ (n : Nat) (written : Int) (st : fserve_state) (c : client_t)
      (r : Int × fserve_state × client_t) (w : Int),
    0 ≤ written → file_send_loop E now n written st c = .ok (r, some w) →
    written ≤ w ∧ ∃ k : Nat, k < n ∧
      r.2.2.schedule_ms = c.schedule_ms + 3 * k + (if w ≠ 0 then 120 else 250) := by
  intro n
  induction n with
  | zero => intro written st c r w _ h; simp [file_send_loop] at h
  | succ n ih =>
    intro written st c r w hw h
    simp only [file_send_loop] at h
    by_cases h1 : written < 30000
    swap
    · rw [if_pos h1] at h
      simp at h
    rw [if_neg (not_not.mpr h1)] at h
    by_cases h2 : st.fserve_running = 0 ∨ c.connection.error ≠ 0
    · rw [if_pos h2] at h
      simp at h
    rw [if_neg h2] at h
    by_cases h3 : c.connection.discon_time ≠ 0 ∧ now ≥ c.connection.discon_time
    · rw [if_pos h3] at h
      simp at h
    rw [if_neg h3] at h
    split at h
    · cases h
    · rename_i ref rest hbuf
      split at h
      · cases h
      · simp at h
      · rename_i c1 hfill
        have hs : c1.schedule_ms = c.schedule_ms := by
          split_ifs at hfill with hp
          · split at hfill
            · cases hfill
            · rename_i addr _
              cases hg : heap_get st addr with
              | error e => rw [hg] at hfill; cases hfill
              | ok fh =>
                rw [hg] at hfill
                simp only [Except.map, Except.ok.injEq] at hfill
                split_ifs at hfill
                simp only [Option.some.injEq] at hfill
                rw [← hfill]
          · simp only [Except.ok.injEq, Option.some.injEq] at hfill
            rw [← hfill]
        split at h
        · cases h
        · rename_i wf _
          by_cases hneg : (E.write_fn wf c1).1 < 0
          · rw [if_pos hneg] at h
            simp only [Except.ok.injEq, Prod.mk.injEq, Option.some.injEq] at h
            obtain ⟨hr, hw2⟩ := h
            subst hw2
            refine ⟨le_refl _, 0, Nat.succ_pos n, ?_⟩
            rw [← hr]
            simp only [hkeep, hs]
            split_ifs <;> simp_all
          · rw [if_neg hneg] at h
            obtain ⟨h4, k, hk, h5⟩ := ih (written + (E.write_fn wf c1).1) st _ r w (by omega) h
            refine ⟨by omega, k + 1, by omega, ?_⟩
            rw [h5]
            simp only [hkeep, hs]
            push_cast
            ring

theorem prefile_loop_stall (E : fserve_env) (process : process_fn) (wk : worker_t) (loop : Nat)
    (st : fserve_state) (client : client_t) (ref : refbuf_t) (rest : List refbuf_t) (w : Nat)
    (hrun : st.fserve_running ≠ 0) (herr : client.connection.error = 0)
    (hbuf : client.refbuf = ref :: rest) (hpos : client.pos ≠ ref.len)
    (hw : (if has_bits ref.flags WRITE_BLOCK_GENERIC then some E.format_generic_write_to_client
           else client.check_buffer) = some w)
    (hfail : (E.write_fn w client).1 < 0) :
    prefile_loop E process (some wk) (loop + 1) 0 st client
      = .ok (0, st, { (E.write_fn w client).2 with schedule_ms := wk.time_ms + 300 }) := by
  simp only [prefile_loop, hrun, herr, hbuf, hpos]
  by_cases hg : has_bits ref.flags WRITE_BLOCK_GENERIC = true
  · rw [if_pos hg] at hw
    simp only [Option.some.injEq] at hw
    simp [hg, hw, hfail]
  · rw [if_neg hg] at hw
    simp [hg, hw, hfail]

theorem prefile_loop_stall_next (E : fserve_env) (process : process_fn) (wk : worker_t)
    (loop : Nat) (st : fserve_state) (client : client_t) (old ref : refbuf_t)
    (rest : List refbuf_t) (w : Nat)
    (hrun : st.fserve_running ≠ 0) (herr : client.connection.error = 0)
    (hbuf : client.refbuf = old :: ref :: rest) (hpos : client.pos = old.len)
    (hfb : ∀ addr, client.shared_data = some addr →
      ∃ fh, heap_get st addr = .ok fh ∧ fh.finfo.fallback = none)
    (hw : (if has_bits ref.flags WRITE_BLOCK_GENERIC then some E.format_generic_write_to_client
           else client.check_buffer) = some w)
    (hfail : (E.write_fn w { client with refbuf := ref :: rest, pos := 0 }).1 < 0) :
    prefile_loop E process (some wk) (loop + 1) 0 st client
      = .ok (0, st, { (E.write_fn w { client with refbuf := ref :: rest, pos := 0 }).2 with
                      schedule_ms := wk.time_ms + 300 }) := by
  have hfall : (match client.shared_data with
      | some addr => (heap_get st addr).map (fun (n : fh_node) => n.finfo.fallback.isSome)
      | none => Except.ok false) = .ok false := by
    cases hs : client.shared_data with
    | none => rfl
    | some addr =>
      obtain ⟨fh, hg, hn⟩ := hfb addr hs
      simp [hg, hn, Except.map]
  simp only [prefile_loop, hrun, herr, hbuf, hpos, hfall]
  by_cases hg : has_bits ref.flags WRITE_BLOCK_GENERIC = true
  · rw [if_pos hg] at hw
    simp only [Option.some.injEq] at hw
    simp [hg, hw, hfail]
  · rw [if_neg hg] at hw
    simp only [hw] at hfail ⊢
    simp [hg, hfail]

/-- C27, as stated, fails: with `throttle_sends` 2 and a connection older
than one second, the first write of `file_send` fails with no byte written
and the next wake is set 550 ms after `time_ms` (5000). -/
theorem file_send_throttled_counterexample :
    (stalled_env 2).throttle_sends = 2 ∧ file_client.worker = some sample_worker ∧
    sample_worker.time_ms = 5000 ∧
    sample_worker.current_time_sec - file_client.connection.con_time = 5 ∧
    (file_send_wake (stalled_env 2) sample_fserve file_client).map
      (fun r => (r.1.1, r.1.2.2.schedule_ms, r.2)) = .ok (0, 5550, some 0) ∧
    (file_send (stalled_env 2) sample_fserve file_client).map
      (fun r => (r.1, r.2.2.schedule_ms)) = .ok (0, 5550) := by
  decide

/-- C27, amended: when a write returns less than 0 in a pass of the loop of
`prefile_send` with no byte written in the wake, whether the write is from
the buffer in use or from the next buffer of the chain, `schedule_ms` is set
to `time_ms + 300`.  When a write of `file_send` returns less than 0 with no
byte written in the wake, and the write function leaves `schedule_ms` alone,
`schedule_ms` is `time_ms + 250` plus 3 for each earlier write of the wake
(at most five), as long as the throttle does not apply; when `throttle_sends`
is above 1 and the connection is older than one second it is
`time_ms + 550`. -/
theorem send_stall_schedule (E : send_env) (process : process_fn) :
    (∀ (wk : worker_t) (loop : Nat) (st : fserve_state) (client : client_t) (ref : refbuf_t)
        (rest : List refbuf_t) (w : Nat),
      st.fserve_running ≠ 0 → client.connection.error = 0 →
      client.refbuf = ref :: rest → client.pos ≠ ref.len →
      (if has_bits ref.flags WRITE_BLOCK_GENERIC then some E.format_generic_write_to_client
       else client.check_buffer) = some w →
      (E.write_fn w client).1 < 0 →
      prefile_loop E.tofserve_env process (some wk) (loop + 1) 0 st client
        = .ok (0, st, { (E.write_fn w client).2 with schedule_ms := wk.time_ms + 300 })) ∧
    (∀ (wk : worker_t) (loop : Nat) (st : fserve_state) (client : client_t) (old ref : refbuf_t)
        (rest : List refbuf_t) (w : Nat),
      st.fserve_running ≠ 0 → client.connection.error = 0 →
      client.refbuf = old :: ref :: rest → client.pos = old.len →
      (∀ addr, client.shared_data = some addr →
        ∃ fh, heap_get st addr = .ok fh ∧ fh.finfo.fallback = none) →
      (if has_bits ref.flags WRITE_BLOCK_GENERIC then some E.format_generic_write_to_client
       else client.check_buffer) = some w →
      (E.write_fn w { client with refbuf := ref :: rest, pos := 0 }).1 < 0 →
      prefile_loop E.tofserve_env process (some wk) (loop + 1) 0 st client
        = .ok (0, st, { (E.write_fn w { client with refbuf := ref :: rest, pos := 0 }).2 with
                        schedule_ms := wk.time_ms + 300 })) ∧
    (∀ (st : fserve_state) (client : client_t) (worker : worker_t)
        (r : Int × fserve_state × client_t),
      client.worker = some worker →
      (∀ w c, (E.write_fn w c).2.schedule_ms = c.schedule_ms) →
      file_send_wake E st client = .ok (r, some 0) →
      file_send E st client = .ok r ∧
      (¬ (E.throttle_sends > 1 ∧ worker.current_time_sec - client.connection.con_time > 1) →
        ∃ k : Nat, k ≤ 5 ∧ r.2.2.schedule_ms = worker.time_ms + 250 + 3 * k) ∧
      (E.throttle_sends > 1 ∧ worker.current_time_sec - client.connection.con_time > 1 →
        r.2.2.schedule_ms = worker.time_ms + 550)) := by
  refine ⟨?_, ?_, ?_⟩
  · intro wk loop st client ref rest w hrun herr hbuf hpos hw hfail
    exact prefile_loop_stall E.tofserve_env process wk loop st client ref rest w hrun herr hbuf
      hpos hw hfail
  · intro wk loop st client old ref rest w hrun herr hbuf hpos hfb hw hfail
    exact prefile_loop_stall_next E.tofserve_env process wk loop st client old ref rest w hrun
      herr hbuf hpos hfb hw hfail
  · intro st client worker r hwk hkeep h
    refine ⟨by simp [file_send, h, Except.map], ?_, ?_⟩
    · intro hth
      simp only [file_send_wake, hwk, if_neg hth] at h
      obtain ⟨_, k, hk, hs⟩ := file_send_loop_stall E _ hkeep _ _ _ _ _ _ (le_refl _) h
      refine ⟨k, by omega, ?_⟩
      rw [hs]
      simp only [ne_eq, not_true_eq_false, if_false]
      ring
    · intro hth
      simp only [file_send_wake, hwk, if_pos hth] at h
      obtain ⟨_, k, hk, hs⟩ := file_send_loop_stall E _ hkeep _ _ _ _ _ _ (le_refl _) h
      have hk0 : k = 0 := by omega
      rw [hs, hk0]
      simp only [ne_eq, not_true_eq_false, if_false]
      push_cast
      ring

/-- C27, amended, on listener 51 whose every write fails: in the prefile
state the next wake is 300 ms after `time_ms` (5000), in the file state 250 ms
after it without throttle and 550 ms with `throttle_sends` 2. -/
theorem send_stall_schedule_witness :
    prefile_loop (stalled_env 0).tofserve_env sample_process (some sample_worker) (7 + 1) 0
        sample_fserve { file_client with pos := 0 }
      = .ok (0, sample_fserve,
          { ((stalled_env 0).write_fn 1 { file_client with pos := 0 }).2 with
            schedule_ms := sample_worker.time_ms + 300 }) ∧
    (file_send (stalled_env 0) sample_fserve file_client).map (fun r => r.2.2.schedule_ms)
      = .ok 5250 ∧
    (∃ k : Nat, k ≤ 5 ∧
      (5250 : Int) = sample_worker.time_ms + 250 + 3 * k) ∧
    (file_send (stalled_env 2) sample_fserve file_client).map (fun r => r.2.2.schedule_ms)
      = .ok (sample_worker.time_ms + 550) :=
  ⟨(send_stall_schedule (stalled_env 0) sample_process).1 sample_worker 7 sample_fserve
      { file_client with pos := 0 } (refbuf_new 8192) [] 1 (by decide) rfl rfl (by decide) rfl
      (by decide),
   by rw [((send_stall_schedule (stalled_env 0) sample_process).2.2 sample_fserve file_client
        sample_worker _ rfl (fun _ _ => rfl) rfl).1]; rfl,
   ((send_stall_schedule (stalled_env 0) sample_process).2.2 sample_fserve file_client
        sample_worker
        (0, sample_fserve,
         { file_client with refbuf := [{ data := "", len := 8192, flags := 0 }],
                            intro_offset := 8192, pos := 0, schedule_ms := 5250 })
        rfl (fun _ _ => rfl) rfl).2.1 (by decide),
   by rw [((send_stall_schedule (stalled_env 2) sample_process).2.2 sample_fserve file_client
        sample_worker _ rfl (fun _ _ => rfl) rfl).1]; rfl⟩

/-! ### `throttled_file_send` does not divide by zero -/

theorem bind_error {α β : Type} (x : Except fault α) (f : α → Except fault β) (e : fault)
    (h : (x >>= f) = .error e) : x = .error e ∨ ∃ a, x = .ok a ∧ f a = .error e := by
  cases x with
  | error e1 =>
    simp only [bind, Except.bind, Except.error.injEq] at h
    exact Or.inl (by rw [h])
  | ok a => exact Or.inr ⟨a, rfl, h⟩

theorem heap_get_no_division (st : fserve_state) (a : Nat) : no_division (heap_get st a) := by
  unfold no_division heap_get
  split <;> simp

theorem lock_no_division (st : fserve_state) (l : lock_id) : no_division (lock st l) := by
  unfold no_division lock
  split_ifs <;> simp

theorem unlock_no_division (st : fserve_state) (l : lock_id) : no_division (unlock st l) := by
  unfold no_division unlock
  split_ifs <;> simp

theorem fserve_change_worker_no_division (E : send_env) (c : client_t) :
    no_division (fserve_change_worker E c) := by
  unfold no_division fserve_change_worker
  split
  · simp
  · split_ifs
    · simp
    · split
      · simp
      · split_ifs <;> simp

theorem to_uint_range (v : Int) : 0 ≤ to_uint v ∧ to_uint v < 4294967296 := by
  unfold to_uint
  omega

theorem throttle_rate_value (counter secs : Int) :
    throttle_rate counter secs
      = .ok (if secs = 0 then 0 else to_uint (to_ulong (counter + 1400) / secs)) := by
  unfold throttle_rate c_div
  by_cases h : secs = 0
  · simp [h, pure, Except.pure]
  · simp [h, Except.map]

theorem throttle_backoff_value (limit : Int) :
    throttle_backoff limit = .ok (if limit ≥ 1400 then 1000 / (limit / 1400) else 50) := by
  unfold throttle_backoff c_div
  by_cases h : limit ≥ 1400
  · have hq : limit / 1400 ≠ 0 := by omega
    simp [h, hq, bind, Except.bind]
  · simp [h, pure, Except.pure]

theorem throttle_resched_value (limit : Int) (h0 : 0 ≤ limit) (h1 : limit < 4294967296) :
    throttle_resched limit = .ok (if limit > 2800 then 1000 / (limit / 1400 * 2) else 50) := by
  unfold throttle_resched c_div
  by_cases h : limit > 2800
  · have hq : to_uint (limit / 1400 * 2) = limit / 1400 * 2 := by
      unfold to_uint
      omega
    have hq0 : limit / 1400 * 2 ≠ 0 := by omega
    simp [h, hq, hq0, bind, Except.bind]
  · simp [h, pure, Except.pure]

theorem no_division_ok {α : Type} (a : α) : no_division (Except.ok a : Except fault α) := by
  simp [no_division]

theorem no_division_bind {α β : Type} (x : Except fault α) (f : α → Except fault β)
    (hx : no_division x) (hf : ∀ a, x = .ok a → no_division (f a)) : no_division (x >>= f) := by
  intro h
  rcases bind_error _ _ _ h with h1 | ⟨a, ha, h2⟩
  · exact hx h1
  · exact hf a ha h2

theorem no_division_ite {α : Type} (c : Prop) [Decidable c] (x y : Except fault α)
    (hx : no_division x) (hy : no_division y) : no_division (if c then x else y) := by
  split_ifs
  · exact hx
  · exact hy

theorem throttled_send_tail_no_division (E : send_env) (st : fserve_state) (addr : Nat)
    (worker : worker_t) (limit : Int) (client : client_t)
    (h0 : 0 ≤ limit) (h1 : limit < 4294967296) :
    no_division (throttled_send_tail E st addr worker limit client) := by
  unfold throttled_send_tail
  refine no_division_bind _ _ (heap_get_no_division _ _) (fun fh _ => ?_)
  refine no_division_bind _ _ ?_ (fun st1 _ => ?_)
  · refine no_division_ite _ _ _ ?_ (no_division_ok _)
    refine no_division_bind _ _ (lock_no_division _ _) (fun s1 _ => ?_)
    refine no_division_bind _ _ (heap_get_no_division _ _) (fun fh1 _ => ?_)
    exact unlock_no_division _ _
  · split
    · simp [no_division, throw, throwThe, MonadExceptOf.throw]
    · refine no_division_bind _ _ (heap_get_no_division _ _) (fun fh2 _ => ?_)
      refine no_division_ite _ _ _ (no_division_ok _) ?_
      refine no_division_ite _ _ _ (no_division_ok _) ?_
      simp only
      split
      · simp [no_division, throw, throwThe, MonadExceptOf.throw]
      · rw [throttle_resched_value limit h0 h1]
        exact no_division_ok _

theorem throttled_file_send_safe (E : send_env) (process : process_fn) (st : fserve_state)
    (client : client_t)
    (hmove : ∀ addr fh worker, client.shared_data = some addr → heap_get st addr = .ok fh →
      fh.finfo.fallback ≠ none → client.worker = some worker →
      fserve_move_listener E.tofserve_env process st
          { client with schedule_ms := worker.time_ms } ≠ .error fault.division_by_zero) :
    no_division (throttled_file_send E process st client) := by
  unfold throttled_file_send
  split
  · simp [no_division]
  · rename_i addr hs
    refine no_division_bind _ _ (heap_get_no_division _ _) (fun fh hg => ?_)
    simp only
    refine no_division_ite _ _ _ (no_division_ok _) ?_
    split
    · simp [no_division, throw, throwThe, MonadExceptOf.throw]
    · rename_i worker hw
      refine no_division_ite _ _ _ (no_division_ok _) ?_
      by_cases hnone : fh.finfo.fallback = none
      swap
      · rw [if_pos (by simpa [Option.isSome_iff_ne_none] using hnone)]
        exact hmove addr fh worker hs hg hnone hw
      rw [if_neg (by simp [hnone])]
      refine no_division_bind _ _ (fserve_change_worker_no_division _ _) (fun moved _ => ?_)
      refine no_division_ite _ _ _ (no_division_ok _) ?_
      rw [throttle_rate_value]
      have hr : ∀ v w : Int, 0 ≤ (if has_bits moved.2.flags CLIENT_WANTS_FLV then to_uint v
            else to_uint w) ∧
          (if has_bits moved.2.flags CLIENT_WANTS_FLV then to_uint v else to_uint w)
            < 4294967296 := by
        intro v w
        split_ifs
        · exact to_uint_range v
        · exact to_uint_range w
      refine no_division_bind _ _ (no_division_ok _) (fun rate _ => ?_)
      refine no_division_ite _ _ _ ?_ ?_
      · rw [throttle_backoff_value]
        refine no_division_bind _ _ (no_division_ok _) (fun d _ => ?_)
        refine no_division_ite _ _ _ (no_division_ok _) ?_
        exact throttled_send_tail_no_division E st addr worker _ _ (hr _ _).1 (hr _ _).2
      · exact throttled_send_tail_no_division E st addr worker _ _ (hr _ _).1 (hr _ _).2

/-- C29: `throttled_file_send` never divides by zero, whatever the limit of
the handle, the elapsed seconds and the collaborators: a run can end in a
division by zero only inside the call of `fserve_move_listener` that the
function hands a listener to when the handle has a fallback, before any
division of its own.  The rate is 0 when `secs` is 0 and the quotient by
`secs` otherwise; the back-off delay is `1000/(limit/1400)` for a limit of at
least 1400, where the divisor is not 0, and 50 otherwise; the delay after a
write is `1000/(limit/1400*2)` for a limit above 2800, where the divisor is
not 0, and 50 otherwise. -/
theorem throttled_file_send_no_division (E : send_env) (process : process_fn)
    (st : fserve_state) (client : client_t)
    (hmove : ∀ addr fh worker, client.shared_data = some addr → heap_get st addr = .ok fh →
      fh.finfo.fallback ≠ none → client.worker = some worker →
      fserve_move_listener E.tofserve_env process st
          { client with schedule_ms := worker.time_ms } ≠ .error fault.division_by_zero) :
    throttled_file_send E process st client ≠ .error fault.division_by_zero ∧
    (∀ counter secs : Int, throttle_rate counter secs
      = .ok (if secs = 0 then 0 else to_uint (to_ulong (counter + 1400) / secs))) ∧
    (∀ limit : Int, throttle_backoff limit
      = .ok (if limit ≥ 1400 then 1000 / (limit / 1400) else 50)) ∧
    (∀ limit : Int, 0 ≤ limit → limit < 4294967296 →
      throttle_resched limit = .ok (if limit > 2800 then 1000 / (limit / 1400 * 2) else 50) ∧
      (limit > 2800 → limit / 1400 * 2 ≠ 0)) ∧
    (∀ limit : Int, limit ≥ 1400 → limit / 1400 ≠ 0) :=
  ⟨throttled_file_send_safe E process st client hmove, throttle_rate_value,
   throttle_backoff_value,
   fun limit h0 h1 => ⟨throttle_resched_value limit h0 h1, fun h => by omega⟩,
   fun limit h => by omega⟩

/-- C29 on listener 61: with the limits 1000, 1400, 2800 and 16000 and with
0 and 5 seconds elapsed `throttled_file_send` returns; the worker's `time_ms`
is 5000. -/
theorem throttled_file_send_no_division_witness :
    ((throttled_file_send sending_env sample_process (throttled_fserve 1000)
        (throttled_client 5)).map (fun r => (r.1, r.2.2.schedule_ms)) = .ok (0, 5100) ∧
     (throttled_file_send sending_env sample_process (throttled_fserve 1400)
        (throttled_client 5)).map (fun r => (r.1, r.2.2.schedule_ms)) = .ok (0, 6050) ∧
     (throttled_file_send sending_env sample_process (throttled_fserve 2800)
        (throttled_client 5)).map (fun r => (r.1, r.2.2.schedule_ms)) = .ok (0, 5550) ∧
     (throttled_file_send sending_env sample_process (throttled_fserve 16000)
        (throttled_client 5)).map (fun r => (r.1, r.2.2.schedule_ms)) = .ok (0, 5135) ∧
     (throttled_file_send sending_env sample_process (throttled_fserve 16000)
        (throttled_client 0)).map (fun r => (r.1, r.2.2.schedule_ms)) = .ok (0, 5045) ∧
     (throttled_file_send sending_env sample_process (throttled_fserve 100)
        (throttled_client 0)).map (fun r => (r.1, r.2.2.schedule_ms)) = .ok (0, 5050)) ∧
    (throttled_file_send sending_env sample_process (throttled_fserve 1000) (throttled_client 5)
        ≠ .error fault.division_by_zero ∧
      (∀ counter secs : Int, throttle_rate counter secs
        = .ok (if secs = 0 then 0 else to_uint (to_ulong (counter + 1400) / secs))) ∧
      (∀ limit : Int, throttle_backoff limit
        = .ok (if limit ≥ 1400 then 1000 / (limit / 1400) else 50)) ∧
      (∀ limit : Int, 0 ≤ limit → limit < 4294967296 →
        throttle_resched limit = .ok (if limit > 2800 then 1000 / (limit / 1400 * 2) else 50) ∧
        (limit > 2800 → limit / 1400 * 2 ≠ 0)) ∧
      (∀ limit : Int, limit ≥ 1400 → limit / 1400 ≠ 0)) :=
  ⟨⟨rfl, rfl, rfl, rfl, rfl, rfl⟩,
   throttled_file_send_no_division sending_env sample_process (throttled_fserve 1000)
     (throttled_client 5)
     (by intro addr fh worker hs hg hfb; cases hs; cases hg; exact absurd rfl hfb)⟩

end Icecast
